import Mathlib

/-!
# Cluster network reconciliation engine: embedding and verification

Shallow embedding of

* `cloud/services/networkinterfaces/networkinterfaces.go`
  (`Service.Reconcile`, `Service.Delete`, `createInboundNatRule`), and
* `controllers/azurecluster_reconciler.go`
  (`azureClusterReconciler.Reconcile`, `Delete`, `deleteLB`, `deleteSubnets`,
  `deleteNSG`, `createOrUpdateNetworkAPIServerIP`, `setFailureDomainsForLocation`).

Remote clients are collaborators: they are parameters of the embedding, acting
on an abstract remote state `σ`.  Every program runs in `Prog`, a state and
result monad whose state carries the remote state and the log of the requests
issued so far.  A Go run-time panic (nil dereference, index out of range) is
the result `Res.panic`.  Pointer-typed SDK fields are `Option`s; `int32` values
are integers.
-/

namespace Capz

/-! ## Errors and results -/

/-- A Go `error` value: its message, and whether `azure.ResourceNotFound`
reports it as a not-found error. -/
structure Error where
  msg : String
  notFound : Bool
deriving DecidableEq, Repr

/-- Modelled from the spec: `azure.ResourceNotFound` is not part of the sources
read here; the spec calls it the not-found error kind, the one kind a delete
step tolerates.  It is a property of the error value itself. -/
def ResourceNotFound (e : Error) : Bool := e.notFound

/-- The `errors.Errorf` constructor: a fresh error with the given message. -/
def Errorf (m : String) : Error := ⟨m, false⟩

/-- The `errors.Wrap` and `errors.Wrapf` functions: the annotation, a colon,
and the message of the wrapped error.  The wrapper is a new error value. -/
def Wrap (e : Error) (m : String) : Error := ⟨m ++ ": " ++ e.msg, false⟩

/-- Result of running a Go function: normal return, returned error, or panic. -/
inductive Res (α : Type) where
  | ok (a : α)
  | err (e : Error)
  | panic
deriving DecidableEq, Repr

/-- Programs over a state `S`: the state survives errors and panics. -/
def Prog (S α : Type) : Type := S → Res α × S

namespace Prog

variable {S α β : Type}

/-- Return a value without touching the state. -/
def ret (a : α) : Prog S α := fun s => (Res.ok a, s)

/-- Sequencing: an error or a panic of the first program ends the run. -/
def andThen (m : Prog S α) (f : α → Prog S β) : Prog S β := fun s =>
  match m s with
  | (Res.ok a, s1) => f a s1
  | (Res.err e, s1) => (Res.err e, s1)
  | (Res.panic, s1) => (Res.panic, s1)

/-- The statement `return err`. -/
def fail (e : Error) : Prog S α := fun s => (Res.err e, s)

/-- A run-time panic. -/
def crash : Prog S α := fun s => (Res.panic, s)

/-- A `for _, x := range xs` loop whose body may return early with an error. -/
def forEach (body : α → Prog S Unit) : List α → Prog S Unit
  | [] => ret ()
  | x :: xs => andThen (body x) (fun _ => forEach body xs)

end Prog

instance instMonadProg {S : Type} : Monad (Prog S) where
  pure := Prog.ret
  bind := Prog.andThen

/-- The `to.String` helper: the pointed-to string, or the empty string for nil. -/
def toStr (p : Option String) : String := p.getD ""

/-! ## SDK types of package `network` (the fields the code reads or writes) -/

/-- The `network.SubResource` type. -/
structure SubResource where
  ID : Option String
deriving DecidableEq, Repr

/-- The `network.TransportProtocol` enumeration. -/
inductive TransportProtocol where
  | TCP
  | UDP
  | All
deriving DecidableEq, Repr

/-- The `network.InboundNatRulePropertiesFormat` type. -/
structure InboundNatRulePropertiesFormat where
  FrontendIPConfiguration : Option SubResource
  Protocol : TransportProtocol
  FrontendPort : Option Int
  BackendPort : Option Int
  IdleTimeoutInMinutes : Option Int
  EnableFloatingIP : Option Bool
deriving DecidableEq, Repr

/-- The `network.InboundNatRule` type; `props` is the embedded
`*InboundNatRulePropertiesFormat`. -/
structure InboundNatRule where
  props : Option InboundNatRulePropertiesFormat
  Name : Option String
  ID : Option String
deriving DecidableEq, Repr

/-- The `network.FrontendIPConfiguration` type. -/
structure FrontendIPConfiguration where
  Name : Option String
  ID : Option String
deriving DecidableEq, Repr

/-- The `network.BackendAddressPool` type. -/
structure BackendAddressPool where
  ID : Option String
deriving DecidableEq, Repr

/-- The `network.LoadBalancerPropertiesFormat` type. -/
structure LoadBalancerPropertiesFormat where
  FrontendIPConfigurations : Option (List FrontendIPConfiguration)
  BackendAddressPools : Option (List BackendAddressPool)
  InboundNatRules : Option (List InboundNatRule)
deriving DecidableEq, Repr

/-- The `network.LoadBalancer` type; `props` is the embedded
`*LoadBalancerPropertiesFormat`. -/
structure LoadBalancer where
  props : Option LoadBalancerPropertiesFormat
  Name : Option String
  ID : Option String
deriving DecidableEq, Repr

/-- The `network.Subnet` type. -/
structure Subnet where
  ID : Option String
deriving DecidableEq, Repr

/-- The `network.PublicIPAddress` type. -/
structure PublicIPAddress where
  Name : Option String
  ID : Option String
deriving DecidableEq, Repr

/-- The `network.IPAllocationMethod` enumeration. -/
inductive IPAllocationMethod where
  | Dynamic
  | Static
deriving DecidableEq, Repr

/-- The `network.InterfaceIPConfigurationPropertiesFormat` type. -/
structure InterfaceIPConfigurationPropertiesFormat where
  Subnet : Option Subnet
  PrivateIPAllocationMethod : IPAllocationMethod
  PrivateIPAddress : Option String
  LoadBalancerBackendAddressPools : Option (List BackendAddressPool)
  LoadBalancerInboundNatRules : Option (List InboundNatRule)
  PublicIPAddress : Option PublicIPAddress
deriving DecidableEq, Repr

/-- The `network.InterfaceIPConfiguration` type. -/
structure InterfaceIPConfiguration where
  Name : Option String
  props : Option InterfaceIPConfigurationPropertiesFormat
deriving DecidableEq, Repr

/-- The `network.Interface` type, flattened over its
`*InterfacePropertiesFormat`, which the code always supplies. -/
structure Interface where
  Location : Option String
  IPConfigurations : Option (List InterfaceIPConfiguration)
  EnableAcceleratedNetworking : Option Bool
deriving DecidableEq, Repr

/-! ## Network interface service -/

/-- The `infrav1.ControlPlane` role constant. -/
def ControlPlane : String := "control-plane"

/-- The network interface spec of one machine, as read from the scope. -/
structure NICSpec where
  Name : String
  MachineName : String
  MachineRole : String
  SubnetName : String
  VNetName : String
  VNetResourceGroup : String
  StaticIPAddress : String
  PublicLoadBalancerName : String
  InternalLoadBalancerName : String
  PublicIPName : String
  VMSize : String
  AcceleratedNetworking : Option Bool
deriving DecidableEq, Repr

/-- The part of the machine scope the service reads. -/
structure NICScope where
  ResourceGroup : String
  Location : String
  NICSpecs : List NICSpec
deriving DecidableEq, Repr

/-- A request sent to one of the remote clients of the service. -/
inductive NicCall where
  | subnetGet (rg vnet name : String)
  | lbGet (rg name : String)
  | publicIPGet (rg name : String)
  | hasAcceleratedNetworking (sku : String)
  | nicCreateOrUpdate (rg name : String) (nic : Interface)
  | nicDelete (rg name : String)
  | natCreateOrUpdate (rg lb name : String) (rule : InboundNatRule)
  | natDelete (rg lb name : String)
deriving DecidableEq, Repr

/-- The remote clients of the service, acting on the remote state `σ`. -/
structure Clients (σ : Type) where
  SubnetsGet : String → String → String → σ → Except Error Subnet × σ
  LoadBalancersGet : String → String → σ → Except Error LoadBalancer × σ
  PublicIPsGet : String → String → σ → Except Error PublicIPAddress × σ
  HasAcceleratedNetworking : String → σ → Except Error Bool × σ
  InterfacesCreateOrUpdate : String → String → Interface → σ → Option Error × σ
  InterfacesDelete : String → String → σ → Option Error × σ
  InboundNATRulesCreateOrUpdate :
    String → String → String → InboundNatRule → σ → Option Error × σ
  InboundNATRulesDelete : String → String → String → σ → Option Error × σ

/-- Run state of the service: remote state and the requests issued so far,
oldest first, each with the error it returned (none on success). -/
structure NicState (σ : Type) where
  world : σ
  log : List (NicCall × Option Error)
deriving DecidableEq

/-- The error part of a client reply. -/
def errOf {α : Type} : Except Error α → Option Error
  | Except.ok _ => none
  | Except.error e => some e

/-- Issue a read request: log it, update the remote state, hand back the reply. -/
def askGet {σ α : Type} (call : NicCall) (f : σ → Except Error α × σ) :
    Prog (NicState σ) (Except Error α) := fun s =>
  (Res.ok (f s.world).1, ⟨(f s.world).2, s.log ++ [(call, errOf (f s.world).1)]⟩)

/-- Issue a write request: log it, update the remote state, hand back the error. -/
def askPut {σ : Type} (call : NicCall) (f : σ → Option Error × σ) :
    Prog (NicState σ) (Option Error) := fun s =>
  (Res.ok (f s.world).1, ⟨(f s.world).2, s.log ++ [(call, (f s.world).1)]⟩)

/-- Outcome of the loop over the existing rules (lines 152-159). -/
inductive RuleScan where
  | found
  | nilDeref
  | ports (ps : List Int)
deriving DecidableEq, Repr

/-- The loop `for _, v := range *lb.InboundNatRules`: return as soon as a rule
carries the target name; otherwise record the frontend port of the rule, which
dereferences its properties and its port. -/
def scanRules (ruleName : String) : List InboundNatRule → List Int → RuleScan
  | [], ports => RuleScan.ports ports
  | v :: rest, ports =>
    if toStr v.Name = ruleName then RuleScan.found
    else
      match v.props with
      | none => RuleScan.nilDeref
      | some p =>
        match p.FrontendPort with
        | none => RuleScan.nilDeref
        | some fp => scanRules ruleName rest (ports ++ [fp])

/-- The candidates of the loop `for i = 2201; i < 2220; i++`, in loop order. -/
def sshPortCandidates : List Int := (List.range 19).map (fun (k : Nat) => 2201 + Int.ofNat k)

/-- Lines 147 and 160-173: port 22 unless it is taken; else the first candidate
of the loop that is not in the port set; none when the loop ends with
`found == false`. -/
def selectFrontendPort (ports : List Int) : Option Int :=
  if 22 ∈ ports then sshPortCandidates.find? (fun i => decide (i ∉ ports))
  else some 22

/-- The rule built at lines 174-186. -/
def natRuleFor (ruleName : String) (fip : FrontendIPConfiguration) (sshFrontendPort : Int) :
    InboundNatRule :=
  { Name := some ruleName
    ID := none
    props := some
      { BackendPort := some 22
        EnableFloatingIP := some false
        IdleTimeoutInMinutes := some 4
        FrontendIPConfiguration := some ⟨fip.ID⟩
        Protocol := TransportProtocol.TCP
        FrontendPort := some sshFrontendPort } }

/-- The function `createInboundNatRule`. -/
def createInboundNatRule {σ : Type} (c : Clients σ) (scope : NICScope)
    (lb : LoadBalancer) (ruleName : String) : Prog (NicState σ) Unit :=
  match lb.props with
  | none =>
    Prog.fail (Errorf ("Could not get existing inbound NAT rules from load balancer "
      ++ toStr lb.Name ++ " properties"))
  | some props =>
    match props.InboundNatRules with
    | none =>
      Prog.fail (Errorf ("Could not get existing inbound NAT rules from load balancer "
        ++ toStr lb.Name ++ " properties"))
    | some rules =>
      match scanRules ruleName rules [] with
      | RuleScan.found => Prog.ret ()
      | RuleScan.nilDeref => Prog.crash
      | RuleScan.ports ports =>
        match selectFrontendPort ports with
        | none =>
          Prog.fail (Errorf ("Failed to find available SSH Frontend port for NAT Rule in load balancer "
            ++ toStr lb.Name ++ " for AzureMachine " ++ ruleName))
        | some sshFrontendPort =>
          match props.FrontendIPConfigurations with
          | none => Prog.crash
          | some [] => Prog.crash
          | some (fip :: _) => do
            let r ← askPut
              (NicCall.natCreateOrUpdate scope.ResourceGroup (toStr lb.Name) ruleName
                (natRuleFor ruleName fip sshFrontendPort))
              (c.InboundNATRulesCreateOrUpdate scope.ResourceGroup (toStr lb.Name) ruleName
                (natRuleFor ruleName fip sshFrontendPort))
            match r with
            | none => Prog.ret ()
            | some e => Prog.fail e

/-! ## Cluster reconciler -/

/-- The `infrav1.SecurityGroup` type (the field the reconciler reads). -/
structure SecurityGroup where
  Name : String
deriving DecidableEq, Repr

/-- The `infrav1.RouteTable` type (the field the reconciler reads). -/
structure RouteTable where
  Name : String
deriving DecidableEq, Repr

/-- The `infrav1.SubnetSpec` type. -/
structure SubnetSpec where
  Role : String
  Name : String
  CidrBlock : String
  IPv6CidrBlock : String
  InternalLBIPAddress : String
  SecurityGroup : SecurityGroup
  RouteTable : RouteTable
deriving DecidableEq, Repr

/-- The `infrav1.VnetSpec` type. -/
structure VnetSpec where
  ResourceGroup : String
  Name : String
  CidrBlock : String
  IPv6Enabled : Bool
  IPv6CidrBlock : String
deriving DecidableEq, Repr

/-- The `infrav1.PublicIPSpec` type. -/
structure PublicIPSpec where
  Name : String
  DNSName : String
deriving DecidableEq, Repr

/-- The `clusterv1.FailureDomainSpec` type. -/
structure FailureDomainSpec where
  ControlPlane : Bool
deriving DecidableEq, Repr

/-- The cluster scope, through its accessors: `Name()`, `Location()`,
`ResourceGroup()`, `SubscriptionID`, `Vnet()`, `ControlPlaneSubnet()`,
`NodeSubnet()`, `Subnets()`, `Network().APIServerIP`, `IsIPV6Enabled()` and the
failure domain map of the status.  The accessors are not part of the sources
read here, so each is a field of its own. -/
structure ClusterScope where
  SubscriptionID : String
  ResourceGroup : String
  Name : String
  Location : String
  Vnet : VnetSpec
  ControlPlaneSubnet : SubnetSpec
  NodeSubnet : SubnetSpec
  Subnets : List SubnetSpec
  APIServerIP : PublicIPSpec
  IsIPV6Enabled : Bool
  FailureDomains : List (String × FailureDomainSpec)
deriving DecidableEq, Repr

/-- Modelled from the spec: `ClusterScope.SetFailureDomain` is not part of the
sources read here; the spec says a zone is recorded, overwriting a prior entry
for the same zone, and that none is removed.  The map is an association list
with at most one entry per key. -/
def ClusterScope.SetFailureDomain (s : ClusterScope) (id : String) (spec : FailureDomainSpec) :
    ClusterScope :=
  { s with FailureDomains := s.FailureDomains.filter (fun kv => kv.1 != id) ++ [(id, spec)] }

/-- The `virtualnetworks.Spec` type. -/
structure virtualnetworks.Spec where
  ResourceGroup : String
  Name : String
  CIDRs : List String
deriving DecidableEq, Repr

/-- The `securitygroups.Spec` type. -/
structure securitygroups.Spec where
  Name : String
  IsControlPlane : Bool
deriving DecidableEq, Repr

/-- The `routetables.Spec` type. -/
structure routetables.Spec where
  Name : String
deriving DecidableEq, Repr

/-- The `subnets.Spec` type. -/
structure subnets.Spec where
  Name : String
  CIDRs : List String
  VnetName : String
  RouteTableName : String
  SecurityGroupName : String
  Role : String
  InternalLBIPAddress : String
deriving DecidableEq, Repr

/-- The `internalloadbalancers.Spec` type. -/
structure internalloadbalancers.Spec where
  Name : String
  SubnetName : String
  SubnetCidr : String
  VnetName : String
  IPAddress : String
deriving DecidableEq, Repr

/-- The `publicips.Spec` type. -/
structure publicips.Spec where
  Name : String
  DNSName : String
  IsIPV6 : Bool
deriving DecidableEq, Repr

/-- The `publicloadbalancers.Spec` type. -/
structure publicloadbalancers.Spec where
  Name : String
  PublicIPName : String
  IsAPIServer : Bool
deriving DecidableEq, Repr

/-- The `interface{}` argument handed to a service: nil or one of the specs. -/
inductive Spec where
  | nil
  | vnet (s : virtualnetworks.Spec)
  | securityGroup (s : securitygroups.Spec)
  | routeTable (s : routetables.Spec)
  | subnet (s : subnets.Spec)
  | internalLB (s : internalloadbalancers.Spec)
  | publicIP (s : publicips.Spec)
  | publicLB (s : publicloadbalancers.Spec)
  | availabilityZones
deriving DecidableEq, Repr

/-- The service fields of `azureClusterReconciler`. -/
inductive Svc where
  | groupsSvc
  | vnetSvc
  | securityGroupSvc
  | routeTableSvc
  | subnetsSvc
  | internalLBSvc
  | publicIPSvc
  | publicLBSvc
  | availZoneSvc
deriving DecidableEq, Repr

/-- A call of a service method. -/
inductive ClusterCall where
  | reconcile (svc : Svc) (spec : Spec)
  | delete (svc : Svc) (spec : Spec)
  | get (svc : Svc) (spec : Spec)
deriving DecidableEq, Repr

/-- The services as collaborators acting on the remote state `σ`: the methods
of `azure.Service`, and `Get` of `azure.GetterService`, whose result the zone
service returns as a `[]string` (the type assertion of line 340 is then the
identity). -/
structure Services (σ : Type) where
  Reconcile : Svc → Spec → σ → Option Error × σ
  Delete : Svc → Spec → σ → Option Error × σ
  Get : Svc → Spec → σ → Except Error (List String) × σ

/-- The name helpers of package `azure` that the reconciler calls; they are not
part of the sources read here and are parameters of the embedding. -/
structure Naming where
  GenerateInternalLBName : String → String
  GeneratePublicLBName : String → String
  GeneratePublicIPName : String → String → String
  GenerateFQDN : String → String → String

/-- Run state of the reconciler: the scope, the remote state and the calls
issued so far, oldest first, each with the error it returned. -/
structure ClusterState (σ : Type) where
  scope : ClusterScope
  world : σ
  log : List (ClusterCall × Option Error)
deriving DecidableEq

/-- The bytes of a string, as `[]byte(s)` yields them. -/
def utf8Bytes (s : String) : List Nat :=
  (s.data.flatMap String.utf8EncodeChar).map UInt8.toNat

/-- The hash of `hash/fnv`, `New32a`: FNV-1a on 32 bits. -/
def fnv32a (bytes : List Nat) : Nat :=
  bytes.foldl (fun h b => ((h ^^^ b) * 16777619) % 2 ^ 32) 2166136261

/-- The `%x` verb on an unsigned integer: lowercase hexadecimal digits. -/
def hexOf (n : Nat) : String := String.mk (Nat.toDigits 16 n)

/-- The hash string of lines 188-190 and 323-325. -/
def clusterHash (s : ClusterScope) : String :=
  hexOf (fnv32a (utf8Bytes (s.SubscriptionID ++ "/" ++ s.ResourceGroup ++ "/" ++ s.Name)))

/-- The function `createOrUpdateNetworkAPIServerIP`, on the scope. -/
def createOrUpdateNetworkAPIServerIP (nm : Naming) (s : ClusterScope) : ClusterScope :=
  let s1 : ClusterScope :=
    if s.APIServerIP.Name = "" then
      { s with APIServerIP :=
          { s.APIServerIP with Name := nm.GeneratePublicIPName s.Name (clusterHash s) } }
    else s
  { s1 with APIServerIP :=
      { s1.APIServerIP with DNSName := nm.GenerateFQDN s1.APIServerIP.Name s1.Location } }

/-- Read the scope. -/
def getScope {σ : Type} : Prog (ClusterState σ) ClusterScope := fun s => (Res.ok s.scope, s)

/-- Update the scope. -/
def modifyScope {σ : Type} (f : ClusterScope → ClusterScope) : Prog (ClusterState σ) Unit :=
  fun s => (Res.ok (), { s with scope := f s.scope })

/-- The function `setFailureDomainsForLocation`. -/
def setFailureDomainsForLocation {σ : Type} (sv : Services σ) : Prog (ClusterState σ) Unit :=
  fun s =>
    match (sv.Get Svc.availZoneSvc Spec.availabilityZones s.world).1 with
    | Except.error err =>
      (Res.err err,
        ⟨s.scope, (sv.Get Svc.availZoneSvc Spec.availabilityZones s.world).2,
          s.log ++ [(ClusterCall.get Svc.availZoneSvc Spec.availabilityZones, some err)]⟩)
    | Except.ok zones =>
      (Res.ok (),
        ⟨zones.foldl (fun sc zone => sc.SetFailureDomain zone ⟨true⟩) s.scope,
          (sv.Get Svc.availZoneSvc Spec.availabilityZones s.world).2,
          s.log ++ [(ClusterCall.get Svc.availZoneSvc Spec.availabilityZones, none)]⟩)

/-- The statement `if err := f(); err != nil { return errors.Wrap(err, msg) }`. -/
def orWrap {S : Type} (m : Prog S Unit) (msg : String) : Prog S Unit := fun s =>
  match m s with
  | (Res.err e, s1) => (Res.err (Wrap e msg), s1)
  | r => r

/-- The statement
`if err := svc.Reconcile(ctx, spec); err != nil { return errors.Wrapf(err, msg) }`. -/
def reconcileStep {σ : Type} (sv : Services σ) (svc : Svc) (spec : Spec) (msg : String) :
    Prog (ClusterState σ) Unit := fun s =>
  match (sv.Reconcile svc spec s.world).1 with
  | some err =>
    (Res.err (Wrap err msg),
      ⟨s.scope, (sv.Reconcile svc spec s.world).2,
        s.log ++ [(ClusterCall.reconcile svc spec, some err)]⟩)
  | none =>
    (Res.ok (),
      ⟨s.scope, (sv.Reconcile svc spec s.world).2,
        s.log ++ [(ClusterCall.reconcile svc spec, none)]⟩)

/-- The statement
`if err := svc.Delete(ctx, spec); err != nil { if !azure.ResourceNotFound(err) { return errors.Wrapf(err, msg) } }`. -/
def deleteStep {σ : Type} (sv : Services σ) (svc : Svc) (spec : Spec) (msg : String) :
    Prog (ClusterState σ) Unit := fun s =>
  match (sv.Delete svc spec s.world).1 with
  | some err =>
    if ResourceNotFound err then
      (Res.ok (),
        ⟨s.scope, (sv.Delete svc spec s.world).2,
          s.log ++ [(ClusterCall.delete svc spec, some err)]⟩)
    else
      (Res.err (Wrap err msg),
        ⟨s.scope, (sv.Delete svc spec s.world).2,
          s.log ++ [(ClusterCall.delete svc spec, some err)]⟩)
  | none =>
    (Res.ok (),
      ⟨s.scope, (sv.Delete svc spec s.world).2,
        s.log ++ [(ClusterCall.delete svc spec, none)]⟩)

/-- The CIDR list built at lines 83-86, 122-125 and 140-143. -/
def cidrsOf (scope : ClusterScope) (v4 v6 : String) : List String :=
  if scope.Vnet.IPv6Enabled then [v4] ++ [v6] else [v4]

/-- The method `azureClusterReconciler.Reconcile`. -/
def Reconcile {σ : Type} (nm : Naming) (sv : Services σ) : Prog (ClusterState σ) Unit := do
  modifyScope (createOrUpdateNetworkAPIServerIP nm)
  let scope ← getScope
  orWrap (setFailureDomainsForLocation sv)
    ("failed to get availability zones for cluster " ++ scope.Name ++ " in location "
      ++ scope.Location)
  reconcileStep sv Svc.groupsSvc Spec.nil
    ("failed to reconcile resource group for cluster " ++ scope.Name)
  reconcileStep sv Svc.vnetSvc
    (Spec.vnet
      { ResourceGroup := scope.Vnet.ResourceGroup
        Name := scope.Vnet.Name
        CIDRs := cidrsOf scope scope.Vnet.CidrBlock scope.Vnet.IPv6CidrBlock })
    ("failed to reconcile virtual network for cluster " ++ scope.Name)
  reconcileStep sv Svc.securityGroupSvc
    (Spec.securityGroup
      { Name := scope.ControlPlaneSubnet.SecurityGroup.Name
        IsControlPlane := true })
    ("failed to reconcile control plane network security group for cluster " ++ scope.Name)
  reconcileStep sv Svc.securityGroupSvc
    (Spec.securityGroup
      { Name := scope.NodeSubnet.SecurityGroup.Name
        IsControlPlane := false })
    ("failed to reconcile node network security group for cluster " ++ scope.Name)
  reconcileStep sv Svc.routeTableSvc
    (Spec.routeTable { Name := scope.NodeSubnet.RouteTable.Name })
    ("failed to reconcile route table " ++ scope.NodeSubnet.RouteTable.Name ++ " for cluster "
      ++ scope.Name)
  reconcileStep sv Svc.subnetsSvc
    (Spec.subnet
      { Name := scope.ControlPlaneSubnet.Name
        CIDRs := cidrsOf scope scope.ControlPlaneSubnet.CidrBlock
          scope.ControlPlaneSubnet.IPv6CidrBlock
        VnetName := scope.Vnet.Name
        SecurityGroupName := scope.ControlPlaneSubnet.SecurityGroup.Name
        Role := scope.ControlPlaneSubnet.Role
        RouteTableName := scope.ControlPlaneSubnet.RouteTable.Name
        InternalLBIPAddress := scope.ControlPlaneSubnet.InternalLBIPAddress })
    ("failed to reconcile control plane subnet for cluster " ++ scope.Name)
  reconcileStep sv Svc.subnetsSvc
    (Spec.subnet
      { Name := scope.NodeSubnet.Name
        CIDRs := cidrsOf scope scope.NodeSubnet.CidrBlock scope.NodeSubnet.IPv6CidrBlock
        VnetName := scope.Vnet.Name
        SecurityGroupName := scope.NodeSubnet.SecurityGroup.Name
        RouteTableName := scope.NodeSubnet.RouteTable.Name
        Role := scope.NodeSubnet.Role
        InternalLBIPAddress := "" })
    ("failed to reconcile node subnet for cluster " ++ scope.Name)
  reconcileStep sv Svc.internalLBSvc
    (Spec.internalLB
      { Name := nm.GenerateInternalLBName "control-plane"
        SubnetName := scope.ControlPlaneSubnet.Name
        SubnetCidr := scope.ControlPlaneSubnet.CidrBlock
        VnetName := scope.Vnet.Name
        IPAddress := scope.ControlPlaneSubnet.InternalLBIPAddress })
    ("failed to reconcile control plane internal load balancer for cluster " ++ scope.Name)
  reconcileStep sv Svc.publicIPSvc
    (Spec.publicIP
      { Name := scope.APIServerIP.Name
        DNSName := scope.APIServerIP.DNSName
        IsIPV6 := false })
    ("failed to reconcile control plane public ip for cluster " ++ scope.Name)
  reconcileStep sv Svc.publicLBSvc
    (Spec.publicLB
      { Name := nm.GeneratePublicLBName "control-plane"
        PublicIPName := scope.APIServerIP.Name
        IsAPIServer := true })
    ("failed to reconcile control plane public load balancer for cluster " ++ scope.Name)
  if scope.IsIPV6Enabled then do
    reconcileStep sv Svc.publicIPSvc
      (Spec.publicIP
        { Name := nm.GeneratePublicIPName "cluster" (clusterHash scope)
          DNSName := ""
          IsIPV6 := false })
      ("failed to reconcile control plane public ip for cluster " ++ scope.Name)
    reconcileStep sv Svc.publicLBSvc
      (Spec.publicLB
        { Name := nm.GeneratePublicLBName "cluster"
          PublicIPName := nm.GeneratePublicIPName "cluster" (clusterHash scope)
          IsAPIServer := false })
      ("failed to reconcile control plane public load balancer for cluster " ++ scope.Name)
  else
    Prog.ret ()

/-- The method `azureClusterReconciler.deleteLB`; `scope` is `r.scope`. -/
def deleteLB {σ : Type} (nm : Naming) (sv : Services σ) (scope : ClusterScope) :
    Prog (ClusterState σ) Unit := do
  deleteStep sv Svc.publicLBSvc
    (Spec.publicLB
      { Name := nm.GeneratePublicLBName scope.Name
        PublicIPName := ""
        IsAPIServer := false })
    ("failed to delete lb " ++ nm.GeneratePublicLBName scope.Name ++ " for cluster "
      ++ scope.Name)
  deleteStep sv Svc.publicIPSvc
    (Spec.publicIP
      { Name := scope.APIServerIP.Name
        DNSName := ""
        IsIPV6 := false })
    ("failed to delete public ip " ++ scope.APIServerIP.Name ++ " for cluster " ++ scope.Name)
  deleteStep sv Svc.internalLBSvc
    (Spec.internalLB
      { Name := nm.GenerateInternalLBName scope.Name
        SubnetName := ""
        SubnetCidr := ""
        VnetName := ""
        IPAddress := "" })
    ("failed to internal load balancer " ++ nm.GenerateInternalLBName scope.Name
      ++ " for cluster " ++ scope.Name)

/-- The spec `deleteSubnets` builds for one subnet of the scope. -/
def subnetDeleteSpec (scope : ClusterScope) (sn : SubnetSpec) : Spec :=
  Spec.subnet
    { Name := sn.Name
      CIDRs := []
      VnetName := scope.Vnet.Name
      RouteTableName := ""
      SecurityGroupName := ""
      Role := ""
      InternalLBIPAddress := "" }

/-- The method `azureClusterReconciler.deleteSubnets`; `scope` is `r.scope`. -/
def deleteSubnets {σ : Type} (sv : Services σ) (scope : ClusterScope) :
    Prog (ClusterState σ) Unit :=
  Prog.forEach
    (fun sn => deleteStep sv Svc.subnetsSvc (subnetDeleteSpec scope sn)
      ("failed to delete " ++ sn.Name ++ " subnet for cluster " ++ scope.Name))
    scope.Subnets

/-- The method `azureClusterReconciler.deleteNSG`; `scope` is `r.scope`. -/
def deleteNSG {σ : Type} (sv : Services σ) (scope : ClusterScope) :
    Prog (ClusterState σ) Unit := do
  deleteStep sv Svc.securityGroupSvc
    (Spec.securityGroup
      { Name := scope.NodeSubnet.SecurityGroup.Name
        IsControlPlane := false })
    ("failed to delete security group " ++ scope.NodeSubnet.SecurityGroup.Name
      ++ " for cluster " ++ scope.Name)
  deleteStep sv Svc.securityGroupSvc
    (Spec.securityGroup
      { Name := scope.ControlPlaneSubnet.SecurityGroup.Name
        IsControlPlane := false })
    ("failed to delete security group " ++ scope.ControlPlaneSubnet.SecurityGroup.Name
      ++ " for cluster " ++ scope.Name)

/-- The method `azureClusterReconciler.Delete`. -/
def Delete {σ : Type} (nm : Naming) (sv : Services σ) : Prog (ClusterState σ) Unit := do
  let scope ← getScope
  orWrap (deleteLB nm sv scope) "failed to delete load balancer"
  orWrap (deleteSubnets sv scope) "failed to delete subnets"
  deleteStep sv Svc.routeTableSvc
    (Spec.routeTable { Name := scope.NodeSubnet.RouteTable.Name })
    ("failed to delete route table " ++ scope.NodeSubnet.RouteTable.Name ++ " for cluster "
      ++ scope.Name)
  orWrap (deleteNSG sv scope) "failed to delete network security group"
  deleteStep sv Svc.vnetSvc
    (Spec.vnet
      { ResourceGroup := scope.Vnet.ResourceGroup
        Name := scope.Vnet.Name
        CIDRs := [] })
    ("failed to delete virtual network " ++ scope.Vnet.Name ++ " for cluster " ++ scope.Name)
  deleteStep sv Svc.groupsSvc Spec.nil
    ("failed to delete resource group for cluster " ++ scope.Name)

/-! ## Network interface service: Reconcile and Delete -/

/-- The statement `x, err := get(...); if err != nil { return errors.Wrap(err, msg) }`. -/
def getOrWrap {σ α : Type} (call : NicCall) (f : σ → Except Error α × σ) (msg : String) :
    Prog (NicState σ) α := fun s =>
  match (f s.world).1 with
  | Except.error err =>
    (Res.err (Wrap err msg), ⟨(f s.world).2, s.log ++ [(call, some err)]⟩)
  | Except.ok a =>
    (Res.ok a, ⟨(f s.world).2, s.log ++ [(call, none)]⟩)

/-- The expression `(*lb.BackendAddressPools)[0].ID`: it panics when the load
balancer has no properties, no pool list or an empty pool list. -/
def firstBackendPoolID {S : Type} (lb : LoadBalancer) : Prog S (Option String) :=
  match lb.props with
  | none => Prog.crash
  | some props =>
    match props.BackendAddressPools with
    | none => Prog.crash
    | some [] => Prog.crash
    | some (pool :: _) => Prog.ret pool.ID

/-- Lines 47-71 of `Service.Reconcile`: the public load balancer of the spec.
Returns the backend pools and the inbound NAT rules of the interface. -/
def publicLBPart {σ : Type} (c : Clients σ) (scope : NICScope) (nicSpec : NICSpec) :
    Prog (NicState σ) (List BackendAddressPool × Option (List InboundNatRule)) :=
  if nicSpec.PublicLoadBalancerName ≠ "" then do
    let lb ← getOrWrap (NicCall.lbGet scope.ResourceGroup nicSpec.PublicLoadBalancerName)
      (c.LoadBalancersGet scope.ResourceGroup nicSpec.PublicLoadBalancerName)
      "failed to get public LB"
    let poolID ← firstBackendPoolID lb
    if nicSpec.MachineRole = ControlPlane then do
      orWrap (createInboundNatRule c scope lb nicSpec.MachineName) "failed to create NAT rule"
      Prog.ret ([⟨poolID⟩],
        some [⟨none, none, some (toStr lb.ID ++ "/inboundNatRules/" ++ nicSpec.MachineName)⟩])
    else
      Prog.ret ([⟨poolID⟩], none)
  else
    Prog.ret ([], none)

/-- Lines 72-83 of `Service.Reconcile`: the internal load balancer of the spec. -/
def internalLBPart {σ : Type} (c : Clients σ) (scope : NICScope) (nicSpec : NICSpec)
    (backendAddressPools : List BackendAddressPool) :
    Prog (NicState σ) (List BackendAddressPool) :=
  if nicSpec.InternalLoadBalancerName ≠ "" then do
    let internalLB ← getOrWrap
      (NicCall.lbGet scope.ResourceGroup nicSpec.InternalLoadBalancerName)
      (c.LoadBalancersGet scope.ResourceGroup nicSpec.InternalLoadBalancerName)
      "failed to get internalLB"
    let poolID ← firstBackendPoolID internalLB
    Prog.ret (backendAddressPools ++ [⟨poolID⟩])
  else
    Prog.ret backendAddressPools

/-- Lines 86-92 of `Service.Reconcile`: the public IP of the spec. -/
def publicIPPart {σ : Type} (c : Clients σ) (scope : NICScope) (nicSpec : NICSpec) :
    Prog (NicState σ) (Option PublicIPAddress) :=
  if nicSpec.PublicIPName ≠ "" then do
    let publicIP ← getOrWrap (NicCall.publicIPGet scope.ResourceGroup nicSpec.PublicIPName)
      (c.PublicIPsGet scope.ResourceGroup nicSpec.PublicIPName) "failed to get publicIP"
    Prog.ret (some publicIP)
  else
    Prog.ret none

/-- Lines 94-102 of `Service.Reconcile`: the accelerated networking flag. -/
def acceleratedNetworkingPart {σ : Type} (c : Clients σ) (nicSpec : NICSpec) :
    Prog (NicState σ) (Option Bool) :=
  match nicSpec.AcceleratedNetworking with
  | none => do
    let accelNet ← getOrWrap (NicCall.hasAcceleratedNetworking nicSpec.VMSize)
      (c.HasAcceleratedNetworking nicSpec.VMSize)
      "failed to get accelerated networking capability"
    Prog.ret (some accelNet)
  | some b => Prog.ret (some b)

/-- The interface sent at lines 104-118. -/
def interfaceFor (scope : NICScope) (nicConfig : InterfaceIPConfigurationPropertiesFormat)
    (accel : Option Bool) : Interface :=
  { Location := some scope.Location
    IPConfigurations := some [⟨some "pipConfig", some nicConfig⟩]
    EnableAcceleratedNetworking := accel }

/-- Lines 104-123 of `Service.Reconcile`: create or update the interface. -/
def createInterfacePart {σ : Type} (c : Clients σ) (scope : NICScope) (nicSpec : NICSpec)
    (nic : Interface) : Prog (NicState σ) Unit := do
  let err ← askPut (NicCall.nicCreateOrUpdate scope.ResourceGroup nicSpec.Name nic)
    (c.InterfacesCreateOrUpdate scope.ResourceGroup nicSpec.Name nic)
  match err with
  | some e =>
    Prog.fail (Wrap e ("failed to create network interface " ++ nicSpec.Name
      ++ " in resource group " ++ scope.ResourceGroup))
  | none => Prog.ret ()

/-- The body of the loop of `Service.Reconcile`, for one interface spec. -/
def reconcileNIC {σ : Type} (c : Clients σ) (scope : NICScope) (nicSpec : NICSpec) :
    Prog (NicState σ) Unit := do
  let subnet ← getOrWrap
    (NicCall.subnetGet nicSpec.VNetResourceGroup nicSpec.VNetName nicSpec.SubnetName)
    (c.SubnetsGet nicSpec.VNetResourceGroup nicSpec.VNetName nicSpec.SubnetName)
    "failed to get subnets"
  let lbPart ← publicLBPart c scope nicSpec
  let backendAddressPools ← internalLBPart c scope nicSpec lbPart.1
  let publicIP ← publicIPPart c scope nicSpec
  let accel ← acceleratedNetworkingPart c nicSpec
  createInterfacePart c scope nicSpec
    (interfaceFor scope
      { Subnet := some ⟨subnet.ID⟩
        PrivateIPAllocationMethod :=
          if nicSpec.StaticIPAddress ≠ "" then IPAllocationMethod.Static
          else IPAllocationMethod.Dynamic
        PrivateIPAddress :=
          if nicSpec.StaticIPAddress ≠ "" then some nicSpec.StaticIPAddress else none
        LoadBalancerBackendAddressPools := some backendAddressPools
        LoadBalancerInboundNatRules := lbPart.2
        PublicIPAddress := publicIP }
      accel)

/-- The method `Service.Reconcile` of the network interface service. -/
def Service.Reconcile {σ : Type} (c : Clients σ) (scope : NICScope) : Prog (NicState σ) Unit :=
  Prog.forEach (reconcileNIC c scope) scope.NICSpecs

/-- The statement
`err := del(...); if err != nil && !azure.ResourceNotFound(err) { return errors.Wrapf(err, msg) }`. -/
def deleteOrWrap {σ : Type} (call : NicCall) (f : σ → Option Error × σ) (msg : String) :
    Prog (NicState σ) Unit := fun s =>
  match (f s.world).1 with
  | some err =>
    if ResourceNotFound err then
      (Res.ok (), ⟨(f s.world).2, s.log ++ [(call, some err)]⟩)
    else
      (Res.err (Wrap err msg), ⟨(f s.world).2, s.log ++ [(call, some err)]⟩)
  | none => (Res.ok (), ⟨(f s.world).2, s.log ++ [(call, none)]⟩)

/-- The body of the loop of `Service.Delete`, for one interface spec. -/
def deleteNIC {σ : Type} (c : Clients σ) (scope : NICScope) (nicSpec : NICSpec) :
    Prog (NicState σ) Unit := do
  deleteOrWrap (NicCall.nicDelete scope.ResourceGroup nicSpec.Name)
    (c.InterfacesDelete scope.ResourceGroup nicSpec.Name)
    ("failed to delete network interface " ++ nicSpec.Name ++ " in resource group "
      ++ scope.ResourceGroup)
  deleteOrWrap
    (NicCall.natDelete scope.ResourceGroup nicSpec.PublicLoadBalancerName nicSpec.MachineName)
    (c.InboundNATRulesDelete scope.ResourceGroup nicSpec.PublicLoadBalancerName
      nicSpec.MachineName)
    ("failed to delete inbound NAT rule " ++ nicSpec.MachineName ++ " in load balancer "
      ++ nicSpec.PublicLoadBalancerName)

/-- The method `Service.Delete` of the network interface service. -/
def Service.Delete {σ : Type} (c : Clients σ) (scope : NICScope) : Prog (NicState σ) Unit :=
  Prog.forEach (deleteNIC c scope) scope.NICSpecs

/-! ## Vocabulary of the statements about the cluster reconciler -/

/-- The calls issued between two run states of the reconciler. -/
def issuedCalls {σ : Type} (before after : ClusterState σ) : List (ClusterCall × Option Error) :=
  after.log.drop before.log.length

/-- A logged call succeeded, or returned an error the tolerance `tol` accepts. -/
def Tolerated (tol : Error → Bool) (ev : ClusterCall × Option Error) : Prop :=
  ∀ e, ev.2 = some e → tol e = true

/-- The tolerance of `Reconcile`: no error is accepted. -/
def tolNone : Error → Bool := fun _ => false

/-- Outcome of a fail-fast sequence of calls `calls` started with log `log0`:
either every call was issued in order with a tolerated result and the run
returned success, or the run returned an error right after the first call
whose error is not tolerated, the calls before it being those of the sequence,
in order, each with a tolerated result. -/
def Outcome {σ : Type} (tol : Error → Bool) (calls : List ClusterCall)
    (log0 : List (ClusterCall × Option Error)) (r : Res Unit × ClusterState σ) : Prop :=
  ∃ evs, r.2.log = log0 ++ evs ∧
    ((r.1 = Res.ok () ∧ evs.map Prod.fst = calls ∧ ∀ ev ∈ evs, Tolerated tol ev) ∨
     (∃ pre c e rest, evs = pre ++ [(c, some e)] ∧ tol e = false ∧
        (∀ ev ∈ pre, Tolerated tol ev) ∧ calls = pre.map Prod.fst ++ c :: rest ∧
        ∃ msg, r.1 = Res.err (Wrap e msg)))

/-- A program that behaves as a fail-fast sequence of the calls `calls`. -/
def Sequenced {σ : Type} (tol : Error → Bool) (calls : List ClusterCall)
    (m : Prog (ClusterState σ) Unit) : Prop :=
  ∀ s, Outcome tol calls s.log (m s)

/-- The calls of a `Reconcile` run in which every step succeeds, for the scope
as it is after the name derivation: zone listing, resource group, virtual
network, control-plane and node security groups, node route table,
control-plane and node subnets, internal load balancer, API-server public IP
and public load balancer, then the egress pair when IPv6 is enabled. -/
def reconcileCalls (nm : Naming) (scope : ClusterScope) : List ClusterCall :=
  [ ClusterCall.get Svc.availZoneSvc Spec.availabilityZones,
    ClusterCall.reconcile Svc.groupsSvc Spec.nil,
    ClusterCall.reconcile Svc.vnetSvc (Spec.vnet
      { ResourceGroup := scope.Vnet.ResourceGroup
        Name := scope.Vnet.Name
        CIDRs := cidrsOf scope scope.Vnet.CidrBlock scope.Vnet.IPv6CidrBlock }),
    ClusterCall.reconcile Svc.securityGroupSvc (Spec.securityGroup
      { Name := scope.ControlPlaneSubnet.SecurityGroup.Name
        IsControlPlane := true }),
    ClusterCall.reconcile Svc.securityGroupSvc (Spec.securityGroup
      { Name := scope.NodeSubnet.SecurityGroup.Name
        IsControlPlane := false }),
    ClusterCall.reconcile Svc.routeTableSvc (Spec.routeTable
      { Name := scope.NodeSubnet.RouteTable.Name }),
    ClusterCall.reconcile Svc.subnetsSvc (Spec.subnet
      { Name := scope.ControlPlaneSubnet.Name
        CIDRs := cidrsOf scope scope.ControlPlaneSubnet.CidrBlock
          scope.ControlPlaneSubnet.IPv6CidrBlock
        VnetName := scope.Vnet.Name
        SecurityGroupName := scope.ControlPlaneSubnet.SecurityGroup.Name
        Role := scope.ControlPlaneSubnet.Role
        RouteTableName := scope.ControlPlaneSubnet.RouteTable.Name
        InternalLBIPAddress := scope.ControlPlaneSubnet.InternalLBIPAddress }),
    ClusterCall.reconcile Svc.subnetsSvc (Spec.subnet
      { Name := scope.NodeSubnet.Name
        CIDRs := cidrsOf scope scope.NodeSubnet.CidrBlock scope.NodeSubnet.IPv6CidrBlock
        VnetName := scope.Vnet.Name
        SecurityGroupName := scope.NodeSubnet.SecurityGroup.Name
        RouteTableName := scope.NodeSubnet.RouteTable.Name
        Role := scope.NodeSubnet.Role
        InternalLBIPAddress := "" }),
    ClusterCall.reconcile Svc.internalLBSvc (Spec.internalLB
      { Name := nm.GenerateInternalLBName "control-plane"
        SubnetName := scope.ControlPlaneSubnet.Name
        SubnetCidr := scope.ControlPlaneSubnet.CidrBlock
        VnetName := scope.Vnet.Name
        IPAddress := scope.ControlPlaneSubnet.InternalLBIPAddress }),
    ClusterCall.reconcile Svc.publicIPSvc (Spec.publicIP
      { Name := scope.APIServerIP.Name
        DNSName := scope.APIServerIP.DNSName
        IsIPV6 := false }),
    ClusterCall.reconcile Svc.publicLBSvc (Spec.publicLB
      { Name := nm.GeneratePublicLBName "control-plane"
        PublicIPName := scope.APIServerIP.Name
        IsAPIServer := true }) ] ++
  (if scope.IsIPV6Enabled then
    [ ClusterCall.reconcile Svc.publicIPSvc (Spec.publicIP
        { Name := nm.GeneratePublicIPName "cluster" (clusterHash scope)
          DNSName := ""
          IsIPV6 := false }),
      ClusterCall.reconcile Svc.publicLBSvc (Spec.publicLB
        { Name := nm.GeneratePublicLBName "cluster"
          PublicIPName := nm.GeneratePublicIPName "cluster" (clusterHash scope)
          IsAPIServer := false }) ]
  else [])

/-- The calls of a `Delete` run in which every step succeeds or reports
not-found: public load balancer, API-server public IP, internal load balancer,
every subnet of the scope in scope order, node route table, node security
group, control-plane security group, virtual network, resource group. -/
def deleteCalls (nm : Naming) (scope : ClusterScope) : List ClusterCall :=
  [ ClusterCall.delete Svc.publicLBSvc (Spec.publicLB
      { Name := nm.GeneratePublicLBName scope.Name
        PublicIPName := ""
        IsAPIServer := false }),
    ClusterCall.delete Svc.publicIPSvc (Spec.publicIP
      { Name := scope.APIServerIP.Name
        DNSName := ""
        IsIPV6 := false }),
    ClusterCall.delete Svc.internalLBSvc (Spec.internalLB
      { Name := nm.GenerateInternalLBName scope.Name
        SubnetName := ""
        SubnetCidr := ""
        VnetName := ""
        IPAddress := "" }) ] ++
  scope.Subnets.map (fun sn => ClusterCall.delete Svc.subnetsSvc (subnetDeleteSpec scope sn)) ++
  [ ClusterCall.delete Svc.routeTableSvc (Spec.routeTable
      { Name := scope.NodeSubnet.RouteTable.Name }),
    ClusterCall.delete Svc.securityGroupSvc (Spec.securityGroup
      { Name := scope.NodeSubnet.SecurityGroup.Name
        IsControlPlane := false }),
    ClusterCall.delete Svc.securityGroupSvc (Spec.securityGroup
      { Name := scope.ControlPlaneSubnet.SecurityGroup.Name
        IsControlPlane := false }),
    ClusterCall.delete Svc.vnetSvc (Spec.vnet
      { ResourceGroup := scope.Vnet.ResourceGroup
        Name := scope.Vnet.Name
        CIDRs := [] }),
    ClusterCall.delete Svc.groupsSvc Spec.nil ]

/-- The name of the resource a spec describes; the resource group spec is nil
and the zone listing has no name. -/
def Spec.name : Spec → String
  | Spec.nil => ""
  | Spec.vnet s => s.Name
  | Spec.securityGroup s => s.Name
  | Spec.routeTable s => s.Name
  | Spec.subnet s => s.Name
  | Spec.internalLB s => s.Name
  | Spec.publicIP s => s.Name
  | Spec.publicLB s => s.Name
  | Spec.availabilityZones => ""

/-- The resources, by service and name, that the logged reconcile calls manage. -/
def reconciledResources (evs : List (ClusterCall × Option Error)) : List (Svc × String) :=
  evs.filterMap (fun ev =>
    match ev.1 with
    | ClusterCall.reconcile svc spec => some (svc, spec.name)
    | _ => none)

/-- The resources, by service and name, that the logged delete calls remove. -/
def deletedResources (evs : List (ClusterCall × Option Error)) : List (Svc × String) :=
  evs.filterMap (fun ev =>
    match ev.1 with
    | ClusterCall.delete svc spec => some (svc, spec.name)
    | _ => none)

/-! ## Vocabulary of the statements about the service -/

/-- The frontend port a rule carries, if it has properties and a port. -/
def frontendPortOf (v : InboundNatRule) : Option Int :=
  v.props.bind (fun p => p.FrontendPort)

/-- The requests issued between two run states. -/
def issued {σ : Type} (before after : NicState σ) : List (NicCall × Option Error) :=
  after.log.drop before.log.length

/-- The error of line 171, returned when the port loop finds no free port. -/
def capacityError (lb : LoadBalancer) (ruleName : String) : Error :=
  Errorf ("Failed to find available SSH Frontend port for NAT Rule in load balancer "
    ++ toStr lb.Name ++ " for AzureMachine " ++ ruleName)

/-- Reference definition of the frontend port, in the words of the spec: 22 if
no existing rule uses frontend port 22, otherwise the smallest port of
2201..2219 that no existing rule uses. -/
def IsReferencePort (rules : List InboundNatRule) (p : Int) : Prop :=
  ((¬ ∃ v ∈ rules, frontendPortOf v = some 22) ∧ p = 22) ∨
  ((∃ v ∈ rules, frontendPortOf v = some 22) ∧ 2201 ≤ p ∧ p ≤ 2219 ∧
    (¬ ∃ v ∈ rules, frontendPortOf v = some p) ∧
    ∀ q : Int, 2201 ≤ q → q < p → ∃ v ∈ rules, frontendPortOf v = some q)

/-- Every port the allocator can hand out, 22 and 2201..2219, is the frontend
port of some existing rule. -/
def PortsExhausted (rules : List InboundNatRule) : Prop :=
  ∀ q : Int, q = 22 ∨ (2201 ≤ q ∧ q ≤ 2219) → ∃ v ∈ rules, frontendPortOf v = some q

/-- Clients over a trivial remote state: every read returns the given values
and every write succeeds. -/
def constClients (subnet : Subnet) (lb : LoadBalancer) (pip : PublicIPAddress)
    (accel : Bool) : Clients Unit :=
  { SubnetsGet := fun _ _ _ w => (Except.ok subnet, w)
    LoadBalancersGet := fun _ _ w => (Except.ok lb, w)
    PublicIPsGet := fun _ _ w => (Except.ok pip, w)
    HasAcceleratedNetworking := fun _ w => (Except.ok accel, w)
    InterfacesCreateOrUpdate := fun _ _ _ w => (none, w)
    InterfacesDelete := fun _ _ w => (none, w)
    InboundNATRulesCreateOrUpdate := fun _ _ _ _ w => (none, w)
    InboundNATRulesDelete := fun _ _ _ w => (none, w) }

/-- An existing rule with the given name and frontend port. -/
def sampleRule (name : String) (port : Int) : InboundNatRule :=
  { Name := some name
    ID := none
    props := some
      { BackendPort := some 22
        EnableFloatingIP := some false
        IdleTimeoutInMinutes := some 4
        FrontendIPConfiguration := none
        Protocol := TransportProtocol.TCP
        FrontendPort := some port } }

/-- A load balancer named `lb` with one frontend configuration, one backend
pool and the given rules. -/
def sampleLB (rules : List InboundNatRule) : LoadBalancer :=
  { Name := some "lb"
    ID := some "/lb"
    props := some
      { FrontendIPConfigurations := some [⟨some "fe", some "/lb/fe"⟩]
        BackendAddressPools := some [⟨some "/lb/pool"⟩]
        InboundNatRules := some rules } }

/-- A machine scope without interface specs. -/
def sampleScope : NICScope := ⟨"rg", "westus", []⟩

/-- A rule named `x` that carries no properties, hence no frontend port. -/
def bareRule : InboundNatRule := ⟨none, some "x", none⟩

/-- Twenty rules that occupy port 22 and every port of 2201..2219. -/
def fullRules : List InboundNatRule :=
  [sampleRule "r22" 22,
    sampleRule "r2201" 2201,
    sampleRule "r2202" 2202,
    sampleRule "r2203" 2203,
    sampleRule "r2204" 2204,
    sampleRule "r2205" 2205,
    sampleRule "r2206" 2206,
    sampleRule "r2207" 2207,
    sampleRule "r2208" 2208,
    sampleRule "r2209" 2209,
    sampleRule "r2210" 2210,
    sampleRule "r2211" 2211,
    sampleRule "r2212" 2212,
    sampleRule "r2213" 2213,
    sampleRule "r2214" 2214,
    sampleRule "r2215" 2215,
    sampleRule "r2216" 2216,
    sampleRule "r2217" 2217,
    sampleRule "r2218" 2218,
    sampleRule "r2219" 2219]

/-- The run state before any request, over the trivial remote state. -/
def startState : NicState Unit := ⟨(), []⟩

/-- The clients used in the examples: fixed replies, every write succeeds. -/
def sampleClients : Clients Unit :=
  constClients ⟨some "/subnet"⟩ (sampleLB []) ⟨some "pip", some "/pip"⟩ false

/-- The name helpers used in the examples: tag or cluster name joined to a
fixed suffix or to the hash, and a DNS name made of the IP name and the
location. -/
def sampleNaming : Naming :=
  { GenerateInternalLBName := fun c => c ++ "-internal-lb"
    GeneratePublicLBName := fun c => c ++ "-public-lb"
    GeneratePublicIPName := fun c h => c ++ "-" ++ h
    GenerateFQDN := fun n l => n ++ "." ++ l ++ ".cloudapp.azure.com" }

/-- Services over a trivial remote state: every call succeeds, the zone listing
returns the given zones. -/
def okServices (zones : List String) : Services Unit :=
  { Reconcile := fun _ _ w => (none, w)
    Delete := fun _ _ w => (none, w)
    Get := fun _ _ w => (Except.ok zones, w) }

/-- The scope of a cluster `demo` with a control-plane and a node subnet. -/
def demoScope (ipv6 : Bool) : ClusterScope :=
  { SubscriptionID := "sub"
    ResourceGroup := "rg"
    Name := "demo"
    Location := "westus"
    Vnet := ⟨"rg", "demo-vnet", "10.0.0.0/16", ipv6, "2001:1234::/48"⟩
    ControlPlaneSubnet :=
      ⟨"control-plane", "cp-subnet", "10.0.0.0/24", "", "10.0.0.100", ⟨"cp-nsg"⟩, ⟨"rt"⟩⟩
    NodeSubnet := ⟨"node", "node-subnet", "10.0.1.0/24", "", "", ⟨"node-nsg"⟩, ⟨"rt"⟩⟩
    Subnets :=
      [⟨"control-plane", "cp-subnet", "10.0.0.0/24", "", "10.0.0.100", ⟨"cp-nsg"⟩, ⟨"rt"⟩⟩,
       ⟨"node", "node-subnet", "10.0.1.0/24", "", "", ⟨"node-nsg"⟩, ⟨"rt"⟩⟩]
    APIServerIP := ⟨"", ""⟩
    IsIPV6Enabled := ipv6
    FailureDomains := [] }

/-- The run state of the reconciler before any call, over the trivial remote
state. -/
def demoState (ipv6 : Bool) : ClusterState Unit := ⟨demoScope ipv6, (), []⟩

/-! ## A remote state without external drift -/

/-- Modelled from the spec: the provider behind the clients is not code of the
repository; the spec gives its contract as `Get`, `CreateOrUpdate` and `Delete`
per resource kind, and "no external drift" as a remote state that changes only
through the requests of the caller.  Subnets, public IPs and VM size
capabilities are fixed lookups; load balancers are stored with their resource
group; interfaces are stored by resource group and name. -/
structure Remote where
  subnets : String → String → String → Except Error Subnet
  publicIPs : String → String → Except Error PublicIPAddress
  skus : String → Except Error Bool
  loadBalancers : List (String × LoadBalancer)
  interfaces : List ((String × String) × Interface)

/-- The error of a request for a resource that does not exist. -/
def notFoundError : Error := ⟨"not found", true⟩

/-- A stored load balancer is the one of the given resource group and name. -/
def lbMatches (rg name : String) (p : String × LoadBalancer) : Bool :=
  p.1 == rg && toStr p.2.Name == name

/-- The stored load balancer of the given resource group and name. -/
def findLB (lbs : List (String × LoadBalancer)) (rg name : String) : Option LoadBalancer :=
  (lbs.find? (lbMatches rg name)).map Prod.snd

/-- Create or update the rule named `rn` in a rule list: replace the rule of
that name, or append the rule when there is none. -/
def putRule (rn : String) (rule : InboundNatRule) (rules : List InboundNatRule) :
    List InboundNatRule :=
  if rules.any (fun v => toStr v.Name == rn) then
    rules.map (fun v => if toStr v.Name == rn then { rule with Name := some rn } else v)
  else rules ++ [{ rule with Name := some rn }]

/-- Remove the rule named `rn` from a rule list. -/
def dropRule (rn : String) (rules : List InboundNatRule) : List InboundNatRule :=
  rules.filter (fun v => toStr v.Name != rn)

/-- The load balancer after a create-or-update of the rule named `rn`. -/
def LoadBalancer.withRule (lb : LoadBalancer) (rn : String) (rule : InboundNatRule) :
    LoadBalancer :=
  match lb.props with
  | none => { lb with props := some ⟨none, none, some [{ rule with Name := some rn }]⟩ }
  | some props =>
    { lb with props := some { props with
        InboundNatRules := some (putRule rn rule (props.InboundNatRules.getD [])) } }

/-- The load balancer after a delete of the rule named `rn`. -/
def LoadBalancer.withoutRule (lb : LoadBalancer) (rn : String) : LoadBalancer :=
  match lb.props with
  | none => lb
  | some props =>
    { lb with props := some { props with
        InboundNatRules := props.InboundNatRules.map (dropRule rn) } }

/-- The load balancer has a rule named `rn`. -/
def LoadBalancer.hasRuleNamed (lb : LoadBalancer) (rn : String) : Bool :=
  match lb.props with
  | none => false
  | some props => (props.InboundNatRules.getD []).any (fun v => toStr v.Name == rn)

/-- The clients over the remote state `Remote`: reads leave the state as it is,
a create-or-update stores its argument, a delete removes its target and reports
not-found when there is none. -/
def remoteClients : Clients Remote :=
  { SubnetsGet := fun rg vnet name w => (w.subnets rg vnet name, w)
    LoadBalancersGet := fun rg name w =>
      (match findLB w.loadBalancers rg name with
        | some lb => Except.ok lb
        | none => Except.error notFoundError, w)
    PublicIPsGet := fun rg name w => (w.publicIPs rg name, w)
    HasAcceleratedNetworking := fun sku w => (w.skus sku, w)
    InterfacesCreateOrUpdate := fun rg name nic w =>
      (none, { w with interfaces :=
        w.interfaces.filter (fun p => p.1 != (rg, name)) ++ [((rg, name), nic)] })
    InterfacesDelete := fun rg name w =>
      if w.interfaces.any (fun p => p.1 == (rg, name)) then
        (none, { w with interfaces := w.interfaces.filter (fun p => p.1 != (rg, name)) })
      else (some notFoundError, w)
    InboundNATRulesCreateOrUpdate := fun rg lbn rn rule w =>
      match findLB w.loadBalancers rg lbn with
      | none => (some notFoundError, w)
      | some _ =>
        (none, { w with loadBalancers :=
          w.loadBalancers.map (fun p =>
            if lbMatches rg lbn p then (p.1, p.2.withRule rn rule) else p) })
    InboundNATRulesDelete := fun rg lbn rn w =>
      match findLB w.loadBalancers rg lbn with
      | none => (some notFoundError, w)
      | some lb =>
        if lb.hasRuleNamed rn then
          (none, { w with loadBalancers :=
            w.loadBalancers.map (fun p =>
              if lbMatches rg lbn p then (p.1, p.2.withoutRule rn) else p) })
        else (some notFoundError, w) }

/-- The load balancer has a rule named `n` that the rule loop of
`createInboundNatRule` reaches. -/
def HasRule (lb : LoadBalancer) (n : String) : Prop :=
  ∃ props rules, lb.props = some props ∧ props.InboundNatRules = some rules ∧
    scanRules n rules [] = RuleScan.found

/-- The NAT rule of a control-plane spec with a public load balancer exists on
that load balancer. -/
def Settled (lbs : List (String × LoadBalancer)) (rg : String) (sp : NICSpec) : Prop :=
  sp.PublicLoadBalancerName ≠ "" → sp.MachineRole = ControlPlane →
    ∀ lb, findLB lbs rg sp.PublicLoadBalancerName = some lb → HasRule lb sp.MachineName

/-- The load balancers `l2` are those of `l1` with rules added at most. -/
def Ext (l1 l2 : List (String × LoadBalancer)) : Prop :=
  ∀ rg name lb2, findLB l2 rg name = some lb2 →
    ∃ lb1, findLB l1 rg name = some lb1 ∧ ∀ n, HasRule lb1 n → HasRule lb2 n

/-- No logged request is a create-or-update of a NAT rule. -/
def NoNatPut (evs : List (NicCall × Option Error)) : Prop :=
  ∀ ev ∈ evs, ∀ (rg l n : String) (r : InboundNatRule),
    ev.1 ≠ NicCall.natCreateOrUpdate rg l n r

/-- Relation between a run state and a later one: load balancers only gained
rules. -/
def Grows (s t : NicState Remote) : Prop :=
  Ext s.world.loadBalancers t.world.loadBalancers

/-- Relation between a run state and a later one: the load balancers are the
same and no NAT rule create-or-update was logged in between. -/
def Quiet (s t : NicState Remote) : Prop :=
  t.world.loadBalancers = s.world.loadBalancers ∧
    ∃ evs, t.log = s.log ++ evs ∧ NoNatPut evs

/-- A program relates every start state to its end state by `R`. -/
def Preserves {α : Type} (R : NicState Remote → NicState Remote → Prop)
    (m : Prog (NicState Remote) α) : Prop :=
  ∀ s, R s (m s).2

/-- A program is quiet when started with the load balancers `lbs`. -/
def QuietAt {α : Type} (lbs : List (String × LoadBalancer))
    (m : Prog (NicState Remote) α) : Prop :=
  ∀ s, s.world.loadBalancers = lbs → Quiet s (m s).2

/-- A program that returns normally from a state satisfying `P` ends in a
state satisfying `Q`. -/
def Ensures {α : Type} (P : NicState Remote → Prop) (m : Prog (NicState Remote) α)
    (Q : NicState Remote → Prop) : Prop :=
  ∀ s, P s → ∀ a, (m s).1 = Res.ok a → Q (m s).2

/-- A remote state with one subnet lookup that always succeeds, the load
balancer `lb` of the examples with the given rules, and no interface. -/
def sampleRemote (rules : List InboundNatRule) : Remote :=
  { subnets := fun _ _ _ => Except.ok ⟨some "/subnet"⟩
    publicIPs := fun _ _ => Except.error notFoundError
    skus := fun _ => Except.ok false
    loadBalancers := [("rg", sampleLB rules)]
    interfaces := [] }

/-- The interface spec of a control-plane machine `cp0` behind the load
balancer `lb`, with no accelerated networking preference. -/
def sampleNIC : NICSpec :=
  { Name := "cp0-nic"
    MachineName := "cp0"
    MachineRole := ControlPlane
    SubnetName := "cp-subnet"
    VNetName := "demo-vnet"
    VNetResourceGroup := "rg"
    StaticIPAddress := ""
    PublicLoadBalancerName := "lb"
    InternalLoadBalancerName := ""
    PublicIPName := ""
    VMSize := "Standard_D2s_v3"
    AcceleratedNetworking := none }

/-- The machine scope with the single interface spec `sampleNIC`. -/
def sampleNICScope : NICScope := ⟨"rg", "westus", [sampleNIC]⟩

/-- The requests of a log, without their results. -/
def requestsOf (evs : List (NicCall × Option Error)) : List NicCall := evs.map Prod.fst

/-- Reference definition of the hash, in the words of the spec: 32-bit FNV-1a,
starting from `hash` (the offset basis 2166136261 at first), each byte is
combined by exclusive or and the result multiplied by the prime 16777619,
modulo 2^32. -/
def fnv1a32From (hash : Nat) : List Nat → Nat
  | [] => hash
  | b :: rest => fnv1a32From (((hash ^^^ b) * 16777619) % 4294967296) rest

/-- Reference definition of the 32-bit FNV-1a hash of a byte sequence. -/
def fnv1a32Reference (bytes : List Nat) : Nat := fnv1a32From 2166136261 bytes

/-- The lowercase hexadecimal digits. -/
def lowerHexDigits : List Char :=
  ['0', '1', '2', '3', '4', '5', '6', '7', '8', '9', 'a', 'b', 'c', 'd', 'e', 'f']

/-- The string the names are hashed from. -/
def hashInput (sub rg name : String) : String := sub ++ "/" ++ rg ++ "/" ++ name

/-- A scope whose API-server IP name and DNS name are both set. -/
def customIPScope : ClusterScope :=
  { demoScope false with APIServerIP := ⟨"my-ip", "custom.example.org"⟩ }

/-- The entry of the failure domain map for a zone, as a map lookup. -/
def ClusterScope.failureDomain (s : ClusterScope) (id : String) : Option FailureDomainSpec :=
  (s.FailureDomains.find? (fun kv => kv.1 == id)).map Prod.snd

/-- Services whose zone listing fails with the given error. -/
def failingZoneServices (e : Error) : Services Unit :=
  { Reconcile := fun _ _ w => (none, w)
    Delete := fun _ _ w => (none, w)
    Get := fun _ _ w => (Except.error e, w) }

/-- Lines 33-92 of `Service.Reconcile`: the lookups that build the IP
configuration `nicConfig` of the interface. -/
def nicConfigPart {σ : Type} (c : Clients σ) (scope : NICScope) (nicSpec : NICSpec) :
    Prog (NicState σ) InterfaceIPConfigurationPropertiesFormat := do
  let subnet ← getOrWrap
    (NicCall.subnetGet nicSpec.VNetResourceGroup nicSpec.VNetName nicSpec.SubnetName)
    (c.SubnetsGet nicSpec.VNetResourceGroup nicSpec.VNetName nicSpec.SubnetName)
    "failed to get subnets"
  let lbPart ← publicLBPart c scope nicSpec
  let backendAddressPools ← internalLBPart c scope nicSpec lbPart.1
  let publicIP ← publicIPPart c scope nicSpec
  Prog.ret
    { Subnet := some ⟨subnet.ID⟩
      PrivateIPAllocationMethod :=
        if nicSpec.StaticIPAddress ≠ "" then IPAllocationMethod.Static
        else IPAllocationMethod.Dynamic
      PrivateIPAddress :=
        if nicSpec.StaticIPAddress ≠ "" then some nicSpec.StaticIPAddress else none
      LoadBalancerBackendAddressPools := some backendAddressPools
      LoadBalancerInboundNatRules := lbPart.2
      PublicIPAddress := publicIP }

/-- Lines 33-102 of `Service.Reconcile`: every lookup made for one spec before
the interface is sent, with the IP configuration and the accelerated
networking flag they yield. -/
def nicLookups {σ : Type} (c : Clients σ) (scope : NICScope) (nicSpec : NICSpec) :
    Prog (NicState σ) (InterfaceIPConfigurationPropertiesFormat × Option Bool) := do
  let nicConfig ← nicConfigPart c scope nicSpec
  let accel ← acceleratedNetworkingPart c nicSpec
  Prog.ret (nicConfig, accel)

/-- Every request a program logs satisfies `K`. -/
def Logs {σ α : Type} (K : NicCall → Prop) (m : Prog (NicState σ) α) : Prop :=
  ∀ s, ∃ evs, (m s).2.log = s.log ++ evs ∧ ∀ ev ∈ evs, K ev.1

/-- The request is a create-or-update of an interface. -/
def NicCall.isNicPut : NicCall → Bool
  | NicCall.nicCreateOrUpdate _ _ _ => true
  | _ => false

/-- The request is a create-or-update of a NAT rule. -/
def NicCall.isNatPut : NicCall → Bool
  | NicCall.natCreateOrUpdate _ _ _ _ => true
  | _ => false

/-- The request is a delete. -/
def NicCall.isDelete : NicCall → Bool
  | NicCall.nicDelete _ _ => true
  | NicCall.natDelete _ _ _ => true
  | _ => false

/-- The request consults the capability resolver. -/
def NicCall.isCapability : NicCall → Bool
  | NicCall.hasAcceleratedNetworking _ => true
  | _ => false

/-- The first backend pool of a load balancer, if it has one. -/
def firstPoolOf (lb : LoadBalancer) : Option BackendAddressPool :=
  match lb.props with
  | none => none
  | some props =>
    match props.BackendAddressPools with
    | none => none
    | some [] => none
    | some (pool :: _) => some pool

/-- The run state right after the subnet lookup of a spec. -/
def afterSubnetGet {σ : Type} (c : Clients σ) (sp : NICSpec) (s : NicState σ) : NicState σ :=
  (getOrWrap (NicCall.subnetGet sp.VNetResourceGroup sp.VNetName sp.SubnetName)
    (c.SubnetsGet sp.VNetResourceGroup sp.VNetName sp.SubnetName) "failed to get subnets" s).2

/-- The run state right after the public load balancer part of a spec. -/
def afterPublicLB {σ : Type} (c : Clients σ) (scope : NICScope) (sp : NICSpec)
    (s : NicState σ) : NicState σ :=
  (publicLBPart c scope sp (afterSubnetGet c sp s)).2

/-- The interface spec of a worker machine `node0` with no load balancer, no
public IP and no accelerated networking preference. -/
def plainNIC : NICSpec :=
  { Name := "node0-nic"
    MachineName := "node0"
    MachineRole := "node"
    SubnetName := "node-subnet"
    VNetName := "demo-vnet"
    VNetResourceGroup := "rg"
    StaticIPAddress := ""
    PublicLoadBalancerName := ""
    InternalLoadBalancerName := ""
    PublicIPName := ""
    VMSize := "Standard_B2s"
    AcceleratedNetworking := none }

/-- The run state before any request, over the remote state of the examples. -/
def sampleStart : NicState Remote := ⟨sampleRemote [], []⟩

/-- A logged request of the interface service succeeded, or returned an error
the tolerance `tol` accepts. -/
def NicTolerated (tol : Error → Bool) (ev : NicCall × Option Error) : Prop :=
  ∀ e, ev.2 = some e → tol e = true

/-- Outcome of a fail-fast sequence of requests `calls` started with log `log0`:
either every request was issued in order with a tolerated result and the run
returned success, or the run returned an error right after the first request
whose error is not tolerated, the requests before it being those of the
sequence, in order, each with a tolerated result. -/
def NicOutcome {σ : Type} (tol : Error → Bool) (calls : List NicCall)
    (log0 : List (NicCall × Option Error)) (r : Res Unit × NicState σ) : Prop :=
  ∃ evs, r.2.log = log0 ++ evs ∧
    ((r.1 = Res.ok () ∧ evs.map Prod.fst = calls ∧ ∀ ev ∈ evs, NicTolerated tol ev) ∨
     (∃ pre c e rest, evs = pre ++ [(c, some e)] ∧ tol e = false ∧
        (∀ ev ∈ pre, NicTolerated tol ev) ∧ calls = pre.map Prod.fst ++ c :: rest ∧
        ∃ msg, r.1 = Res.err (Wrap e msg)))

/-- A program of the interface service that behaves as a fail-fast sequence of
the requests `calls`. -/
def NicSequenced {σ : Type} (tol : Error → Bool) (calls : List NicCall)
    (m : Prog (NicState σ) Unit) : Prop :=
  ∀ s, NicOutcome tol calls s.log (m s)

/-- The requests of a `Service.Delete` run in which every request succeeds or
reports not-found: for each spec in order, the delete of the interface and then
the delete of the NAT rule named after the machine on the public load balancer
of the spec. -/
def nicDeleteCalls (scope : NICScope) (specs : List NICSpec) : List NicCall :=
  specs.flatMap (fun sp =>
    [NicCall.nicDelete scope.ResourceGroup sp.Name,
     NicCall.natDelete scope.ResourceGroup sp.PublicLoadBalancerName sp.MachineName])

/-- The error `e1` is the error `e0`, as it is or annotated. -/
def Annotates (e0 e1 : Error) : Prop := e1 = e0 ∨ ∃ msg, e1 = Wrap e0 msg

/-- A program in which a request that returns an untolerated error is the last
request issued, its error being returned, as it is or annotated. -/
def FailFast {σ α : Type} (tol : Error → Bool) (m : Prog (NicState σ) α) : Prop :=
  ∀ s, ∃ evs, (m s).2.log = s.log ++ evs ∧
    ((∀ ev ∈ evs, NicTolerated tol ev) ∨
     (∃ pre call e0, evs = pre ++ [(call, some e0)] ∧ tol e0 = false ∧
        (∀ ev ∈ pre, NicTolerated tol ev) ∧
        ∃ e1, (m s).1 = Res.err e1 ∧ Annotates e0 e1))

/-- The interface spec of a machine that asks for the public IP `pip0`. -/
def publicIPNIC : NICSpec :=
  { plainNIC with Name := "node1-nic", MachineName := "node1", PublicIPName := "pip0" }

/-- A machine scope with three specs: a worker, a machine whose public IP does
not exist in the remote state of the examples, and a control-plane machine. -/
def threeNICScope : NICScope := ⟨"rg", "westus", [plainNIC, publicIPNIC, sampleNIC]⟩

/-- A remote state in which the interface `cp0-nic` exists and the load
balancer `lb` has no rule. -/
def remoteWithNIC : Remote :=
  { sampleRemote [] with interfaces := [(("rg", "cp0-nic"), ⟨none, none, none⟩)] }

/-- A load balancer with properties and an empty rule list, whose list of
frontend IP configurations is absent. -/
def noFrontendLB : LoadBalancer :=
  { Name := some "lb"
    ID := some "/lb"
    props := some
      { FrontendIPConfigurations := none
        BackendAddressPools := some [⟨some "/lb/pool"⟩]
        InboundNatRules := some [] } }

/-- A load balancer with properties and an empty rule list, whose list of
frontend IP configurations is empty. -/
def emptyFrontendLB : LoadBalancer :=
  { Name := some "lb"
    ID := some "/lb"
    props := some
      { FrontendIPConfigurations := some []
        BackendAddressPools := some [⟨some "/lb/pool"⟩]
        InboundNatRules := some [] } }

/-- The scope of a cluster named `cluster`, with IPv6 enabled and no API-server
IP name. -/
def clusterNamedCluster : ClusterScope := { demoScope true with Name := "cluster" }

/-- The text `w` occurs in the message `msg`. -/
def Mentions (msg w : String) : Prop := w.data <:+: msg.data

instance (msg w : String) : Decidable (Mentions msg w) :=
  inferInstanceAs (Decidable (w.data <:+: msg.data))

/-- The service a call goes to. -/
def ClusterCall.svc : ClusterCall → Svc
  | ClusterCall.reconcile svc _ => svc
  | ClusterCall.delete svc _ => svc
  | ClusterCall.get svc _ => svc

/-- The spec a call carries. -/
def ClusterCall.spec : ClusterCall → Spec
  | ClusterCall.reconcile _ spec => spec
  | ClusterCall.delete _ spec => spec
  | ClusterCall.get _ spec => spec

/-- The operation of a call, as the error messages word it. -/
def ClusterCall.operation : ClusterCall → String
  | ClusterCall.reconcile _ _ => "reconcile"
  | ClusterCall.delete _ _ => "delete"
  | ClusterCall.get _ _ => "get"

/-- The kind of resource a service manages, as the error messages word it. -/
def Svc.kind : Svc → String
  | Svc.groupsSvc => "resource group"
  | Svc.vnetSvc => "virtual network"
  | Svc.securityGroupSvc => "security group"
  | Svc.routeTableSvc => "route table"
  | Svc.subnetsSvc => "subnet"
  | Svc.internalLBSvc => "internal load balancer"
  | Svc.publicIPSvc => "public ip"
  | Svc.publicLBSvc => "load balancer"
  | Svc.availZoneSvc => "availability zones"

/-- Outcome of a fail-fast sequence of calls `calls`, the call at each position
having the annotation of `msgs` at that position: as `Outcome`, and the error
returned after the call that failed is its error annotated with the message at
the position of that call. -/
def Reported {σ : Type} (tol : Error → Bool) (calls : List ClusterCall) (msgs : List String)
    (log0 : List (ClusterCall × Option Error)) (r : Res Unit × ClusterState σ) : Prop :=
  ∃ evs, r.2.log = log0 ++ evs ∧
    ((r.1 = Res.ok () ∧ evs.map Prod.fst = calls ∧ ∀ ev ∈ evs, Tolerated tol ev) ∨
     (∃ pre c e rest, evs = pre ++ [(c, some e)] ∧ tol e = false ∧
        (∀ ev ∈ pre, Tolerated tol ev) ∧ calls = pre.map Prod.fst ++ c :: rest ∧
        ∃ msg, msgs[pre.length]? = some msg ∧ r.1 = Res.err (Wrap e msg)))

/-- A program that behaves as a fail-fast sequence of the calls `calls` with
the annotations `msgs`. -/
def Stepwise {σ : Type} (tol : Error → Bool) (calls : List ClusterCall) (msgs : List String)
    (m : Prog (ClusterState σ) Unit) : Prop :=
  ∀ s, Reported tol calls msgs s.log (m s)

/-- The annotation of each call of `reconcileCalls`, in the same order. -/
def reconcileMessages (scope : ClusterScope) : List String :=
  [ "failed to get availability zones for cluster " ++ scope.Name ++ " in location "
      ++ scope.Location,
    "failed to reconcile resource group for cluster " ++ scope.Name,
    "failed to reconcile virtual network for cluster " ++ scope.Name,
    "failed to reconcile control plane network security group for cluster " ++ scope.Name,
    "failed to reconcile node network security group for cluster " ++ scope.Name,
    "failed to reconcile route table " ++ scope.NodeSubnet.RouteTable.Name ++ " for cluster "
      ++ scope.Name,
    "failed to reconcile control plane subnet for cluster " ++ scope.Name,
    "failed to reconcile node subnet for cluster " ++ scope.Name,
    "failed to reconcile control plane internal load balancer for cluster " ++ scope.Name,
    "failed to reconcile control plane public ip for cluster " ++ scope.Name,
    "failed to reconcile control plane public load balancer for cluster " ++ scope.Name ] ++
  (if scope.IsIPV6Enabled then
    [ "failed to reconcile control plane public ip for cluster " ++ scope.Name,
      "failed to reconcile control plane public load balancer for cluster " ++ scope.Name ]
  else [])

/-- The annotation of each call of `deleteCalls`, in the same order; the
annotation of `Delete` comes before the one of `deleteLB`, `deleteSubnets` or
`deleteNSG`. -/
def deleteMessages (nm : Naming) (scope : ClusterScope) : List String :=
  [ "failed to delete load balancer" ++ ": " ++
      ("failed to delete lb " ++ nm.GeneratePublicLBName scope.Name ++ " for cluster "
        ++ scope.Name),
    "failed to delete load balancer" ++ ": " ++
      ("failed to delete public ip " ++ scope.APIServerIP.Name ++ " for cluster "
        ++ scope.Name),
    "failed to delete load balancer" ++ ": " ++
      ("failed to internal load balancer " ++ nm.GenerateInternalLBName scope.Name
        ++ " for cluster " ++ scope.Name) ] ++
  scope.Subnets.map (fun sn => "failed to delete subnets" ++ ": " ++
    ("failed to delete " ++ sn.Name ++ " subnet for cluster " ++ scope.Name)) ++
  [ "failed to delete route table " ++ scope.NodeSubnet.RouteTable.Name ++ " for cluster "
      ++ scope.Name,
    "failed to delete network security group" ++ ": " ++
      ("failed to delete security group " ++ scope.NodeSubnet.SecurityGroup.Name
        ++ " for cluster " ++ scope.Name),
    "failed to delete network security group" ++ ": " ++
      ("failed to delete security group " ++ scope.ControlPlaneSubnet.SecurityGroup.Name
        ++ " for cluster " ++ scope.Name),
    "failed to delete virtual network " ++ scope.Vnet.Name ++ " for cluster " ++ scope.Name,
    "failed to delete resource group for cluster " ++ scope.Name ]

/-- Each call of a successful `Reconcile` run with its annotation. -/
def reconcileSteps (nm : Naming) (scope : ClusterScope) : List (ClusterCall × String) :=
  (reconcileCalls nm scope).zip (reconcileMessages scope)

/-- Each call of a successful `Delete` run with its annotation. -/
def deleteSteps (nm : Naming) (scope : ClusterScope) : List (ClusterCall × String) :=
  (deleteCalls nm scope).zip (deleteMessages nm scope)

/-- Services in which the `Reconcile` and `Delete` methods of the service `bad`
fail with the error `e`, and every other call succeeds. -/
def failingServices (bad : Svc) (e : Error) : Services Unit :=
  { Reconcile := fun svc _ w => (if svc = bad then some e else none, w)
    Delete := fun svc _ w => (if svc = bad then some e else none, w)
    Get := fun _ _ w => (Except.ok [], w) }

/-- Relation between a run state and a later one: the subnet, public IP and VM
size lookups are the same, and every load balancer of the first state is still
there, with the same first backend pool and at least the rules it had. -/
def Keeps (s t : NicState Remote) : Prop :=
  t.world.subnets = s.world.subnets ∧ t.world.publicIPs = s.world.publicIPs ∧
  t.world.skus = s.world.skus ∧
  ∀ rg name lb1, findLB s.world.loadBalancers rg name = some lb1 →
    ∃ lb2, findLB t.world.loadBalancers rg name = some lb2 ∧
      firstPoolOf lb2 = firstPoolOf lb1 ∧ ∀ n, HasRule lb1 n → HasRule lb2 n

/-- The load balancer `name` exists in the remote state with a first backend
pool and, when a rule name is given, with a rule of that name. -/
def PoolAt (w : Remote) (rg name : String) (need : Option String) : Prop :=
  ∃ lb pool, findLB w.loadBalancers rg name = some lb ∧ firstPoolOf lb = some pool ∧
    ∀ n, need = some n → HasRule lb n

/-- Every lookup `reconcileNIC` makes for the spec succeeds on the remote state
`w`, and the NAT rule of a control-plane spec is on its public load balancer. -/
def Ready (w : Remote) (rg : String) (sp : NICSpec) : Prop :=
  (∃ subnet, w.subnets sp.VNetResourceGroup sp.VNetName sp.SubnetName = Except.ok subnet) ∧
  (sp.PublicLoadBalancerName ≠ "" →
    PoolAt w rg sp.PublicLoadBalancerName
      (if sp.MachineRole = ControlPlane then some sp.MachineName else none)) ∧
  (sp.InternalLoadBalancerName ≠ "" → PoolAt w rg sp.InternalLoadBalancerName none) ∧
  (sp.PublicIPName ≠ "" → ∃ pip, w.publicIPs rg sp.PublicIPName = Except.ok pip) ∧
  (sp.AcceleratedNetworking = none → ∃ a, w.skus sp.VMSize = Except.ok a)

/-! ## Theorems -/

section ProgLemmas

variable {S α β : Type}

@[simp] theorem Prog.bind_eq (m : Prog S α) (f : α → Prog S β) :
    (m >>= f) = Prog.andThen m f := rfl

@[simp] theorem Prog.pure_eq (a : α) : (pure a : Prog S α) = Prog.ret a := rfl

end ProgLemmas

theorem frontendPortOf_natRuleFor (n : String) (fip : FrontendIPConfiguration) (p : Int) :
    frontendPortOf (natRuleFor n fip p) = some p := rfl

/-- The rule loop, when no rule has the target name and every rule carries a
port: it ends with the ports of all rules, in order. -/
theorem scanRules_ports (ruleName : String) (rules : List InboundNatRule) (acc : List Int)
    (hname : ∀ v ∈ rules, toStr v.Name ≠ ruleName)
    (hport : ∀ v ∈ rules, (frontendPortOf v).isSome = true) :
    scanRules ruleName rules acc = RuleScan.ports (acc ++ rules.filterMap frontendPortOf) := by
  induction rules generalizing acc with
  | nil => simp [scanRules]
  | cons v rest ih =>
    have hv := hname v (List.mem_cons_self _ _)
    have hp := hport v (List.mem_cons_self _ _)
    have ihr := fun a => ih a (fun w hw => hname w (List.mem_cons_of_mem _ hw))
      (fun w hw => hport w (List.mem_cons_of_mem _ hw))
    cases hvp : v.props with
    | none => simp [frontendPortOf, hvp] at hp
    | some p =>
      cases hfp : p.FrontendPort with
      | none => simp [frontendPortOf, hvp, hfp] at hp
      | some fp =>
        have hf : frontendPortOf v = some fp := by simp [frontendPortOf, hvp, hfp]
        simp [scanRules, hv, hvp, hfp, ihr, List.filterMap_cons, hf]

/-- The rule loop stops at the first rule with the target name when the rules
before it carry ports. -/
theorem scanRules_found (ruleName : String) (pre : List InboundNatRule) (t : InboundNatRule)
    (post : List InboundNatRule) (acc : List Int)
    (ht : toStr t.Name = ruleName)
    (hport : ∀ v ∈ pre, (frontendPortOf v).isSome = true) :
    scanRules ruleName (pre ++ t :: post) acc = RuleScan.found := by
  induction pre generalizing acc with
  | nil => simp [scanRules, ht]
  | cons v rest ih =>
    have hp := hport v (List.mem_cons_self _ _)
    have ihr := fun a => ih a (fun w hw => hport w (List.mem_cons_of_mem _ hw))
    by_cases hv : toStr v.Name = ruleName
    · simp [scanRules, hv]
    · cases hvp : v.props with
      | none => simp [frontendPortOf, hvp] at hp
      | some p =>
        cases hfp : p.FrontendPort with
        | none => simp [frontendPortOf, hvp, hfp] at hp
        | some fp => simp [scanRules, hv, hvp, hfp, ihr]

theorem mem_ports_iff (rules : List InboundNatRule) (q : Int) :
    q ∈ rules.filterMap frontendPortOf ↔ ∃ v ∈ rules, frontendPortOf v = some q := by
  simp [List.mem_filterMap]

theorem mem_sshPortCandidates (q : Int) :
    q ∈ sshPortCandidates ↔ 2201 ≤ q ∧ q ≤ 2219 := by
  simp only [sshPortCandidates, List.mem_map, List.mem_range]
  constructor
  · rintro ⟨k, hk, rfl⟩
    simp only [Int.ofNat_eq_coe]
    omega
  · intro h
    refine ⟨(q - 2201).toNat, by omega, ?_⟩
    simp only [Int.ofNat_eq_coe]
    omega

/-- The port loop over `n` candidates returns the least candidate accepted. -/
theorem find_candidate_iff (P : Int → Bool) (n : Nat) (p : Int) :
    ((List.range n).map (fun (k : Nat) => 2201 + Int.ofNat k)).find? P = some p ↔
      (2201 ≤ p ∧ p < 2201 + (n : Int) ∧ P p = true ∧
        ∀ q : Int, 2201 ≤ q → q < p → P q = false) := by
  induction n generalizing p with
  | zero =>
    simp only [List.range_zero, List.map_nil, List.find?_nil]
    constructor
    · intro h
      cases h
    · rintro ⟨h1, h2, -, -⟩
      simp only [Nat.cast_zero] at h2
      omega
  | succ n ih =>
    rw [List.range_succ, List.map_append, List.find?_append]
    cases hfind : ((List.range n).map (fun (k : Nat) => 2201 + Int.ofNat k)).find? P with
    | some x =>
      obtain ⟨hx1, hx2, hx3, hx4⟩ := (ih x).1 hfind
      simp only [Option.or_some, Option.some.injEq]
      constructor
      · rintro rfl
        exact ⟨hx1, by push_cast; omega, hx3, hx4⟩
      · rintro ⟨h1, -, h3, h4⟩
        rcases lt_trichotomy x p with h | h | h
        · rw [h4 x hx1 h] at hx3
          cases hx3
        · exact h
        · rw [hx4 p h1 h] at h3
          cases h3
    | none =>
      have hnone : ∀ q : Int, 2201 ≤ q → q < 2201 + (n : Int) → P q = false := by
        intro q h1 h2
        cases hq : P q with
        | false => rfl
        | true =>
          have := (ih q).2 ⟨h1, h2, hq, fun r hr1 hr2 => by
            rw [List.find?_eq_none] at hfind
            have := hfind r (by
              simp only [List.mem_map, List.mem_range]
              exact ⟨(r - 2201).toNat, by omega, by simp only [Int.ofNat_eq_coe]; omega⟩)
            simpa using this⟩
          rw [hfind] at this
          cases this
      simp only [Option.none_or, List.map_cons, List.map_nil, List.find?_cons, List.find?_nil,
        Int.ofNat_eq_coe]
      cases hP : P (2201 + (n : Int)) with
      | true =>
        simp only [Option.some.injEq]
        constructor
        · rintro rfl
          exact ⟨by omega, by push_cast; omega, hP, fun q h1 h2 => hnone q h1 h2⟩
        · rintro ⟨h1, h2, h3, h4⟩
          rcases lt_trichotomy (2201 + (n : Int)) p with h | h | h
          · push_cast at h2
            omega
          · exact h
          · rw [hnone p h1 h] at h3
            cases h3
      | false =>
        constructor
        · intro h
          cases h
        · rintro ⟨h1, h2, h3, h4⟩
          exfalso
          rcases lt_or_eq_of_le (show p ≤ 2201 + (n : Int) by push_cast at h2; omega) with h | h
          · rw [hnone p h1 h] at h3
            cases h3
          · rw [h, hP] at h3
            cases h3

/-- The port selection returns `p` exactly when `p` is 22 and 22 is free, or
22 is taken and `p` is the least free port of 2201..2219. -/
theorem selectFrontendPort_eq_some (ports : List Int) (p : Int) :
    selectFrontendPort ports = some p ↔
      ((22 ∉ ports ∧ p = 22) ∨
        (22 ∈ ports ∧ 2201 ≤ p ∧ p ≤ 2219 ∧ p ∉ ports ∧
          ∀ q : Int, 2201 ≤ q → q < p → q ∈ ports)) := by
  unfold selectFrontendPort sshPortCandidates
  by_cases h22 : 22 ∈ ports
  · simp only [h22, if_true, not_true_eq_false, false_and, false_or, true_and]
    rw [find_candidate_iff]
    simp only [decide_eq_true_eq, decide_eq_false_iff_not, not_not, Nat.cast_ofNat]
    constructor
    · rintro ⟨h1, h2, h3, h4⟩
      exact ⟨h1, by omega, h3, h4⟩
    · rintro ⟨h1, h2, h3, h4⟩
      exact ⟨h1, by omega, h3, h4⟩
  · simp only [h22, if_false, not_false_eq_true, true_and, false_and, or_false,
      Option.some.injEq]
    exact eq_comm

/-- The port selection fails exactly when 22 and all of 2201..2219 are taken. -/
theorem selectFrontendPort_eq_none (ports : List Int) :
    selectFrontendPort ports = none ↔
      ∀ q : Int, q = 22 ∨ (2201 ≤ q ∧ q ≤ 2219) → q ∈ ports := by
  unfold selectFrontendPort
  by_cases h22 : 22 ∈ ports
  · simp only [h22, if_true, List.find?_eq_none, decide_eq_true_eq, not_not,
      mem_sshPortCandidates]
    constructor
    · rintro h q (rfl | hq)
      · exact h22
      · exact h q hq
    · intro h q hq
      exact h q (Or.inr hq)
  · simp only [h22, if_false]
    constructor
    · intro h
      cases h
    · intro h
      exact absurd (h 22 (Or.inl rfl)) h22

/-- What `createInboundNatRule` does on a load balancer with properties and
rules, none of them with the target name, each of them carrying a port. -/
theorem createInboundNatRule_unfold {σ : Type} (c : Clients σ) (scope : NICScope)
    (lb : LoadBalancer) (props : LoadBalancerPropertiesFormat) (rules : List InboundNatRule)
    (ruleName : String) (s : NicState σ)
    (hp : lb.props = some props) (hr : props.InboundNatRules = some rules)
    (hname : ∀ v ∈ rules, toStr v.Name ≠ ruleName)
    (hport : ∀ v ∈ rules, (frontendPortOf v).isSome = true) :
    createInboundNatRule c scope lb ruleName s =
      match selectFrontendPort (rules.filterMap frontendPortOf) with
      | none => (Res.err (capacityError lb ruleName), s)
      | some port =>
        match props.FrontendIPConfigurations with
        | none => (Res.panic, s)
        | some [] => (Res.panic, s)
        | some (fip :: _) =>
          ((match (c.InboundNATRulesCreateOrUpdate scope.ResourceGroup (toStr lb.Name) ruleName
              (natRuleFor ruleName fip port) s.world).1 with
            | none => Res.ok ()
            | some e => Res.err e),
           ⟨(c.InboundNATRulesCreateOrUpdate scope.ResourceGroup (toStr lb.Name) ruleName
              (natRuleFor ruleName fip port) s.world).2,
            s.log ++ [(NicCall.natCreateOrUpdate scope.ResourceGroup (toStr lb.Name) ruleName
              (natRuleFor ruleName fip port),
              (c.InboundNATRulesCreateOrUpdate scope.ResourceGroup (toStr lb.Name) ruleName
                (natRuleFor ruleName fip port) s.world).1)]⟩) := by
  simp only [createInboundNatRule, hp, hr, scanRules_ports ruleName rules [] hname hport,
    List.nil_append]
  cases selectFrontendPort (rules.filterMap frontendPortOf) with
  | none => rfl
  | some port =>
    cases hf : props.FrontendIPConfigurations with
    | none => rfl
    | some l =>
      cases l with
      | nil => rfl
      | cons fip rest =>
        simp only [Prog.bind_eq, Prog.andThen, askPut]
        cases (c.InboundNATRulesCreateOrUpdate scope.ResourceGroup (toStr lb.Name) ruleName
          (natRuleFor ruleName fip port) s.world).1 <;> rfl

theorem issued_append {σ : Type} (s : NicState σ) (w : σ) (l : List (NicCall × Option Error)) :
    issued s ⟨w, s.log ++ l⟩ = l := by
  simp [issued]

theorem issued_self {σ : Type} (s : NicState σ) : issued s s = [] := by
  simp [issued]

/-- C1: on a load balancer that exposes its properties and rule list, where
every existing rule carries a frontend port and no existing rule has the target
name, every create-or-update request that `createInboundNatRule` issues sends a
rule whose frontend port differs from the frontend port of every existing rule. -/
theorem createInboundNatRule_port_fresh {σ : Type} (c : Clients σ) (scope : NICScope)
    (lb : LoadBalancer) (props : LoadBalancerPropertiesFormat) (rules : List InboundNatRule)
    (ruleName : String) (s : NicState σ)
    (hp : lb.props = some props) (hr : props.InboundNatRules = some rules)
    (hport : ∀ v ∈ rules, (frontendPortOf v).isSome = true)
    (hname : ∀ v ∈ rules, toStr v.Name ≠ ruleName) :
    ∀ (rg lbn n : String) (rule : InboundNatRule) (e : Option Error),
      (NicCall.natCreateOrUpdate rg lbn n rule, e) ∈
          issued s (createInboundNatRule c scope lb ruleName s).2 →
        ∃ fp, frontendPortOf rule = some fp ∧ ∀ v ∈ rules, frontendPortOf v ≠ some fp := by
  intro rg lbn n rule e hmem
  rw [createInboundNatRule_unfold c scope lb props rules ruleName s hp hr hname hport] at hmem
  cases hsel : selectFrontendPort (rules.filterMap frontendPortOf) with
  | none => simp [hsel, issued_self] at hmem
  | some port =>
    have hfree : port ∉ rules.filterMap frontendPortOf := by
      rcases (selectFrontendPort_eq_some _ _).1 hsel with ⟨h22, rfl⟩ | ⟨-, -, -, h, -⟩
      · exact h22
      · exact h
    rw [hsel] at hmem
    cases hf : props.FrontendIPConfigurations with
    | none => simp [hf, issued_self] at hmem
    | some l =>
      cases l with
      | nil => simp [hf, issued_self] at hmem
      | cons fip rest =>
        simp only [hf, issued_append, List.mem_singleton, Prod.mk.injEq,
          NicCall.natCreateOrUpdate.injEq] at hmem
        obtain ⟨⟨-, -, -, rfl⟩, -⟩ := hmem
        refine ⟨port, frontendPortOf_natRuleFor _ _ _, ?_⟩
        intro v hv hvp
        exact hfree ((mem_ports_iff rules port).2 ⟨v, hv, hvp⟩)

/-- Witness of C1: with ports 22 and 2201 taken, the request carries port 2202,
which no existing rule uses. -/
theorem createInboundNatRule_port_fresh_witness :
    issued startState (createInboundNatRule sampleClients sampleScope
        (sampleLB [sampleRule "a" 22, sampleRule "b" 2201]) "m" startState).2 =
      [(NicCall.natCreateOrUpdate "rg" "lb" "m"
          (natRuleFor "m" ⟨some "fe", some "/lb/fe"⟩ 2202), none)] ∧
    ∃ fp, frontendPortOf (natRuleFor "m" ⟨some "fe", some "/lb/fe"⟩ 2202) = some fp ∧
      ∀ v ∈ [sampleRule "a" 22, sampleRule "b" 2201], frontendPortOf v ≠ some fp :=
  ⟨by decide,
   createInboundNatRule_port_fresh sampleClients sampleScope
     (sampleLB [sampleRule "a" 22, sampleRule "b" 2201]) _ _ "m" startState rfl rfl
     (by decide) (by decide) "rg" "lb" "m" _ none (by decide)⟩

theorem isReferencePort_iff (rules : List InboundNatRule) (p : Int) :
    IsReferencePort rules p ↔ selectFrontendPort (rules.filterMap frontendPortOf) = some p := by
  rw [selectFrontendPort_eq_some]
  simp only [IsReferencePort, mem_ports_iff]

theorem portsExhausted_iff (rules : List InboundNatRule) :
    PortsExhausted rules ↔ selectFrontendPort (rules.filterMap frontendPortOf) = none := by
  rw [selectFrontendPort_eq_none]
  simp only [PortsExhausted, mem_ports_iff]

/-- C2 as stated fails: the single existing rule has no properties, so the
reference port is 22 and no rule has the target name, yet the call panics at
the dereference of line 158 and sends no request: no port is chosen. -/
theorem createInboundNatRule_reference_port_counterexample :
    IsReferencePort [bareRule] 22 ∧
    (∀ v ∈ [bareRule], toStr v.Name ≠ "m") ∧
    createInboundNatRule sampleClients sampleScope (sampleLB [bareRule]) "m" startState =
      (Res.panic, startState) := by
  refine ⟨?_, by decide, rfl⟩
  rw [isReferencePort_iff]
  decide

/-- C2, amended: on a load balancer with properties and a rule list in which
every rule carries a frontend port and no rule has the target name, the
frontend port of every request `createInboundNatRule` issues is the reference
port (22 if no rule uses 22, else the least unused port of 2201..2219), and
whenever the reference port exists and the load balancer has a first frontend
IP configuration, exactly one request is issued and it carries that port. -/
theorem createInboundNatRule_reference_port {σ : Type} (c : Clients σ) (scope : NICScope)
    (lb : LoadBalancer) (props : LoadBalancerPropertiesFormat) (rules : List InboundNatRule)
    (ruleName : String) (s : NicState σ)
    (hp : lb.props = some props) (hr : props.InboundNatRules = some rules)
    (hport : ∀ v ∈ rules, (frontendPortOf v).isSome = true)
    (hname : ∀ v ∈ rules, toStr v.Name ≠ ruleName) :
    (∀ (rg lbn n : String) (rule : InboundNatRule) (e : Option Error),
      (NicCall.natCreateOrUpdate rg lbn n rule, e) ∈
          issued s (createInboundNatRule c scope lb ruleName s).2 →
        ∃ p, frontendPortOf rule = some p ∧ IsReferencePort rules p) ∧
    (∀ (p : Int) (fip : FrontendIPConfiguration) (rest : List FrontendIPConfiguration),
      IsReferencePort rules p → props.FrontendIPConfigurations = some (fip :: rest) →
        ∃ e, issued s (createInboundNatRule c scope lb ruleName s).2 =
          [(NicCall.natCreateOrUpdate scope.ResourceGroup (toStr lb.Name) ruleName
            (natRuleFor ruleName fip p), e)]) := by
  rw [createInboundNatRule_unfold c scope lb props rules ruleName s hp hr hname hport]
  constructor
  · intro rg lbn n rule e hmem
    cases hsel : selectFrontendPort (rules.filterMap frontendPortOf) with
    | none => simp [hsel, issued_self] at hmem
    | some port =>
      rw [hsel] at hmem
      cases hf : props.FrontendIPConfigurations with
      | none => simp [hf, issued_self] at hmem
      | some l =>
        cases l with
        | nil => simp [hf, issued_self] at hmem
        | cons fip rest =>
          simp only [hf, issued_append, List.mem_singleton, Prod.mk.injEq,
            NicCall.natCreateOrUpdate.injEq] at hmem
          obtain ⟨⟨-, -, -, rfl⟩, -⟩ := hmem
          exact ⟨port, frontendPortOf_natRuleFor _ _ _, (isReferencePort_iff rules port).2 hsel⟩
  · intro p fip rest href hf
    rw [(isReferencePort_iff rules p).1 href]
    simp only [hf, issued_append]
    exact ⟨_, rfl⟩

/-- Witness of C2: existing ports 22, 2201 and 2202 give port 2203. -/
theorem createInboundNatRule_reference_port_witness :
    IsReferencePort [sampleRule "a" 22, sampleRule "b" 2201, sampleRule "c" 2202] 2203 ∧
    ∃ e, issued startState (createInboundNatRule sampleClients sampleScope
        (sampleLB [sampleRule "a" 22, sampleRule "b" 2201, sampleRule "c" 2202]) "m"
        startState).2 =
      [(NicCall.natCreateOrUpdate "rg" "lb" "m"
          (natRuleFor "m" ⟨some "fe", some "/lb/fe"⟩ 2203), e)] :=
  have href : IsReferencePort
      [sampleRule "a" 22, sampleRule "b" 2201, sampleRule "c" 2202] 2203 :=
    (isReferencePort_iff _ _).2 (by decide)
  ⟨href,
   (createInboundNatRule_reference_port sampleClients sampleScope
     (sampleLB [sampleRule "a" 22, sampleRule "b" 2201, sampleRule "c" 2202]) _ _ "m"
     startState rfl rfl (by decide) (by decide)).2 2203 _ _ href rfl⟩

/-- C3 as stated fails: port 22 and every port of 2201..2219 belong to existing
rules and no rule has the target name, but a further rule has no properties, and
the call panics instead of returning the capacity error. -/
theorem createInboundNatRule_capacity_counterexample :
    PortsExhausted (fullRules ++ [bareRule]) ∧
    (∀ v ∈ fullRules ++ [bareRule], toStr v.Name ≠ "m") ∧
    createInboundNatRule sampleClients sampleScope (sampleLB (fullRules ++ [bareRule])) "m"
      startState = (Res.panic, startState) := by
  refine ⟨?_, by decide, by decide⟩
  rw [portsExhausted_iff]
  decide

/-- C3, amended: on a load balancer with properties and a rule list in which
every rule carries a frontend port and no rule has the target name,
`createInboundNatRule` returns the capacity error of line 171, leaving the run
state as it was (no request issued, so no rule created and no port reused),
if and only if port 22 and every port of 2201..2219 is the frontend port of
some existing rule. -/
theorem createInboundNatRule_capacity {σ : Type} (c : Clients σ) (scope : NICScope)
    (lb : LoadBalancer) (props : LoadBalancerPropertiesFormat) (rules : List InboundNatRule)
    (ruleName : String) (s : NicState σ)
    (hp : lb.props = some props) (hr : props.InboundNatRules = some rules)
    (hport : ∀ v ∈ rules, (frontendPortOf v).isSome = true)
    (hname : ∀ v ∈ rules, toStr v.Name ≠ ruleName) :
    createInboundNatRule c scope lb ruleName s = (Res.err (capacityError lb ruleName), s) ↔
      PortsExhausted rules := by
  rw [createInboundNatRule_unfold c scope lb props rules ruleName s hp hr hname hport,
    portsExhausted_iff]
  cases hsel : selectFrontendPort (rules.filterMap frontendPortOf) with
  | none => simp
  | some port =>
    simp only [reduceCtorEq, iff_false]
    cases hf : props.FrontendIPConfigurations with
    | none => simp
    | some l =>
      cases l with
      | nil => simp
      | cons fip rest =>
        intro h
        have hlog := congrArg (fun r => r.2.log.length) h
        simp at hlog

/-- Witness of C3: with port 22 and all of 2201..2219 taken the call returns the
capacity error and issues nothing. -/
theorem createInboundNatRule_capacity_witness :
    PortsExhausted fullRules ∧
    createInboundNatRule sampleClients sampleScope (sampleLB fullRules) "m" startState =
      (Res.err (capacityError (sampleLB fullRules) "m"), startState) :=
  have h := createInboundNatRule_capacity sampleClients sampleScope (sampleLB fullRules) _ _
    "m" startState rfl rfl (by decide) (by decide)
  have hex : PortsExhausted fullRules := (portsExhausted_iff _).2 (by decide)
  ⟨hex, h.2 hex⟩

/-- C4 as stated fails: the load balancer contains a rule with the target name,
but the rule before it has no properties, and the call panics. -/
theorem createInboundNatRule_existing_counterexample :
    (∃ v ∈ [bareRule, sampleRule "m" 22], toStr v.Name = "m") ∧
    createInboundNatRule sampleClients sampleScope (sampleLB [bareRule, sampleRule "m" 22]) "m"
      startState = (Res.panic, startState) := by
  decide

/-- C4, amended: on a load balancer with properties and a rule list that
contains a rule with the target name, such that every rule before it carries a
frontend port, `createInboundNatRule` returns success and leaves the run state
as it was (no request issued), whatever the rules after it are. -/
theorem createInboundNatRule_existing {σ : Type} (c : Clients σ) (scope : NICScope)
    (lb : LoadBalancer) (props : LoadBalancerPropertiesFormat)
    (pre : List InboundNatRule) (t : InboundNatRule) (post : List InboundNatRule)
    (ruleName : String) (s : NicState σ)
    (hp : lb.props = some props) (hr : props.InboundNatRules = some (pre ++ t :: post))
    (ht : toStr t.Name = ruleName)
    (hport : ∀ v ∈ pre, (frontendPortOf v).isSome = true) :
    createInboundNatRule c scope lb ruleName s = (Res.ok (), s) := by
  simp only [createInboundNatRule, hp, hr, scanRules_found ruleName pre t post [] ht hport]
  rfl

/-- Witness of C4: the target rule sits between other rules; the rule after it
has no properties. -/
theorem createInboundNatRule_existing_witness :
    createInboundNatRule sampleClients sampleScope
      (sampleLB ([sampleRule "a" 22] ++ sampleRule "m" 2201 :: [bareRule])) "m" startState =
      (Res.ok (), startState) :=
  createInboundNatRule_existing sampleClients sampleScope _ _ [sampleRule "a" 22]
    (sampleRule "m" 2201) [bareRule] "m" startState rfl rfl (by decide) (by decide)

/-! ### Fail-fast sequences of service calls -/

section Sequences

variable {σ : Type}

theorem tolerated_none (tol : Error → Bool) (c : ClusterCall) : Tolerated tol (c, none) := by
  intro e h
  cases h

theorem tolerated_some (tol : Error → Bool) (c : ClusterCall) (e : Error) :
    Tolerated tol (c, some e) ↔ tol e = true := by
  constructor
  · intro h
    exact h e rfl
  · intro h e1 h1
    cases h1
    exact h

theorem sequenced_ret (tol : Error → Bool) :
    Sequenced tol [] (Prog.ret () : Prog (ClusterState σ) Unit) := by
  intro s
  refine ⟨[], by simp [Prog.ret], Or.inl ⟨rfl, rfl, ?_⟩⟩
  intro ev hev
  cases hev

theorem sequenced_reconcileStep (sv : Services σ) (svc : Svc) (spec : Spec) (msg : String) :
    Sequenced tolNone [ClusterCall.reconcile svc spec] (reconcileStep sv svc spec msg) := by
  intro s
  unfold reconcileStep
  cases h : (sv.Reconcile svc spec s.world).1 with
  | none =>
    refine ⟨[(ClusterCall.reconcile svc spec, none)], rfl, Or.inl ⟨rfl, rfl, ?_⟩⟩
    intro ev hev
    rw [List.mem_singleton] at hev
    subst hev
    exact tolerated_none _ _
  | some err =>
    refine ⟨[(ClusterCall.reconcile svc spec, some err)], rfl, Or.inr ?_⟩
    refine ⟨[], ClusterCall.reconcile svc spec, err, [], rfl, rfl, ?_, rfl, msg, rfl⟩
    intro ev hev
    cases hev

theorem sequenced_deleteStep (sv : Services σ) (svc : Svc) (spec : Spec) (msg : String) :
    Sequenced ResourceNotFound [ClusterCall.delete svc spec] (deleteStep sv svc spec msg) := by
  intro s
  unfold deleteStep
  cases h : (sv.Delete svc spec s.world).1 with
  | none =>
    refine ⟨[(ClusterCall.delete svc spec, none)], rfl, Or.inl ⟨rfl, rfl, ?_⟩⟩
    intro ev hev
    rw [List.mem_singleton] at hev
    subst hev
    exact tolerated_none _ _
  | some err =>
    cases hnf : ResourceNotFound err with
    | true =>
      refine ⟨[(ClusterCall.delete svc spec, some err)], ?_, Or.inl ⟨?_, rfl, ?_⟩⟩
      · simp [hnf]
      · simp [hnf]
      · intro ev hev
        rw [List.mem_singleton] at hev
        subst hev
        exact (tolerated_some _ _ _).2 hnf
    | false =>
      refine ⟨[(ClusterCall.delete svc spec, some err)], ?_, Or.inr ?_⟩
      · simp [hnf]
      · refine ⟨[], ClusterCall.delete svc spec, err, [], rfl, hnf, ?_, rfl, msg, ?_⟩
        · intro ev hev
          cases hev
        · simp [hnf]

theorem sequenced_zones (sv : Services σ) (msg : String) :
    Sequenced tolNone [ClusterCall.get Svc.availZoneSvc Spec.availabilityZones]
      (orWrap (setFailureDomainsForLocation sv) msg) := by
  intro s
  unfold orWrap setFailureDomainsForLocation
  cases h : (sv.Get Svc.availZoneSvc Spec.availabilityZones s.world).1 with
  | ok zones =>
    refine ⟨[(ClusterCall.get Svc.availZoneSvc Spec.availabilityZones, none)], rfl,
      Or.inl ⟨rfl, rfl, ?_⟩⟩
    intro ev hev
    rw [List.mem_singleton] at hev
    subst hev
    exact tolerated_none _ _
  | error err =>
    refine ⟨[(ClusterCall.get Svc.availZoneSvc Spec.availabilityZones, some err)], rfl,
      Or.inr ?_⟩
    refine ⟨[], _, err, [], rfl, rfl, ?_, rfl, msg, rfl⟩
    intro ev hev
    cases hev

theorem sequenced_andThen (tol : Error → Bool) (l1 l2 : List ClusterCall)
    (m1 m2 : Prog (ClusterState σ) Unit)
    (h1 : Sequenced tol l1 m1) (h2 : Sequenced tol l2 m2) :
    Sequenced tol (l1 ++ l2) (Prog.andThen m1 (fun _ => m2)) := by
  intro s
  obtain ⟨evs1, hlog1, hcase1⟩ := h1 s
  unfold Prog.andThen
  rcases hcase1 with ⟨hok, hcalls, htol⟩ | ⟨pre, c, e, rest, hevs, hne, hpre, hcalls, msg, herr⟩
  · rcases hm : m1 s with ⟨r1, s1⟩
    rw [hm] at hok hlog1
    simp only at hok hlog1
    subst hok
    simp only
    obtain ⟨evs2, hlog2, hcase2⟩ := h2 s1
    refine ⟨evs1 ++ evs2, by rw [hlog2, hlog1, List.append_assoc], ?_⟩
    rcases hcase2 with ⟨hok2, hcalls2, htol2⟩ |
      ⟨pre, c, e, rest, hevs, hne, hpre, hcalls2, msg, herr⟩
    · refine Or.inl ⟨hok2, by rw [List.map_append, hcalls, hcalls2], ?_⟩
      intro ev hev
      rcases List.mem_append.1 hev with h | h
      · exact htol ev h
      · exact htol2 ev h
    · refine Or.inr ⟨evs1 ++ pre, c, e, rest, by rw [hevs, List.append_assoc], hne, ?_, ?_,
        msg, herr⟩
      · intro ev hev
        rcases List.mem_append.1 hev with h | h
        · exact htol ev h
        · exact hpre ev h
      · rw [List.map_append, hcalls, hcalls2, List.append_assoc]
  · rcases hm : m1 s with ⟨r1, s1⟩
    rw [hm] at herr hlog1
    simp only at herr hlog1
    subst herr
    simp only
    refine ⟨evs1, hlog1, Or.inr ⟨pre, c, e, rest ++ l2, hevs, hne, hpre, ?_, msg, rfl⟩⟩
    rw [hcalls, List.append_assoc, List.cons_append]

theorem sequenced_orWrap (tol : Error → Bool) (l : List ClusterCall)
    (m : Prog (ClusterState σ) Unit) (msg : String) (h : Sequenced tol l m) :
    Sequenced tol l (orWrap m msg) := by
  intro s
  obtain ⟨evs, hlog, hcase⟩ := h s
  unfold orWrap
  rcases hm : m s with ⟨r1, s1⟩
  rw [hm] at hlog hcase
  simp only at hlog hcase
  rcases hcase with ⟨hok, hcalls, htol⟩ | ⟨pre, c, e, rest, hevs, hne, hpre, hcalls, m0, herr⟩
  · subst hok
    exact ⟨evs, hlog, Or.inl ⟨rfl, hcalls, htol⟩⟩
  · subst herr
    refine ⟨evs, hlog, Or.inr ⟨pre, c, e, rest, hevs, hne, hpre, hcalls, ?_⟩⟩
    exact ⟨msg ++ ": " ++ m0, by simp [Wrap, String.append_assoc]⟩

end Sequences

section Orchestrator

variable {σ : Type}

theorem sequenced_forEach {α : Type} (tol : Error → Bool) (f : α → ClusterCall)
    (body : α → Prog (ClusterState σ) Unit) (h : ∀ x, Sequenced tol [f x] (body x))
    (xs : List α) : Sequenced tol (xs.map f) (Prog.forEach body xs) := by
  induction xs with
  | nil => exact sequenced_ret tol
  | cons x rest ih => exact sequenced_andThen tol [f x] (rest.map f) _ _ (h x) ih

theorem sequenced_step_then (l : List ClusterCall) (sv : Services σ) (svc : Svc) (spec : Spec)
    (msg : String) (m : Prog (ClusterState σ) Unit) (h : Sequenced tolNone l m) :
    Sequenced tolNone (ClusterCall.reconcile svc spec :: l)
      (Prog.andThen (reconcileStep sv svc spec msg) (fun _ => m)) :=
  sequenced_andThen tolNone [_] l _ _ (sequenced_reconcileStep sv svc spec msg) h

theorem sequenced_delete_then (l : List ClusterCall) (sv : Services σ) (svc : Svc) (spec : Spec)
    (msg : String) (m : Prog (ClusterState σ) Unit) (h : Sequenced ResourceNotFound l m) :
    Sequenced ResourceNotFound (ClusterCall.delete svc spec :: l)
      (Prog.andThen (deleteStep sv svc spec msg) (fun _ => m)) :=
  sequenced_andThen ResourceNotFound [_] l _ _ (sequenced_deleteStep sv svc spec msg) h

theorem sequenced_cons (tol : Error → Bool) (c : ClusterCall) (l : List ClusterCall)
    (m1 m2 : Prog (ClusterState σ) Unit)
    (h1 : Sequenced tol [c] m1) (h2 : Sequenced tol l m2) :
    Sequenced tol (c :: l) (Prog.andThen m1 (fun _ => m2)) :=
  sequenced_andThen tol [c] l m1 m2 h1 h2

theorem andThen_modifyScope {β : Type} (f : ClusterScope → ClusterScope)
    (k : Unit → Prog (ClusterState σ) β) (s : ClusterState σ) :
    Prog.andThen (modifyScope f) k s = k () { s with scope := f s.scope } := rfl

theorem andThen_getScope {β : Type} (k : ClusterScope → Prog (ClusterState σ) β)
    (s : ClusterState σ) : Prog.andThen getScope k s = k s.scope s := rfl

/-- The steps of `Reconcile` after the name derivation form a fail-fast
sequence of the calls `reconcileCalls`. -/
theorem Reconcile_outcome (nm : Naming) (sv : Services σ) (s : ClusterState σ) :
    Outcome tolNone (reconcileCalls nm (createOrUpdateNetworkAPIServerIP nm s.scope)) s.log
      (Reconcile nm sv s) := by
  unfold Reconcile
  simp only [Prog.bind_eq]
  rw [andThen_modifyScope, andThen_getScope]
  refine (?_ : Sequenced tolNone
    (reconcileCalls nm (createOrUpdateNetworkAPIServerIP nm s.scope)) _) _
  unfold reconcileCalls
  simp only [List.cons_append, List.nil_append]
  refine sequenced_cons _ _ _ _ _ (sequenced_zones sv _) ?_
  iterate 10 refine sequenced_step_then _ sv _ _ _ _ ?_
  cases (createOrUpdateNetworkAPIServerIP nm s.scope).IsIPV6Enabled with
  | true =>
    simp only [if_true]
    refine sequenced_step_then _ sv _ _ _ _ ?_
    exact sequenced_reconcileStep sv _ _ _
  | false =>
    simp only [Bool.false_eq_true, if_false]
    exact sequenced_ret tolNone

/-- The steps of `Delete` form a fail-fast sequence of the calls `deleteCalls`
in which a not-found error is tolerated. -/
theorem Delete_outcome (nm : Naming) (sv : Services σ) (s : ClusterState σ) :
    Outcome ResourceNotFound (deleteCalls nm s.scope) s.log (Delete nm sv s) := by
  have hLB : Sequenced ResourceNotFound
      [ ClusterCall.delete Svc.publicLBSvc (Spec.publicLB
          { Name := nm.GeneratePublicLBName s.scope.Name
            PublicIPName := ""
            IsAPIServer := false }),
        ClusterCall.delete Svc.publicIPSvc (Spec.publicIP
          { Name := s.scope.APIServerIP.Name
            DNSName := ""
            IsIPV6 := false }),
        ClusterCall.delete Svc.internalLBSvc (Spec.internalLB
          { Name := nm.GenerateInternalLBName s.scope.Name
            SubnetName := ""
            SubnetCidr := ""
            VnetName := ""
            IPAddress := "" }) ]
      (orWrap (deleteLB nm sv s.scope) "failed to delete load balancer") := by
    refine sequenced_orWrap _ _ _ _ ?_
    unfold deleteLB
    simp only [Prog.bind_eq]
    iterate 2 refine sequenced_delete_then _ sv _ _ _ _ ?_
    exact sequenced_deleteStep sv _ _ _
  have hSub : Sequenced ResourceNotFound
      (s.scope.Subnets.map
        (fun sn => ClusterCall.delete Svc.subnetsSvc (subnetDeleteSpec s.scope sn)))
      (orWrap (deleteSubnets sv s.scope) "failed to delete subnets") := by
    refine sequenced_orWrap _ _ _ _ ?_
    unfold deleteSubnets
    exact sequenced_forEach _ _ _ (fun sn => sequenced_deleteStep sv _ _ _) _
  have hNSG : Sequenced ResourceNotFound
      [ ClusterCall.delete Svc.securityGroupSvc (Spec.securityGroup
          { Name := s.scope.NodeSubnet.SecurityGroup.Name
            IsControlPlane := false }),
        ClusterCall.delete Svc.securityGroupSvc (Spec.securityGroup
          { Name := s.scope.ControlPlaneSubnet.SecurityGroup.Name
            IsControlPlane := false }) ]
      (orWrap (deleteNSG sv s.scope) "failed to delete network security group") := by
    refine sequenced_orWrap _ _ _ _ ?_
    unfold deleteNSG
    simp only [Prog.bind_eq]
    refine sequenced_delete_then _ sv _ _ _ _ ?_
    exact sequenced_deleteStep sv _ _ _
  unfold Delete
  simp only [Prog.bind_eq]
  rw [andThen_getScope]
  refine (?_ : Sequenced ResourceNotFound (deleteCalls nm s.scope) _) _
  unfold deleteCalls
  rw [List.append_assoc]
  refine sequenced_andThen _ _ _ _ _ hLB (sequenced_andThen _ _ _ _ _ hSub ?_)
  refine sequenced_delete_then _ sv _ _ _ _ ?_
  refine sequenced_andThen _ [_, _] [_, _] _ _ hNSG ?_
  refine sequenced_delete_then _ sv _ _ _ _ ?_
  exact sequenced_deleteStep sv _ _ _

end Orchestrator

section OutcomeFacts

variable {σ : Type}

theorem drop_log (log0 evs : List (ClusterCall × Option Error)) :
    (log0 ++ evs).drop log0.length = evs := by
  simp

theorem tolerated_tolNone (ev : ClusterCall × Option Error) :
    Tolerated tolNone ev ↔ ev.2 = none := by
  constructor
  · intro h
    cases hev : ev.2 with
    | none => rfl
    | some e =>
      have := h e hev
      simp [tolNone] at this
  · intro h e he
    rw [h] at he
    cases he

/-- In a log whose entries before the last are tolerated and whose last entry
is not, an entry that is not tolerated is the last one. -/
theorem untolerated_last (tol : Error → Bool) (p q pre : List (ClusterCall × Option Error))
    (c c0 : ClusterCall) (e e0 : Error)
    (hsplit : p ++ (c, some e) :: q = pre ++ [(c0, some e0)])
    (hpre : ∀ ev ∈ pre, Tolerated tol ev) (hne : tol e = false) :
    q = [] ∧ e0 = e := by
  induction p generalizing pre with
  | nil =>
    cases pre with
    | nil =>
      simp only [List.nil_append, List.cons.injEq, Prod.mk.injEq, Option.some.injEq] at hsplit
      exact ⟨hsplit.2, hsplit.1.2.symm⟩
    | cons a pre1 =>
      simp only [List.nil_append, List.cons_append, List.cons.injEq] at hsplit
      have := (tolerated_some tol c e).1 (hsplit.1 ▸ hpre a (List.mem_cons_self _ _))
      rw [hne] at this
      cases this
  | cons b p1 ih =>
    cases pre with
    | nil =>
      simp only [List.cons_append, List.nil_append, List.cons.injEq] at hsplit
      have := hsplit.2
      simp at this
    | cons a pre1 =>
      simp only [List.cons_append, List.cons.injEq] at hsplit
      exact ih pre1 hsplit.2 (fun ev hev => hpre ev (List.mem_cons_of_mem _ hev))

theorem outcome_of_tolerated (tol : Error → Bool) (calls : List ClusterCall)
    (log0 : List (ClusterCall × Option Error)) (r : Res Unit × ClusterState σ)
    (h : Outcome tol calls log0 r)
    (htol : ∀ ev ∈ r.2.log.drop log0.length, Tolerated tol ev) :
    r.1 = Res.ok () ∧ (r.2.log.drop log0.length).map Prod.fst = calls := by
  obtain ⟨evs, hlog, hcase⟩ := h
  rw [hlog, drop_log] at htol ⊢
  rcases hcase with ⟨hok, hcalls, -⟩ | ⟨pre, c, e, rest, hevs, hne, -, -, -⟩
  · exact ⟨hok, hcalls⟩
  · have := (tolerated_some tol c e).1 (htol (c, some e) (by rw [hevs]; simp))
    rw [hne] at this
    cases this

theorem outcome_of_ok (tol : Error → Bool) (calls : List ClusterCall)
    (log0 : List (ClusterCall × Option Error)) (r : Res Unit × ClusterState σ)
    (h : Outcome tol calls log0 r) (hok : r.1 = Res.ok ()) :
    (∀ ev ∈ r.2.log.drop log0.length, Tolerated tol ev) ∧
      (r.2.log.drop log0.length).map Prod.fst = calls := by
  obtain ⟨evs, hlog, hcase⟩ := h
  rw [hlog, drop_log]
  rcases hcase with ⟨-, hcalls, htol⟩ | ⟨pre, c, e, rest, -, -, -, -, msg, herr⟩
  · exact ⟨htol, hcalls⟩
  · rw [hok] at herr
    cases herr

theorem outcome_abort (tol : Error → Bool) (calls : List ClusterCall)
    (log0 : List (ClusterCall × Option Error)) (r : Res Unit × ClusterState σ)
    (h : Outcome tol calls log0 r) (p q : List (ClusterCall × Option Error))
    (c : ClusterCall) (e : Error)
    (hsplit : r.2.log.drop log0.length = p ++ (c, some e) :: q) (hne : tol e = false) :
    q = [] ∧ ∃ msg, r.1 = Res.err (Wrap e msg) := by
  obtain ⟨evs, hlog, hcase⟩ := h
  rw [hlog, drop_log] at hsplit
  rcases hcase with ⟨-, -, htol⟩ | ⟨pre, c0, e0, rest, hevs, -, hpre, -, msg, herr⟩
  · have := (tolerated_some tol c e).1 (htol (c, some e) (by rw [hsplit]; simp))
    rw [hne] at this
    cases this
  · rw [hevs] at hsplit
    obtain ⟨hq, he⟩ := untolerated_last tol p q pre c c0 e e0 hsplit.symm hpre hne
    subst he
    exact ⟨hq, msg, herr⟩

theorem outcome_prefix (tol : Error → Bool) (calls : List ClusterCall)
    (log0 : List (ClusterCall × Option Error)) (r : Res Unit × ClusterState σ)
    (h : Outcome tol calls log0 r) :
    ∃ rest, calls = (r.2.log.drop log0.length).map Prod.fst ++ rest := by
  obtain ⟨evs, hlog, hcase⟩ := h
  rw [hlog, drop_log]
  rcases hcase with ⟨-, hcalls, -⟩ | ⟨pre, c, e, rest, hevs, -, -, hcalls, -⟩
  · exact ⟨[], by rw [hcalls, List.append_nil]⟩
  · exact ⟨rest, by rw [hcalls, hevs]; simp⟩

theorem reconcileCalls_no_delete (nm : Naming) (sc : ClusterScope) :
    ∀ c ∈ reconcileCalls nm sc, ∀ svc spec, c ≠ ClusterCall.delete svc spec := by
  intro c hc svc spec heq
  subst heq
  unfold reconcileCalls at hc
  cases hv6 : sc.IsIPV6Enabled <;> simp [hv6] at hc

end OutcomeFacts

section OrchestratorClaims

variable {σ : Type}

/-- C5: when every call of a `Reconcile` run succeeds, the calls issued are, in
this order: zone listing, resource group, virtual network, control-plane
security group, node security group, node route table, control-plane subnet,
node subnet, internal load balancer, API-server public IP, API-server public
load balancer; followed, when the scope reports IPv6 as enabled, by exactly one
more public IP reconcile and one more public load balancer reconcile whose spec
references the second IP name, and by nothing when it does not. -/
theorem Reconcile_call_order (nm : Naming) (sv : Services σ) (s : ClusterState σ)
    (hok : ∀ ev ∈ issuedCalls s (Reconcile nm sv s).2, ev.2 = none) :
    (issuedCalls s (Reconcile nm sv s).2).map Prod.fst =
      reconcileCalls nm (createOrUpdateNetworkAPIServerIP nm s.scope) :=
  (outcome_of_tolerated tolNone _ s.log _ (Reconcile_outcome nm sv s)
    (fun ev hev => (tolerated_tolNone ev).2 (hok ev hev))).2

/-- C6: in every `Reconcile` run, a call that returns an error is the last call
issued and `Reconcile` returns that error, annotated; no delete call is ever
issued; and `Reconcile` returns success only if every call issued succeeded and
the whole sequence of calls was issued. -/
theorem Reconcile_fail_fast (nm : Naming) (sv : Services σ) (s : ClusterState σ) :
    (∀ (p q : List (ClusterCall × Option Error)) (c : ClusterCall) (e : Error),
        issuedCalls s (Reconcile nm sv s).2 = p ++ (c, some e) :: q →
          q = [] ∧ ∃ msg, (Reconcile nm sv s).1 = Res.err (Wrap e msg)) ∧
    (∀ ev ∈ issuedCalls s (Reconcile nm sv s).2,
        ∀ (svc : Svc) (spec : Spec), ev.1 ≠ ClusterCall.delete svc spec) ∧
    ((Reconcile nm sv s).1 = Res.ok () →
        (∀ ev ∈ issuedCalls s (Reconcile nm sv s).2, ev.2 = none) ∧
        (issuedCalls s (Reconcile nm sv s).2).map Prod.fst =
          reconcileCalls nm (createOrUpdateNetworkAPIServerIP nm s.scope)) := by
  have h := Reconcile_outcome nm sv s
  refine ⟨?_, ?_, ?_⟩
  · intro p q c e hsplit
    exact outcome_abort tolNone _ s.log _ h p q c e hsplit rfl
  · intro ev hev svc spec
    obtain ⟨rest, hrest⟩ := outcome_prefix tolNone _ s.log _ h
    refine reconcileCalls_no_delete nm (createOrUpdateNetworkAPIServerIP nm s.scope)
      ev.1 ?_ svc spec
    rw [hrest]
    exact List.mem_append_left _ (List.mem_map_of_mem Prod.fst hev)
  · intro hok
    obtain ⟨htol, hcalls⟩ := outcome_of_ok tolNone _ s.log _ h hok
    exact ⟨fun ev hev => (tolerated_tolNone ev).1 (htol ev hev), hcalls⟩

/-- C7: when every call of a `Delete` run returns success or not-found, the
delete calls issued are, in this order: public load balancer, API-server public
IP, internal load balancer, every subnet of the scope in scope order, node
route table, node security group, control-plane security group, virtual
network, resource group. -/
theorem Delete_call_order (nm : Naming) (sv : Services σ) (s : ClusterState σ)
    (htol : ∀ ev ∈ issuedCalls s (Delete nm sv s).2,
      ∀ e, ev.2 = some e → ResourceNotFound e = true) :
    (issuedCalls s (Delete nm sv s).2).map Prod.fst = deleteCalls nm s.scope :=
  (outcome_of_tolerated ResourceNotFound _ s.log _ (Delete_outcome nm sv s) htol).2

/-- C8: in every `Delete` run, `Delete` returns success exactly when every call
issued returned success or not-found; a call that returns any other error is
the last call issued and `Delete` returns that error, annotated; the calls
issued are an initial part of the delete sequence, and a run whose last call
returned not-found has issued the whole sequence, so a not-found result never
stops the run; a run in which every call issued returned success or not-found
has issued every call of the delete sequence, in order, so after a step that
succeeds or reports not-found the next step is attempted. -/
theorem Delete_fail_fast (nm : Naming) (sv : Services σ) (s : ClusterState σ) :
    ((Delete nm sv s).1 = Res.ok () ↔
        ∀ ev ∈ issuedCalls s (Delete nm sv s).2,
          ∀ e, ev.2 = some e → ResourceNotFound e = true) ∧
    (∀ (p q : List (ClusterCall × Option Error)) (c : ClusterCall) (e : Error),
        issuedCalls s (Delete nm sv s).2 = p ++ (c, some e) :: q →
          ResourceNotFound e = false →
          q = [] ∧ ∃ msg, (Delete nm sv s).1 = Res.err (Wrap e msg)) ∧
    (∃ rest, deleteCalls nm s.scope =
        (issuedCalls s (Delete nm sv s).2).map Prod.fst ++ rest) ∧
    (∀ (p : List (ClusterCall × Option Error)) (c : ClusterCall) (e : Error),
        issuedCalls s (Delete nm sv s).2 = p ++ [(c, some e)] →
          ResourceNotFound e = true →
          (issuedCalls s (Delete nm sv s).2).map Prod.fst = deleteCalls nm s.scope) ∧
    ((∀ ev ∈ issuedCalls s (Delete nm sv s).2,
        ∀ e, ev.2 = some e → ResourceNotFound e = true) →
      (issuedCalls s (Delete nm sv s).2).map Prod.fst = deleteCalls nm s.scope) := by
  have h := Delete_outcome nm sv s
  refine ⟨⟨?_, ?_⟩, ?_, ?_, ?_, ?_⟩
  rotate_right
  · intro htol
    exact (outcome_of_tolerated ResourceNotFound _ s.log _ h htol).2
  · intro hok
    exact (outcome_of_ok ResourceNotFound _ s.log _ h hok).1
  · intro htol
    exact (outcome_of_tolerated ResourceNotFound _ s.log _ h htol).1
  · intro p q c e hsplit hne
    exact outcome_abort ResourceNotFound _ s.log _ h p q c e hsplit hne
  · exact outcome_prefix ResourceNotFound _ s.log _ h
  · intro p c e hsplit hnf
    obtain ⟨evs, hlog, hcase⟩ := h
    have hissued : issuedCalls s (Delete nm sv s).2 = evs := by
      unfold issuedCalls
      rw [hlog, drop_log]
    rw [hissued] at hsplit ⊢
    rcases hcase with ⟨-, hcalls, -⟩ | ⟨pre, c0, e0, rest, hevs, hne, -, -, -⟩
    · exact hcalls
    · rw [hevs] at hsplit
      have hlast := List.append_inj_right' hsplit rfl
      simp only [List.cons.injEq, Prod.mk.injEq, Option.some.injEq, and_true] at hlast
      rw [hlast.2, hnf] at hne
      cases hne

end OrchestratorClaims

/-- Witness of C5: the cluster `demo` with IPv6 enabled and services that all
succeed; thirteen calls are issued, the last two being the egress pair. -/
theorem Reconcile_call_order_witness :
    (∀ ev ∈ issuedCalls (demoState true)
        (Reconcile sampleNaming (okServices ["1", "2"]) (demoState true)).2, ev.2 = none) ∧
    (issuedCalls (demoState true)
        (Reconcile sampleNaming (okServices ["1", "2"]) (demoState true)).2).map Prod.fst =
      reconcileCalls sampleNaming
        (createOrUpdateNetworkAPIServerIP sampleNaming (demoState true).scope) :=
  ⟨by decide,
   Reconcile_call_order sampleNaming (okServices ["1", "2"]) (demoState true) (by decide)⟩

/-- Witness of C7: the cluster `demo` with services that all succeed. -/
theorem Delete_call_order_witness :
    (issuedCalls (demoState false)
        (Delete sampleNaming (okServices []) (demoState false)).2).map Prod.fst =
      deleteCalls sampleNaming (demoState false).scope :=
  Delete_call_order sampleNaming (okServices []) (demoState false) (by decide)


/-- Witness of C8: in the cluster `demo` the API-server public IP does not
exist; its delete reports not-found, the run goes on through every later step
and returns success.  When instead the route table fails to delete with another
error, that call is the last one and the error is returned, annotated. -/
theorem Delete_fail_fast_witness :
    (Delete sampleNaming (failingServices Svc.publicIPSvc notFoundError)
        (demoState false)).1 = Res.ok () ∧
    (ClusterCall.delete Svc.publicIPSvc (Spec.publicIP ⟨"", "", false⟩), some notFoundError) ∈
      issuedCalls (demoState false)
        (Delete sampleNaming (failingServices Svc.publicIPSvc notFoundError)
          (demoState false)).2 ∧
    (issuedCalls (demoState false)
        (Delete sampleNaming (failingServices Svc.publicIPSvc notFoundError)
          (demoState false)).2).map Prod.fst = deleteCalls sampleNaming (demoScope false) ∧
    (issuedCalls (demoState false)
        (Delete sampleNaming (failingServices Svc.routeTableSvc ⟨"boom", false⟩)
          (demoState false)).2).map Prod.fst =
      (deleteCalls sampleNaming (demoScope false)).take 6 ∧
    ∃ msg, (Delete sampleNaming (failingServices Svc.routeTableSvc ⟨"boom", false⟩)
        (demoState false)).1 = Res.err (Wrap ⟨"boom", false⟩ msg) :=
  ⟨by decide, by decide,
   (Delete_fail_fast sampleNaming (failingServices Svc.publicIPSvc notFoundError)
      (demoState false)).2.2.2.2 (by decide),
   by decide,
   ((Delete_fail_fast sampleNaming (failingServices Svc.routeTableSvc ⟨"boom", false⟩)
      (demoState false)).2.1
      ((issuedCalls (demoState false)
        (Delete sampleNaming (failingServices Svc.routeTableSvc ⟨"boom", false⟩)
          (demoState false)).2).take 5)
      [] (ClusterCall.delete Svc.routeTableSvc (Spec.routeTable ⟨"rt"⟩)) ⟨"boom", false⟩
      (by decide) (by decide)).2⟩

/-- C9, the code at the failing input: for the cluster `demo` with IPv6 enabled
and services that all succeed, `Reconcile` manages the load balancers
`control-plane-internal-lb`, `control-plane-public-lb` and `cluster-public-lb`
and the public IP `cluster-f70641f5`, while the following `Delete`, which also
succeeds, removes the load balancers `demo-public-lb` and `demo-internal-lb`
and a single public IP: four reconciled resources are the target of no delete
call. -/
theorem Delete_misses_reconciled_resources :
    (Reconcile sampleNaming (okServices []) (demoState true)).1 = Res.ok () ∧
    reconciledResources (issuedCalls (demoState true)
        (Reconcile sampleNaming (okServices []) (demoState true)).2) =
      [(Svc.groupsSvc, ""), (Svc.vnetSvc, "demo-vnet"), (Svc.securityGroupSvc, "cp-nsg"),
       (Svc.securityGroupSvc, "node-nsg"), (Svc.routeTableSvc, "rt"),
       (Svc.subnetsSvc, "cp-subnet"), (Svc.subnetsSvc, "node-subnet"),
       (Svc.internalLBSvc, "control-plane-internal-lb"),
       (Svc.publicIPSvc, "demo-f70641f5"), (Svc.publicLBSvc, "control-plane-public-lb"),
       (Svc.publicIPSvc, "cluster-f70641f5"), (Svc.publicLBSvc, "cluster-public-lb")] ∧
    (Delete sampleNaming (okServices [])
        (Reconcile sampleNaming (okServices []) (demoState true)).2).1 = Res.ok () ∧
    deletedResources (issuedCalls (Reconcile sampleNaming (okServices []) (demoState true)).2
        (Delete sampleNaming (okServices [])
          (Reconcile sampleNaming (okServices []) (demoState true)).2).2) =
      [(Svc.publicLBSvc, "demo-public-lb"), (Svc.publicIPSvc, "demo-f70641f5"),
       (Svc.internalLBSvc, "demo-internal-lb"), (Svc.subnetsSvc, "cp-subnet"),
       (Svc.subnetsSvc, "node-subnet"), (Svc.routeTableSvc, "rt"),
       (Svc.securityGroupSvc, "node-nsg"), (Svc.securityGroupSvc, "cp-nsg"),
       (Svc.vnetSvc, "demo-vnet"), (Svc.groupsSvc, "")] := by
  decide

/-- C10 as stated fails: on a remote state that changes only through the
requests of the run, the first `Reconcile` succeeds and creates the NAT rule and
the interface; the second `Reconcile` on the resulting state, with the same
specs, succeeds too and sends the interface create-or-update again. -/
theorem Reconcile_twice_counterexample :
    (Service.Reconcile remoteClients sampleNICScope ⟨sampleRemote [], []⟩).1 = Res.ok () ∧
    (Service.Reconcile remoteClients sampleNICScope
      (Service.Reconcile remoteClients sampleNICScope ⟨sampleRemote [], []⟩).2).1 = Res.ok () ∧
    (requestsOf (issued (Service.Reconcile remoteClients sampleNICScope ⟨sampleRemote [], []⟩).2
      (Service.Reconcile remoteClients sampleNICScope
        (Service.Reconcile remoteClients sampleNICScope ⟨sampleRemote [], []⟩).2).2)).any
      (fun call =>
        match call with
        | NicCall.nicCreateOrUpdate _ _ _ => true
        | _ => false) = true := by
  decide

/-! ### The rule a first call creates -/

theorem scanRules_ports_carry (n : String) (rules : List InboundNatRule) (acc ps : List Int)
    (h : scanRules n rules acc = RuleScan.ports ps) :
    ∀ v ∈ rules, (frontendPortOf v).isSome = true := by
  induction rules generalizing acc with
  | nil =>
    intro v hv
    cases hv
  | cons w rest ih =>
    unfold scanRules at h
    by_cases hw : toStr w.Name = n
    · simp [hw] at h
    · simp only [hw, if_false] at h
      cases hwp : w.props with
      | none => simp [hwp] at h
      | some p =>
        simp only [hwp] at h
        cases hfp : p.FrontendPort with
        | none => simp [hfp] at h
        | some fp =>
          simp only [hfp] at h
          intro v hv
          rcases List.mem_cons.1 hv with rfl | hv
          · simp [frontendPortOf, hwp, hfp]
          · exact ih _ h v hv

/-- The rule a call of `createInboundNatRule` sends has the target name, and
the call sends it only when every existing rule carries a frontend port: the
load balancer obtained by adding the rule, at any position, then contains a
rule with the target name, and the rules before it carry ports. -/
theorem createInboundNatRule_created_rule {σ : Type} (c : Clients σ) (scope : NICScope)
    (lb : LoadBalancer) (props : LoadBalancerPropertiesFormat) (rules : List InboundNatRule)
    (ruleName : String) (s : NicState σ)
    (hp : lb.props = some props) (hr : props.InboundNatRules = some rules)
    (rg lbn n : String) (rule : InboundNatRule) (e : Option Error)
    (hmem : (NicCall.natCreateOrUpdate rg lbn n rule, e) ∈
      issued s (createInboundNatRule c scope lb ruleName s).2) :
    toStr rule.Name = ruleName ∧ ∀ v ∈ rules, (frontendPortOf v).isSome = true := by
  simp only [createInboundNatRule, hp, hr] at hmem
  cases hscan : scanRules ruleName rules [] with
  | found => simp [hscan, Prog.ret, issued_self] at hmem
  | nilDeref => simp [hscan, Prog.crash, issued_self] at hmem
  | ports ps =>
    simp only [hscan] at hmem
    cases hsel : selectFrontendPort ps with
    | none => simp [hsel, Prog.fail, issued_self] at hmem
    | some port =>
      simp only [hsel] at hmem
      cases hf : props.FrontendIPConfigurations with
      | none => simp [hf, Prog.crash, issued_self] at hmem
      | some l =>
        cases l with
        | nil => simp [hf, Prog.crash, issued_self] at hmem
        | cons fip rest =>
          simp only [hf, Prog.bind_eq, Prog.andThen, askPut] at hmem
          have hlog : ∀ r : Res Unit × NicState σ,
              r.2.log = s.log ++ [(NicCall.natCreateOrUpdate scope.ResourceGroup
                (toStr lb.Name) ruleName (natRuleFor ruleName fip port),
                (c.InboundNATRulesCreateOrUpdate scope.ResourceGroup (toStr lb.Name) ruleName
                  (natRuleFor ruleName fip port) s.world).1)] →
              (NicCall.natCreateOrUpdate rg lbn n rule, e) ∈ issued s r.2 →
              rule = natRuleFor ruleName fip port := by
            intro r hr1 hm
            unfold issued at hm
            rw [hr1, List.drop_left] at hm
            simp only [List.mem_singleton, Prod.mk.injEq, NicCall.natCreateOrUpdate.injEq] at hm
            exact hm.1.2.2.2
          have hrule : rule = natRuleFor ruleName fip port := by
            refine hlog _ ?_ hmem
            cases (c.InboundNATRulesCreateOrUpdate scope.ResourceGroup (toStr lb.Name) ruleName
              (natRuleFor ruleName fip port) s.world).1 <;> rfl
          subst hrule
          exact ⟨rfl, scanRules_ports_carry ruleName rules [] ps hscan⟩

/-! ### The rule loop under added rules -/

theorem scanRules_found_acc (n : String) (rules : List InboundNatRule) (acc acc1 : List Int)
    (h : scanRules n rules acc = RuleScan.found) : scanRules n rules acc1 = RuleScan.found := by
  induction rules generalizing acc acc1 with
  | nil => simp [scanRules] at h
  | cons v rest ih =>
    unfold scanRules at h ⊢
    by_cases hv : toStr v.Name = n
    · simp [hv]
    · simp only [hv, if_false] at h ⊢
      cases hvp : v.props with
      | none => simp [hvp] at h
      | some p =>
        simp only [hvp] at h ⊢
        cases hfp : p.FrontendPort with
        | none => simp [hfp] at h
        | some fp =>
          simp only [hfp] at h ⊢
          exact ih _ _ h

theorem scanRules_append_found (n : String) (rules more : List InboundNatRule) (acc : List Int)
    (h : scanRules n rules acc = RuleScan.found) :
    scanRules n (rules ++ more) acc = RuleScan.found := by
  induction rules generalizing acc with
  | nil => simp [scanRules] at h
  | cons v rest ih =>
    rw [List.cons_append]
    unfold scanRules at h ⊢
    by_cases hv : toStr v.Name = n
    · simp [hv]
    · simp only [hv, if_false] at h ⊢
      cases hvp : v.props with
      | none => simp [hvp] at h
      | some p =>
        simp only [hvp] at h ⊢
        cases hfp : p.FrontendPort with
        | none => simp [hfp] at h
        | some fp =>
          simp only [hfp] at h ⊢
          exact ih _ h

theorem scanRules_ports_append (n : String) (rules : List InboundNatRule) (v : InboundNatRule)
    (acc ps : List Int) (h : scanRules n rules acc = RuleScan.ports ps)
    (hv : toStr v.Name = n) : scanRules n (rules ++ [v]) acc = RuleScan.found := by
  induction rules generalizing acc with
  | nil => simp [scanRules, hv]
  | cons w rest ih =>
    rw [List.cons_append]
    unfold scanRules at h ⊢
    by_cases hw : toStr w.Name = n
    · simp [hw]
    · simp only [hw, if_false] at h ⊢
      cases hwp : w.props with
      | none => simp [hwp] at h
      | some p =>
        simp only [hwp] at h ⊢
        cases hfp : p.FrontendPort with
        | none => simp [hfp] at h
        | some fp =>
          simp only [hfp] at h ⊢
          exact ih _ h

theorem scanRules_ports_names (n : String) (rules : List InboundNatRule) (acc ps : List Int)
    (h : scanRules n rules acc = RuleScan.ports ps) : ∀ v ∈ rules, toStr v.Name ≠ n := by
  induction rules generalizing acc with
  | nil =>
    intro v hv
    cases hv
  | cons w rest ih =>
    unfold scanRules at h
    by_cases hw : toStr w.Name = n
    · simp [hw] at h
    · simp only [hw, if_false] at h
      cases hwp : w.props with
      | none => simp [hwp] at h
      | some p =>
        simp only [hwp] at h
        cases hfp : p.FrontendPort with
        | none => simp [hfp] at h
        | some fp =>
          simp only [hfp] at h
          intro v hv
          rcases List.mem_cons.1 hv with rfl | hv
          · exact hw
          · exact ih _ h v hv

theorem putRule_append (rn : String) (rule : InboundNatRule) (rules : List InboundNatRule)
    (h : ∀ v ∈ rules, toStr v.Name ≠ rn) :
    putRule rn rule rules = rules ++ [{ rule with Name := some rn }] := by
  unfold putRule
  have hany : rules.any (fun v => toStr v.Name == rn) = false := by
    rw [List.any_eq_false]
    intro v hv
    simpa using h v hv
  simp [hany]

theorem hasRule_withRule (lb : LoadBalancer) (props : LoadBalancerPropertiesFormat)
    (rules : List InboundNatRule) (rn : String) (rule : InboundNatRule) (ps : List Int)
    (hp : lb.props = some props) (hr : props.InboundNatRules = some rules)
    (hscan : scanRules rn rules [] = RuleScan.ports ps) :
    HasRule (lb.withRule rn rule) rn ∧ ∀ n, HasRule lb n → HasRule (lb.withRule rn rule) n := by
  have hput := putRule_append rn rule rules (scanRules_ports_names rn rules [] ps hscan)
  have hw : (lb.withRule rn rule).props =
      some { props with InboundNatRules := some (rules ++ [{ rule with Name := some rn }]) } := by
    simp [LoadBalancer.withRule, hp, hr, hput]
  constructor
  · exact ⟨_, _, hw, rfl, scanRules_ports_append rn rules _ [] ps hscan rfl⟩
  · rintro n ⟨props1, rules1, hp1, hr1, hfound⟩
    rw [hp] at hp1
    cases hp1
    rw [hr] at hr1
    cases hr1
    exact ⟨_, _, hw, rfl, scanRules_append_found n rules _ [] hfound⟩

/-! ### Load balancer lookup -/

theorem findLB_name (lbs : List (String × LoadBalancer)) (rg name : String) (lb : LoadBalancer)
    (h : findLB lbs rg name = some lb) : toStr lb.Name = name := by
  unfold findLB at h
  cases hf : lbs.find? (lbMatches rg name) with
  | none => simp [hf] at h
  | some p =>
    simp only [hf, Option.map_some', Option.some.injEq] at h
    have := List.find?_some hf
    subst h
    simp only [lbMatches, Bool.and_eq_true, beq_iff_eq] at this
    exact this.2

theorem withRule_name (lb : LoadBalancer) (rn : String) (rule : InboundNatRule) :
    (lb.withRule rn rule).Name = lb.Name := by
  unfold LoadBalancer.withRule
  cases lb.props <;> rfl

theorem findLB_put (lbs : List (String × LoadBalancer)) (rg lbn rn : String)
    (rule : InboundNatRule) (rg1 name1 : String) :
    findLB (lbs.map (fun p => if lbMatches rg lbn p then (p.1, p.2.withRule rn rule) else p))
        rg1 name1 =
      (findLB lbs rg1 name1).map
        (fun lb => if rg1 = rg ∧ name1 = lbn then lb.withRule rn rule else lb) := by
  induction lbs with
  | nil => rfl
  | cons p rest ih =>
    unfold findLB at ih ⊢
    rw [List.map_cons, List.find?_cons, List.find?_cons]
    have hsame : lbMatches rg1 name1
        (if lbMatches rg lbn p then (p.1, p.2.withRule rn rule) else p) =
        lbMatches rg1 name1 p := by
      split <;> simp [lbMatches, withRule_name]
    rw [hsame]
    cases hm : lbMatches rg1 name1 p with
    | false => exact ih
    | true =>
      simp only [Option.map_some']
      simp only [lbMatches, Bool.and_eq_true, beq_iff_eq] at hm
      by_cases hk : rg1 = rg ∧ name1 = lbn
      · have : lbMatches rg lbn p = true := by
          simp [lbMatches, ← hk.1, ← hk.2, hm.1, hm.2]
        simp [this, hk]
      · have : lbMatches rg lbn p = false := by
          cases hx : lbMatches rg lbn p with
          | false => rfl
          | true =>
            simp only [lbMatches, Bool.and_eq_true, beq_iff_eq] at hx
            exact absurd ⟨hm.1.symm.trans hx.1, hm.2.symm.trans hx.2⟩ hk
        simp [this, hk]

theorem ext_refl (l : List (String × LoadBalancer)) : Ext l l := by
  intro rg name lb2 h
  exact ⟨lb2, h, fun _ hn => hn⟩

theorem ext_trans (l1 l2 l3 : List (String × LoadBalancer)) (h12 : Ext l1 l2)
    (h23 : Ext l2 l3) : Ext l1 l3 := by
  intro rg name lb3 h
  obtain ⟨lb2, h2, hn2⟩ := h23 rg name lb3 h
  obtain ⟨lb1, h1, hn1⟩ := h12 rg name lb2 h2
  exact ⟨lb1, h1, fun n hn => hn2 n (hn1 n hn)⟩

theorem settled_ext (l1 l2 : List (String × LoadBalancer)) (rg : String) (sp : NICSpec)
    (h : Ext l1 l2) (hs : Settled l1 rg sp) : Settled l2 rg sp := by
  intro hname hrole lb2 hlb2
  obtain ⟨lb1, h1, hn⟩ := h rg _ lb2 hlb2
  exact hn _ (hs hname hrole lb1 h1)

/-! ### Relations between run states -/

theorem grows_refl (s : NicState Remote) : Grows s s := ext_refl _

theorem grows_trans (s t u : NicState Remote) (h1 : Grows s t) (h2 : Grows t u) : Grows s u :=
  ext_trans _ _ _ h1 h2

theorem quiet_refl (s : NicState Remote) : Quiet s s :=
  ⟨rfl, [], by simp, fun ev hev => by cases hev⟩

theorem quiet_trans (s t u : NicState Remote) (h1 : Quiet s t) (h2 : Quiet t u) : Quiet s u := by
  obtain ⟨hl1, evs1, hlog1, hn1⟩ := h1
  obtain ⟨hl2, evs2, hlog2, hn2⟩ := h2
  refine ⟨hl2.trans hl1, evs1 ++ evs2, by rw [hlog2, hlog1, List.append_assoc], ?_⟩
  intro ev hev
  rcases List.mem_append.1 hev with h | h
  · exact hn1 ev h
  · exact hn2 ev h

theorem quiet_grows (s t : NicState Remote) (h : Quiet s t) : Grows s t := by
  unfold Grows
  rw [h.1]
  exact ext_refl _

theorem preserves_ret {α : Type} (R : NicState Remote → NicState Remote → Prop)
    (hrefl : ∀ s, R s s) (a : α) : Preserves R (Prog.ret a) :=
  fun s => hrefl s

theorem preserves_crash {α : Type} (R : NicState Remote → NicState Remote → Prop)
    (hrefl : ∀ s, R s s) : Preserves R (Prog.crash : Prog (NicState Remote) α) :=
  fun s => hrefl s

theorem preserves_andThen {α β : Type} (R : NicState Remote → NicState Remote → Prop)
    (htrans : ∀ s t u, R s t → R t u → R s u)
    (m : Prog (NicState Remote) α) (f : α → Prog (NicState Remote) β)
    (hm : Preserves R m) (hf : ∀ a, Preserves R (f a)) : Preserves R (Prog.andThen m f) := by
  intro s
  have h1 := hm s
  unfold Prog.andThen
  rcases hms : m s with ⟨r, s1⟩
  rw [hms] at h1
  cases r with
  | ok a => exact htrans _ _ _ h1 (hf a s1)
  | err e => exact h1
  | panic => exact h1

theorem preserves_orWrap (R : NicState Remote → NicState Remote → Prop)
    (m : Prog (NicState Remote) Unit) (msg : String) (hm : Preserves R m) :
    Preserves R (orWrap m msg) := by
  intro s
  have h1 := hm s
  unfold orWrap
  rcases hms : m s with ⟨r, s1⟩
  rw [hms] at h1
  cases r <;> exact h1

theorem preserves_forEach {α : Type} (R : NicState Remote → NicState Remote → Prop)
    (hrefl : ∀ s, R s s) (htrans : ∀ s t u, R s t → R t u → R s u)
    (body : α → Prog (NicState Remote) Unit) (hb : ∀ x, Preserves R (body x))
    (xs : List α) : Preserves R (Prog.forEach body xs) := by
  induction xs with
  | nil => exact preserves_ret R hrefl ()
  | cons x rest ih => exact preserves_andThen R htrans _ _ (hb x) (fun _ => ih)

theorem noNatPut_single (call : NicCall) (e : Option Error)
    (h : ∀ (rg l n : String) (r : InboundNatRule), call ≠ NicCall.natCreateOrUpdate rg l n r) :
    NoNatPut [(call, e)] := by
  intro ev hev
  rw [List.mem_singleton] at hev
  subst hev
  exact h

/-- A read of the remote state is quiet. -/
theorem getOrWrap_quiet {α : Type} (call : NicCall) (f : Remote → Except Error α × Remote)
    (msg : String) (hf : ∀ w, (f w).2 = w)
    (hcall : ∀ (rg l n : String) (r : InboundNatRule),
      call ≠ NicCall.natCreateOrUpdate rg l n r) :
    Preserves Quiet (getOrWrap call f msg) := by
  intro s
  unfold getOrWrap
  cases h : (f s.world).1 with
  | error e => exact ⟨by simp [hf], _, rfl, noNatPut_single _ _ hcall⟩
  | ok a => exact ⟨by simp [hf], _, rfl, noNatPut_single _ _ hcall⟩

theorem firstBackendPoolID_state (lb : LoadBalancer) (s : NicState Remote) :
    (firstBackendPoolID lb s).2 = s := by
  unfold firstBackendPoolID
  cases lb.props with
  | none => rfl
  | some props =>
    cases hb : props.BackendAddressPools with
    | none => simp only [hb]; rfl
    | some l =>
      cases l with
      | nil => simp only [hb]; rfl
      | cons p rest => simp only [hb]; rfl

theorem firstBackendPoolID_preserves (R : NicState Remote → NicState Remote → Prop)
    (hrefl : ∀ s, R s s) (lb : LoadBalancer) : Preserves R (firstBackendPoolID lb) := by
  intro s
  rw [firstBackendPoolID_state]
  exact hrefl s

theorem internalLBPart_quiet (scope : NICScope) (sp : NICSpec)
    (pools : List BackendAddressPool) :
    Preserves Quiet (internalLBPart remoteClients scope sp pools) := by
  unfold internalLBPart
  split
  · simp only [Prog.bind_eq]
    refine preserves_andThen Quiet quiet_trans _ _
      (getOrWrap_quiet _ _ _ (fun w => rfl) (fun _ _ _ _ h => by cases h)) (fun lb => ?_)
    exact preserves_andThen Quiet quiet_trans _ _
      (firstBackendPoolID_preserves Quiet quiet_refl lb)
      (fun _ => preserves_ret Quiet quiet_refl _)
  · exact preserves_ret Quiet quiet_refl _

theorem publicIPPart_quiet (scope : NICScope) (sp : NICSpec) :
    Preserves Quiet (publicIPPart remoteClients scope sp) := by
  unfold publicIPPart
  split
  · simp only [Prog.bind_eq]
    exact preserves_andThen Quiet quiet_trans _ _
      (getOrWrap_quiet _ _ _ (fun w => rfl) (fun _ _ _ _ h => by cases h))
      (fun _ => preserves_ret Quiet quiet_refl _)
  · exact preserves_ret Quiet quiet_refl _

theorem acceleratedNetworkingPart_quiet (sp : NICSpec) :
    Preserves Quiet (acceleratedNetworkingPart remoteClients sp) := by
  unfold acceleratedNetworkingPart
  split
  · simp only [Prog.bind_eq]
    exact preserves_andThen Quiet quiet_trans _ _
      (getOrWrap_quiet _ _ _ (fun w => rfl) (fun _ _ _ _ h => by cases h))
      (fun _ => preserves_ret Quiet quiet_refl _)
  · exact preserves_ret Quiet quiet_refl _

theorem createInterfacePart_quiet (scope : NICScope) (sp : NICSpec) (nic : Interface) :
    Preserves Quiet (createInterfacePart remoteClients scope sp nic) := by
  intro s
  unfold createInterfacePart
  simp only [Prog.bind_eq, Prog.andThen, askPut, remoteClients]
  exact ⟨rfl, _, rfl, noNatPut_single _ _ (fun _ _ _ _ h => by cases h)⟩

/-! ### The NAT rule step on the remote state -/

theorem natPut_remote (rg lbn rn : String) (rule : InboundNatRule) (w : Remote)
    (lb : LoadBalancer) (h : findLB w.loadBalancers rg lbn = some lb) :
    remoteClients.InboundNATRulesCreateOrUpdate rg lbn rn rule w =
      (none, { w with loadBalancers :=
        w.loadBalancers.map (fun p =>
          if lbMatches rg lbn p then (p.1, p.2.withRule rn rule) else p) }) := by
  simp [remoteClients, h]

theorem createInboundNatRule_settled {σ : Type} (c : Clients σ) (scope : NICScope)
    (lb : LoadBalancer) (rn : String) (s : NicState σ) (h : HasRule lb rn) :
    createInboundNatRule c scope lb rn s = (Res.ok (), s) := by
  obtain ⟨props, rules, hp, hr, hscan⟩ := h
  simp only [createInboundNatRule, hp, hr, hscan]
  rfl

theorem createInboundNatRule_remote (scope : NICScope) (lb : LoadBalancer) (rn : String)
    (s : NicState Remote)
    (hlb : findLB s.world.loadBalancers scope.ResourceGroup (toStr lb.Name) = some lb) :
    Grows s (createInboundNatRule remoteClients scope lb rn s).2 ∧
    ((createInboundNatRule remoteClients scope lb rn s).1 = Res.ok () →
      ∃ lb1, findLB (createInboundNatRule remoteClients scope lb rn s).2.world.loadBalancers
          scope.ResourceGroup (toStr lb.Name) = some lb1 ∧ HasRule lb1 rn) := by
  unfold createInboundNatRule
  cases hp : lb.props with
  | none => exact ⟨grows_refl s, fun h => by simp [Prog.fail] at h⟩
  | some props =>
    simp only
    cases hr : props.InboundNatRules with
    | none => exact ⟨grows_refl s, fun h => by simp [Prog.fail] at h⟩
    | some rules =>
      simp only
      cases hscan : scanRules rn rules [] with
      | found => exact ⟨grows_refl s, fun _ => ⟨lb, hlb, props, rules, hp, hr, hscan⟩⟩
      | nilDeref => exact ⟨grows_refl s, fun h => by simp [Prog.crash] at h⟩
      | ports ps =>
        simp only
        cases hsel : selectFrontendPort ps with
        | none => exact ⟨grows_refl s, fun h => by simp [Prog.fail] at h⟩
        | some port =>
          simp only
          cases hf : props.FrontendIPConfigurations with
          | none => exact ⟨grows_refl s, fun h => by simp [Prog.crash] at h⟩
          | some l =>
            cases l with
            | nil => exact ⟨grows_refl s, fun h => by simp [Prog.crash] at h⟩
            | cons fip rest =>
              simp only [Prog.bind_eq, Prog.andThen, askPut, Prog.ret,
                natPut_remote _ _ rn (natRuleFor rn fip port) s.world lb hlb]
              have hw := hasRule_withRule lb props rules rn (natRuleFor rn fip port) ps hp hr hscan
              constructor
              · intro rg1 name1 lb2 h2
                simp only [findLB_put] at h2
                cases hfind : findLB s.world.loadBalancers rg1 name1 with
                | none => simp [hfind] at h2
                | some lb1 =>
                  refine ⟨lb1, rfl, ?_⟩
                  simp only [hfind, Option.map_some', Option.some.injEq] at h2
                  by_cases hk : rg1 = scope.ResourceGroup ∧ name1 = toStr lb.Name
                  · rw [hk.1, hk.2, hlb] at hfind
                    cases hfind
                    simp only [hk, and_self, if_true] at h2
                    subst h2
                    exact hw.2
                  · simp only [hk, if_false] at h2
                    subst h2
                    exact fun _ hn => hn
              · intro _
                refine ⟨lb.withRule rn (natRuleFor rn fip port), ?_, hw.1⟩
                simp only [findLB_put, hlb, Option.map_some', and_self, if_true]

/-! ### The public load balancer part of one spec -/

theorem andThen_ok {S α β : Type} (m : Prog S α) (f : α → Prog S β) (s s1 : S) (a : α)
    (h : m s = (Res.ok a, s1)) : Prog.andThen m f s = f a s1 := by
  simp [Prog.andThen, h]

theorem andThen_err {S α β : Type} (m : Prog S α) (f : α → Prog S β) (s s1 : S) (e : Error)
    (h : m s = (Res.err e, s1)) : Prog.andThen m f s = (Res.err e, s1) := by
  simp [Prog.andThen, h]

theorem andThen_panic {S α β : Type} (m : Prog S α) (f : α → Prog S β) (s s1 : S)
    (h : m s = (Res.panic, s1)) : Prog.andThen m f s = (Res.panic, s1) := by
  simp [Prog.andThen, h]

theorem lbGet_remote_some (rg name msg : String) (s : NicState Remote) (lb : LoadBalancer)
    (h : findLB s.world.loadBalancers rg name = some lb) :
    getOrWrap (NicCall.lbGet rg name) (remoteClients.LoadBalancersGet rg name) msg s =
      (Res.ok lb, ⟨s.world, s.log ++ [(NicCall.lbGet rg name, none)]⟩) := by
  simp [getOrWrap, remoteClients, h]

theorem lbGet_remote_none (rg name msg : String) (s : NicState Remote)
    (h : findLB s.world.loadBalancers rg name = none) :
    getOrWrap (NicCall.lbGet rg name) (remoteClients.LoadBalancersGet rg name) msg s =
      (Res.err (Wrap notFoundError msg),
        ⟨s.world, s.log ++ [(NicCall.lbGet rg name, some notFoundError)]⟩) := by
  simp [getOrWrap, remoteClients, h]

theorem quiet_logged (s : NicState Remote) (call : NicCall) (e : Option Error)
    (hcall : ∀ (rg l n : String) (r : InboundNatRule),
      call ≠ NicCall.natCreateOrUpdate rg l n r) :
    Quiet s ⟨s.world, s.log ++ [(call, e)]⟩ :=
  ⟨rfl, _, rfl, noNatPut_single _ _ hcall⟩

theorem firstBackendPoolID_cases (lb : LoadBalancer) (s : NicState Remote) :
    (∃ a, firstBackendPoolID lb s = (Res.ok a, s)) ∨ firstBackendPoolID lb s = (Res.panic, s) := by
  unfold firstBackendPoolID
  cases lb.props with
  | none => exact Or.inr rfl
  | some props =>
    cases hb : props.BackendAddressPools with
    | none => simp only [hb]; exact Or.inr rfl
    | some l =>
      cases l with
      | nil => simp only [hb]; exact Or.inr rfl
      | cons p rest => simp only [hb]; exact Or.inl ⟨_, rfl⟩

theorem publicLBPart_remote (scope : NICScope) (sp : NICSpec) (s : NicState Remote) :
    Grows s (publicLBPart remoteClients scope sp s).2 ∧
    (∀ a, (publicLBPart remoteClients scope sp s).1 = Res.ok a →
      Settled (publicLBPart remoteClients scope sp s).2.world.loadBalancers
        scope.ResourceGroup sp) ∧
    (Settled s.world.loadBalancers scope.ResourceGroup sp →
      Quiet s (publicLBPart remoteClients scope sp s).2) := by
  unfold publicLBPart
  by_cases hname : sp.PublicLoadBalancerName = ""
  · simp only [hname, ne_eq, not_true_eq_false, if_false]
    exact ⟨grows_refl s, fun _ _ h => absurd hname h, fun _ => quiet_refl s⟩
  · simp only [hname, ne_eq, not_false_eq_true, if_true, Prog.bind_eq]
    cases hfind : findLB s.world.loadBalancers scope.ResourceGroup sp.PublicLoadBalancerName with
    | none =>
      rw [andThen_err _ _ _ _ _ (lbGet_remote_none _ _ _ s hfind)]
      have hq := quiet_logged s (NicCall.lbGet scope.ResourceGroup sp.PublicLoadBalancerName)
        (some notFoundError) (fun _ _ _ _ h => by cases h)
      exact ⟨quiet_grows _ _ hq, fun _ h => (by cases h), fun _ => hq⟩
    | some lb =>
      rw [andThen_ok _ _ _ _ _ (lbGet_remote_some _ _ _ s lb hfind)]
      have hq := quiet_logged s (NicCall.lbGet scope.ResourceGroup sp.PublicLoadBalancerName)
        none (fun _ _ _ _ h => by cases h)
      have hlbname := findLB_name _ _ _ _ hfind
      rcases firstBackendPoolID_cases lb
          ⟨s.world, s.log ++ [(NicCall.lbGet scope.ResourceGroup sp.PublicLoadBalancerName,
            none)]⟩ with ⟨poolID, hpool⟩ | hpool
      · rw [andThen_ok _ _ _ _ _ hpool]
        by_cases hrole : sp.MachineRole = ControlPlane
        · simp only [hrole, if_true]
          have hlb1 : findLB (NicState.mk s.world (s.log ++
              [(NicCall.lbGet scope.ResourceGroup sp.PublicLoadBalancerName,
                none)])).world.loadBalancers scope.ResourceGroup (toStr lb.Name) = some lb := by
            rw [hlbname]
            exact hfind
          obtain ⟨hgrow, hsettle⟩ := createInboundNatRule_remote scope lb sp.MachineName _ hlb1
          have hquiet : Settled s.world.loadBalancers scope.ResourceGroup sp →
              createInboundNatRule remoteClients scope lb sp.MachineName
                ⟨s.world, s.log ++ [(NicCall.lbGet scope.ResourceGroup
                  sp.PublicLoadBalancerName, none)]⟩ =
              (Res.ok (), ⟨s.world, s.log ++ [(NicCall.lbGet scope.ResourceGroup
                  sp.PublicLoadBalancerName, none)]⟩) := fun hs =>
            createInboundNatRule_settled remoteClients scope lb sp.MachineName _
              (hs hname hrole lb hfind)
          rcases hc : createInboundNatRule remoteClients scope lb sp.MachineName
              ⟨s.world, s.log ++ [(NicCall.lbGet scope.ResourceGroup
                sp.PublicLoadBalancerName, none)]⟩ with ⟨r, s2⟩
          rw [hc] at hgrow hsettle hquiet
          simp only at hgrow hsettle
          have hg : Grows s s2 := grows_trans _ _ _ (quiet_grows _ _ hq) hgrow
          cases r with
          | ok u =>
            simp only [Prog.andThen, orWrap, hc, Prog.ret]
            refine ⟨hg, ?_, ?_⟩
            · intro _ _ _ _ lbx hx
              obtain ⟨lb1, hlb1x, hrule⟩ := hsettle rfl
              rw [hlbname, hx] at hlb1x
              cases hlb1x
              exact hrule
            · intro hs
              have := hquiet hs
              simp only [Prod.mk.injEq, true_and] at this
              rw [this]
              exact hq
          | err e =>
            simp only [Prog.andThen, orWrap, hc]
            refine ⟨hg, fun _ h => (by cases h), ?_⟩
            intro hs
            have := hquiet hs
            simp at this
          | panic =>
            simp only [Prog.andThen, orWrap, hc]
            refine ⟨hg, fun _ h => (by cases h), ?_⟩
            intro hs
            have := hquiet hs
            simp at this
        · simp only [hrole, if_false]
          exact ⟨quiet_grows _ _ hq, fun _ _ _ h => absurd h hrole, fun _ => hq⟩
      · rw [andThen_panic _ _ _ _ hpool]
        exact ⟨quiet_grows _ _ hq, fun _ h => (by cases h), fun _ => hq⟩

/-! ### One spec, and the loop over the specs -/

theorem preserves_mono {α : Type} (R1 R2 : NicState Remote → NicState Remote → Prop)
    (h : ∀ s t, R1 s t → R2 s t) (m : Prog (NicState Remote) α) (hm : Preserves R1 m) :
    Preserves R2 m :=
  fun s => h _ _ (hm s)

theorem ensures_andThen {α β : Type} (P Q R : NicState Remote → Prop)
    (m : Prog (NicState Remote) α) (f : α → Prog (NicState Remote) β)
    (hm : Ensures P m Q) (hf : ∀ a, Ensures Q (f a) R) : Ensures P (Prog.andThen m f) R := by
  intro s hP b hok
  have h1 := hm s hP
  unfold Prog.andThen at hok ⊢
  rcases hms : m s with ⟨r, s1⟩
  rw [hms] at h1 hok
  cases r with
  | ok a =>
    simp only at hok ⊢
    exact hf a s1 (h1 a rfl) b hok
  | err e => simp at hok
  | panic => simp at hok

theorem ensures_settled {α : Type} (rg : String) (sp : NICSpec)
    (m : Prog (NicState Remote) α) (hm : Preserves Grows m) :
    Ensures (fun t => Settled t.world.loadBalancers rg sp) m
      (fun t => Settled t.world.loadBalancers rg sp) :=
  fun s hs _ _ => settled_ext _ _ rg sp (hm s) hs

theorem quietAt_of_preserves {α : Type} (lbs : List (String × LoadBalancer))
    (m : Prog (NicState Remote) α) (hm : Preserves Quiet m) : QuietAt lbs m :=
  fun s _ => hm s

theorem quietAt_andThen {α β : Type} (lbs : List (String × LoadBalancer))
    (m : Prog (NicState Remote) α) (f : α → Prog (NicState Remote) β)
    (hm : QuietAt lbs m) (hf : ∀ a, QuietAt lbs (f a)) : QuietAt lbs (Prog.andThen m f) := by
  intro s hs
  have h1 := hm s hs
  unfold Prog.andThen
  rcases hms : m s with ⟨r, s1⟩
  rw [hms] at h1
  cases r with
  | ok a => exact quiet_trans _ _ _ h1 (hf a s1 (h1.1.trans hs))
  | err e => exact h1
  | panic => exact h1

/-- The steps of `reconcileNIC` after the public load balancer part are quiet. -/
theorem afterPublicLB_quiet (scope : NICScope) (sp : NICSpec) (subnet : Subnet)
    (lbPart : List BackendAddressPool × Option (List InboundNatRule)) :
    Preserves Quiet
      (Prog.andThen (internalLBPart remoteClients scope sp lbPart.1) (fun pools =>
        Prog.andThen (publicIPPart remoteClients scope sp) (fun publicIP =>
          Prog.andThen (acceleratedNetworkingPart remoteClients sp) (fun accel =>
            createInterfacePart remoteClients scope sp
              (interfaceFor scope
                { Subnet := some ⟨subnet.ID⟩
                  PrivateIPAllocationMethod :=
                    if sp.StaticIPAddress ≠ "" then IPAllocationMethod.Static
                    else IPAllocationMethod.Dynamic
                  PrivateIPAddress :=
                    if sp.StaticIPAddress ≠ "" then some sp.StaticIPAddress else none
                  LoadBalancerBackendAddressPools := some pools
                  LoadBalancerInboundNatRules := lbPart.2
                  PublicIPAddress := publicIP }
                accel))))) :=
  preserves_andThen Quiet quiet_trans _ _ (internalLBPart_quiet scope sp lbPart.1) (fun _ =>
    preserves_andThen Quiet quiet_trans _ _ (publicIPPart_quiet scope sp) (fun _ =>
      preserves_andThen Quiet quiet_trans _ _ (acceleratedNetworkingPart_quiet sp) (fun _ =>
        createInterfacePart_quiet scope sp _)))

theorem subnetGet_quiet (sp : NICSpec) :
    Preserves Quiet
      (getOrWrap (NicCall.subnetGet sp.VNetResourceGroup sp.VNetName sp.SubnetName)
        (remoteClients.SubnetsGet sp.VNetResourceGroup sp.VNetName sp.SubnetName)
        "failed to get subnets") :=
  getOrWrap_quiet _ _ _ (fun _ => rfl) (fun _ _ _ _ h => by cases h)

theorem reconcileNIC_grows (scope : NICScope) (sp : NICSpec) :
    Preserves Grows (reconcileNIC remoteClients scope sp) := by
  unfold reconcileNIC
  simp only [Prog.bind_eq]
  refine preserves_andThen Grows grows_trans _ _
    (preserves_mono Quiet Grows quiet_grows _ (subnetGet_quiet sp)) (fun subnet => ?_)
  refine preserves_andThen Grows grows_trans _ _
    (fun s => (publicLBPart_remote scope sp s).1) (fun lbPart => ?_)
  exact preserves_mono Quiet Grows quiet_grows _ (afterPublicLB_quiet scope sp subnet lbPart)

theorem reconcileNIC_settles (scope : NICScope) (sp : NICSpec) :
    Ensures (fun _ => True) (reconcileNIC remoteClients scope sp)
      (fun t => Settled t.world.loadBalancers scope.ResourceGroup sp) := by
  unfold reconcileNIC
  simp only [Prog.bind_eq]
  refine ensures_andThen (fun _ => True) (fun _ => True) _ _ _ (fun _ _ _ _ => trivial)
    (fun subnet => ?_)
  refine ensures_andThen (fun _ => True)
    (fun t => Settled t.world.loadBalancers scope.ResourceGroup sp) _ _ _
    (fun s _ a hok => (publicLBPart_remote scope sp s).2.1 a hok) (fun lbPart => ?_)
  exact ensures_settled scope.ResourceGroup sp _
    (preserves_mono Quiet Grows quiet_grows _ (afterPublicLB_quiet scope sp subnet lbPart))

theorem reconcileNIC_quiet (scope : NICScope) (sp : NICSpec)
    (lbs : List (String × LoadBalancer)) (hs : Settled lbs scope.ResourceGroup sp) :
    QuietAt lbs (reconcileNIC remoteClients scope sp) := by
  unfold reconcileNIC
  simp only [Prog.bind_eq]
  refine quietAt_andThen lbs _ _ (quietAt_of_preserves lbs _ (subnetGet_quiet sp))
    (fun subnet => ?_)
  refine quietAt_andThen lbs _ _
    (fun s hl => (publicLBPart_remote scope sp s).2.2 (by rw [hl]; exact hs)) (fun lbPart => ?_)
  exact quietAt_of_preserves lbs _ (afterPublicLB_quiet scope sp subnet lbPart)

theorem forEach_settles (scope : NICScope) (specs : List NICSpec) :
    Ensures (fun _ => True) (Prog.forEach (reconcileNIC remoteClients scope) specs)
      (fun t => ∀ sp ∈ specs, Settled t.world.loadBalancers scope.ResourceGroup sp) := by
  induction specs with
  | nil =>
    intro s _ _ _ sp hsp
    cases hsp
  | cons sp rest ih =>
    intro s _ b hok
    unfold Prog.forEach at hok ⊢
    have h1 := reconcileNIC_settles scope sp s trivial
    unfold Prog.andThen at hok ⊢
    rcases hms : reconcileNIC remoteClients scope sp s with ⟨r, s1⟩
    rw [hms] at h1 hok
    cases r with
    | ok a =>
      simp only at hok h1 ⊢
      intro sp1 hsp1
      rcases List.mem_cons.1 hsp1 with rfl | hmem
      · exact settled_ext _ _ _ _
          (preserves_forEach Grows grows_refl grows_trans _ (reconcileNIC_grows scope) rest s1)
          (h1 a trivial)
      · exact ih s1 trivial b hok sp1 hmem
    | err e => simp at hok
    | panic => simp at hok

theorem forEach_quiet (scope : NICScope) (lbs : List (String × LoadBalancer))
    (specs : List NICSpec) (hs : ∀ sp ∈ specs, Settled lbs scope.ResourceGroup sp) :
    QuietAt lbs (Prog.forEach (reconcileNIC remoteClients scope) specs) := by
  induction specs with
  | nil => exact quietAt_of_preserves lbs _ (preserves_ret Quiet quiet_refl ())
  | cons sp rest ih =>
    exact quietAt_andThen lbs _ _
      (reconcileNIC_quiet scope sp lbs (hs sp (List.mem_cons_self _ _)))
      (fun _ => ih (fun sp1 h1 => hs sp1 (List.mem_cons_of_mem _ h1)))

theorem fnv32a_foldl (bytes : List Nat) (h : Nat) :
    bytes.foldl (fun h b => ((h ^^^ b) * 16777619) % 2 ^ 32) h = fnv1a32From h bytes := by
  induction bytes generalizing h with
  | nil => rfl
  | cons b rest ih =>
    rw [List.foldl_cons, ih]
    rfl

theorem fnv32a_eq_reference (bytes : List Nat) : fnv32a bytes = fnv1a32Reference bytes :=
  fnv32a_foldl bytes 2166136261

theorem digitChar_lowerHex : ∀ k < 16, Nat.digitChar k ∈ lowerHexDigits := by
  decide

theorem toDigitsCore_lowerHex (fuel n : Nat) (ds : List Char)
    (hds : ∀ c ∈ ds, c ∈ lowerHexDigits) :
    ∀ c ∈ Nat.toDigitsCore 16 fuel n ds, c ∈ lowerHexDigits := by
  induction fuel generalizing n ds with
  | zero => simpa [Nat.toDigitsCore] using hds
  | succ f ih =>
    have hd : Nat.digitChar (n % 16) ∈ lowerHexDigits :=
      digitChar_lowerHex _ (Nat.mod_lt _ (by decide))
    have hcons : ∀ c ∈ Nat.digitChar (n % 16) :: ds, c ∈ lowerHexDigits := by
      intro c hc
      rcases List.mem_cons.1 hc with rfl | hc
      · exact hd
      · exact hds c hc
    unfold Nat.toDigitsCore
    simp only
    split
    · exact hcons
    · exact ih _ _ hcons

theorem hexOf_lowerHex (n : Nat) : ∀ c ∈ (hexOf n).data, c ∈ lowerHexDigits := by
  unfold hexOf Nat.toDigits
  exact toDigitsCore_lowerHex _ _ [] (fun c hc => by cases hc)

theorem clusterHash_eq (s : ClusterScope) :
    clusterHash s =
      hexOf (fnv1a32Reference (utf8Bytes (hashInput s.SubscriptionID s.ResourceGroup s.Name))) := by
  unfold clusterHash hashInput
  rw [fnv32a_eq_reference]

theorem createOrUpdate_hash_fields (nm : Naming) (s : ClusterScope) :
    (createOrUpdateNetworkAPIServerIP nm s).SubscriptionID = s.SubscriptionID ∧
    (createOrUpdateNetworkAPIServerIP nm s).ResourceGroup = s.ResourceGroup ∧
    (createOrUpdateNetworkAPIServerIP nm s).Name = s.Name ∧
    (createOrUpdateNetworkAPIServerIP nm s).IsIPV6Enabled = s.IsIPV6Enabled ∧
    (createOrUpdateNetworkAPIServerIP nm s).FailureDomains = s.FailureDomains := by
  unfold createOrUpdateNetworkAPIServerIP
  by_cases h : s.APIServerIP.Name = "" <;> simp [h]

theorem clusterHash_congr (s t : ClusterScope) (h1 : t.SubscriptionID = s.SubscriptionID)
    (h2 : t.ResourceGroup = s.ResourceGroup) (h3 : t.Name = s.Name) :
    clusterHash t = clusterHash s := by
  unfold clusterHash
  rw [h1, h2, h3]

/-- C11: the hash argument of both generated public IP names, the API-server
name derived when none is set and the egress name reconciled when IPv6 is
enabled, is the 32-bit FNV-1a hash of the bytes of subscription id, "/",
resource group, "/", cluster name, written with lowercase hexadecimal digits;
scopes that agree on these three values get the same hash and the same
API-server name. -/
theorem generated_ip_name_hash (nm : Naming) (s : ClusterScope) :
    (s.APIServerIP.Name = "" →
      (createOrUpdateNetworkAPIServerIP nm s).APIServerIP.Name =
        nm.GeneratePublicIPName s.Name
          (hexOf (fnv1a32Reference
            (utf8Bytes (hashInput s.SubscriptionID s.ResourceGroup s.Name))))) ∧
    (∀ (σ : Type) (sv : Services σ) (st : ClusterState σ), st.scope = s →
      s.IsIPV6Enabled = true →
      (∀ ev ∈ issuedCalls st (Reconcile nm sv st).2, ev.2 = none) →
      ClusterCall.reconcile Svc.publicIPSvc (Spec.publicIP
          { Name := nm.GeneratePublicIPName "cluster"
              (hexOf (fnv1a32Reference
                (utf8Bytes (hashInput s.SubscriptionID s.ResourceGroup s.Name))))
            DNSName := ""
            IsIPV6 := false }) ∈
        (issuedCalls st (Reconcile nm sv st).2).map Prod.fst) ∧
    (∀ c ∈ (hexOf (fnv1a32Reference
        (utf8Bytes (hashInput s.SubscriptionID s.ResourceGroup s.Name)))).data,
      c ∈ lowerHexDigits) ∧
    (∀ t : ClusterScope, t.SubscriptionID = s.SubscriptionID →
      t.ResourceGroup = s.ResourceGroup → t.Name = s.Name →
      clusterHash t = clusterHash s ∧
      (t.APIServerIP.Name = "" → s.APIServerIP.Name = "" →
        (createOrUpdateNetworkAPIServerIP nm t).APIServerIP.Name =
          (createOrUpdateNetworkAPIServerIP nm s).APIServerIP.Name)) := by
  have hname : ∀ u : ClusterScope, u.APIServerIP.Name = "" →
      (createOrUpdateNetworkAPIServerIP nm u).APIServerIP.Name =
        nm.GeneratePublicIPName u.Name (clusterHash u) := by
    intro u hu
    simp [createOrUpdateNetworkAPIServerIP, hu]
  refine ⟨?_, ?_, hexOf_lowerHex _, ?_⟩
  · intro h
    rw [hname s h, clusterHash_eq]
  · intro σ sv st hst hv6 hok
    subst hst
    have hcalls := (outcome_of_tolerated tolNone _ st.log _ (Reconcile_outcome nm sv st)
      (fun ev hev => (tolerated_tolNone ev).2 (hok ev hev))).2
    obtain ⟨h1, h2, h3, h4, -⟩ := createOrUpdate_hash_fields nm st.scope
    unfold issuedCalls
    rw [hcalls, ← clusterHash_eq, ← clusterHash_congr _ _ h1 h2 h3]
    unfold reconcileCalls
    rw [h4, hv6]
    simp
  · intro t h1 h2 h3
    refine ⟨clusterHash_congr s t h1 h2 h3, ?_⟩
    intro ht hs
    rw [hname t ht, hname s hs, clusterHash_congr s t h1 h2 h3, h3]

/-- Witness of C11: the cluster `demo` of subscription `sub` and resource group
`rg`; the hash is `f70641f5`. -/
theorem generated_ip_name_hash_witness :
    hexOf (fnv1a32Reference (utf8Bytes (hashInput "sub" "rg" "demo"))) = "f70641f5" ∧
    (createOrUpdateNetworkAPIServerIP sampleNaming (demoScope true)).APIServerIP.Name =
      sampleNaming.GeneratePublicIPName "demo"
        (hexOf (fnv1a32Reference (utf8Bytes (hashInput "sub" "rg" "demo")))) ∧
    ClusterCall.reconcile Svc.publicIPSvc (Spec.publicIP
        { Name := sampleNaming.GeneratePublicIPName "cluster"
            (hexOf (fnv1a32Reference (utf8Bytes (hashInput "sub" "rg" "demo"))))
          DNSName := ""
          IsIPV6 := false }) ∈
      (issuedCalls (demoState true)
        (Reconcile sampleNaming (okServices []) (demoState true)).2).map Prod.fst :=
  ⟨by decide,
   (generated_ip_name_hash sampleNaming (demoScope true)).1 rfl,
   (generated_ip_name_hash sampleNaming (demoScope true)).2.1 Unit (okServices [])
     (demoState true) rfl rfl (by decide)⟩

/-- C12 as stated fails: the API-server IP name and the DNS name are both set
when the derivation step runs; the name is kept, the DNS name is replaced by
the name derived from the IP name and the location. -/
theorem createOrUpdateNetworkAPIServerIP_counterexample :
    customIPScope.APIServerIP = ⟨"my-ip", "custom.example.org"⟩ ∧
    (createOrUpdateNetworkAPIServerIP sampleNaming customIPScope).APIServerIP =
      ⟨"my-ip", "my-ip.westus.cloudapp.azure.com"⟩ := by
  decide

/-- C12, amended: when the API-server IP name is set, the derivation step keeps
the name and every other field of the scope, and sets the DNS name to the name
derived from the IP name and the location; the DNS name has its previous value
after the step exactly when that value already was the derived name. -/
theorem createOrUpdateNetworkAPIServerIP_set (nm : Naming) (s : ClusterScope)
    (hname : s.APIServerIP.Name ≠ "") :
    (createOrUpdateNetworkAPIServerIP nm s).APIServerIP.Name = s.APIServerIP.Name ∧
    (createOrUpdateNetworkAPIServerIP nm s).APIServerIP.DNSName =
      nm.GenerateFQDN s.APIServerIP.Name s.Location ∧
    ((createOrUpdateNetworkAPIServerIP nm s).APIServerIP.DNSName = s.APIServerIP.DNSName ↔
      s.APIServerIP.DNSName = nm.GenerateFQDN s.APIServerIP.Name s.Location) ∧
    createOrUpdateNetworkAPIServerIP nm s =
      { s with APIServerIP :=
          ⟨s.APIServerIP.Name, nm.GenerateFQDN s.APIServerIP.Name s.Location⟩ } := by
  have h : createOrUpdateNetworkAPIServerIP nm s =
      { s with APIServerIP :=
          ⟨s.APIServerIP.Name, nm.GenerateFQDN s.APIServerIP.Name s.Location⟩ } := by
    simp [createOrUpdateNetworkAPIServerIP, hname]
  rw [h]
  exact ⟨rfl, rfl, eq_comm, rfl⟩

/-- Witness of C12: a DNS name that already is the derived name is kept. -/
theorem createOrUpdateNetworkAPIServerIP_set_witness :
    (createOrUpdateNetworkAPIServerIP sampleNaming
        { customIPScope with APIServerIP := ⟨"my-ip", "my-ip.westus.cloudapp.azure.com"⟩ }) =
      { customIPScope with APIServerIP := ⟨"my-ip", "my-ip.westus.cloudapp.azure.com"⟩ } :=
  (createOrUpdateNetworkAPIServerIP_set sampleNaming
    { customIPScope with APIServerIP := ⟨"my-ip", "my-ip.westus.cloudapp.azure.com"⟩ }
    (by decide)).2.2.2

/-- C20: on a load balancer whose properties are absent, or whose inbound NAT
rule list is absent, `createInboundNatRule` returns an error and leaves the run
state as it was, so it issues no request, whatever the rule name is. -/
theorem createInboundNatRule_missing_rules {σ : Type} (c : Clients σ) (scope : NICScope)
    (lb : LoadBalancer) (ruleName : String) (s : NicState σ)
    (h : lb.props = none ∨ ∃ props, lb.props = some props ∧ props.InboundNatRules = none) :
    createInboundNatRule c scope lb ruleName s =
      (Res.err (Errorf ("Could not get existing inbound NAT rules from load balancer "
        ++ toStr lb.Name ++ " properties")), s) := by
  rcases h with h | ⟨props, hp, hr⟩
  · simp only [createInboundNatRule, h]
    rfl
  · simp only [createInboundNatRule, hp, hr]
    rfl

/-- Witness of C20: a load balancer without properties. -/
theorem createInboundNatRule_missing_rules_witness :
    createInboundNatRule sampleClients sampleScope ⟨none, some "lb", some "/lb"⟩ "m" startState =
      (Res.err (Errorf
        "Could not get existing inbound NAT rules from load balancer lb properties"),
        startState) :=
  createInboundNatRule_missing_rules sampleClients sampleScope ⟨none, some "lb", some "/lb"⟩
    "m" startState (Or.inl rfl)

/-! ### Failure domains -/

theorem find_filter_ne (fds : List (String × FailureDomainSpec)) (id z : String) (h : z ≠ id) :
    (fds.filter (fun kv => kv.1 != id)).find? (fun kv => kv.1 == z) =
      fds.find? (fun kv => kv.1 == z) := by
  induction fds with
  | nil => rfl
  | cons kv rest ih =>
    by_cases hk : kv.1 = id
    · have hb1 : (kv.1 != id) = false := by simp [hk]
      have hb2 : (kv.1 == z) = false := by
        rw [beq_eq_false_iff_ne, hk]
        exact fun h1 => h h1.symm
      rw [List.filter_cons, List.find?_cons]
      simp only [hb1, hb2, Bool.false_eq_true, if_false]
      exact ih
    · have hb1 : (kv.1 != id) = true := by simp [hk]
      rw [List.filter_cons]
      simp only [hb1, if_true]
      rw [List.find?_cons, List.find?_cons, ih]

theorem find_filter_self (fds : List (String × FailureDomainSpec)) (id : String) :
    (fds.filter (fun kv => kv.1 != id)).find? (fun kv => kv.1 == id) = none := by
  rw [List.find?_eq_none]
  intro kv hkv
  have := (List.mem_filter.1 hkv).2
  simpa using this

theorem failureDomain_set_self (s : ClusterScope) (id : String) (spec : FailureDomainSpec) :
    (s.SetFailureDomain id spec).failureDomain id = some spec := by
  simp [ClusterScope.failureDomain, ClusterScope.SetFailureDomain, List.find?_append,
    find_filter_self]

theorem failureDomain_set_other (s : ClusterScope) (id z : String) (spec : FailureDomainSpec)
    (h : z ≠ id) : (s.SetFailureDomain id spec).failureDomain z = s.failureDomain z := by
  have hid : (id == z) = false := by
    simp only [beq_eq_false_iff_ne, ne_eq]
    exact fun h1 => h h1.symm
  simp only [ClusterScope.failureDomain, ClusterScope.SetFailureDomain, List.find?_append,
    find_filter_ne _ _ _ h, List.find?_cons, hid, List.find?_nil, Option.or_none]

theorem failureDomain_fold (zones : List String) (s : ClusterScope) (z : String) :
    (zones.foldl (fun sc zone => sc.SetFailureDomain zone ⟨true⟩) s).failureDomain z =
      if z ∈ zones then some ⟨true⟩ else s.failureDomain z := by
  induction zones generalizing s with
  | nil => simp
  | cons a rest ih =>
    rw [List.foldl_cons, ih]
    by_cases hr : z ∈ rest
    · simp [hr]
    · by_cases ha : z = a
      · subst ha
        simp [hr, failureDomain_set_self]
      · simp [hr, ha, failureDomain_set_other _ _ _ _ ha]

/-- The fields of the scope other than the failure domains, unchanged by the
zone loop. -/
theorem fold_keeps_fields (zones : List String) (s : ClusterScope) :
    ∃ fds, zones.foldl (fun sc zone => sc.SetFailureDomain zone ⟨true⟩) s =
      { s with FailureDomains := fds } := by
  induction zones generalizing s with
  | nil => exact ⟨s.FailureDomains, rfl⟩
  | cons a rest ih =>
    obtain ⟨fds, h⟩ := ih (s.SetFailureDomain a ⟨true⟩)
    exact ⟨fds, by rw [List.foldl_cons, h]; rfl⟩

/-- C13: after a successful zone listing, every returned zone is recorded as
control-plane eligible, replacing a prior entry of that zone, the entry of
every other zone is the prior one, so the recorded zones are the prior zones
together with the returned ones, and no other field of the scope changes; when
the listing fails the scope is unchanged, and `Reconcile` returns the error,
annotated, having issued the listing only, with the failure domains as they
were. -/
theorem setFailureDomainsForLocation_spec {σ : Type} (nm : Naming) (sv : Services σ)
    (s : ClusterState σ) :
    (∀ zones, (sv.Get Svc.availZoneSvc Spec.availabilityZones s.world).1 = Except.ok zones →
      (setFailureDomainsForLocation sv s).1 = Res.ok () ∧
      (∀ z, (setFailureDomainsForLocation sv s).2.scope.failureDomain z =
        if z ∈ zones then some ⟨true⟩ else s.scope.failureDomain z) ∧
      (∀ z, ((setFailureDomainsForLocation sv s).2.scope.failureDomain z).isSome = true ↔
        (s.scope.failureDomain z).isSome = true ∨ z ∈ zones) ∧
      (∃ fds, (setFailureDomainsForLocation sv s).2.scope =
        { s.scope with FailureDomains := fds })) ∧
    (∀ e, (sv.Get Svc.availZoneSvc Spec.availabilityZones s.world).1 = Except.error e →
      (setFailureDomainsForLocation sv s).2.scope = s.scope ∧
      (Reconcile nm sv s).2.scope.FailureDomains = s.scope.FailureDomains ∧
      issuedCalls s (Reconcile nm sv s).2 =
        [(ClusterCall.get Svc.availZoneSvc Spec.availabilityZones, some e)] ∧
      ∃ msg, (Reconcile nm sv s).1 = Res.err (Wrap e msg)) := by
  constructor
  · intro zones hz
    have hrun : setFailureDomainsForLocation sv s =
        (Res.ok (),
          ⟨zones.foldl (fun sc zone => sc.SetFailureDomain zone ⟨true⟩) s.scope,
            (sv.Get Svc.availZoneSvc Spec.availabilityZones s.world).2,
            s.log ++ [(ClusterCall.get Svc.availZoneSvc Spec.availabilityZones, none)]⟩) := by
      simp only [setFailureDomainsForLocation, hz]
    rw [hrun]
    refine ⟨rfl, fun z => failureDomain_fold zones s.scope z, ?_, fold_keeps_fields zones s.scope⟩
    intro z
    simp only [failureDomain_fold]
    by_cases hmem : z ∈ zones <;> simp [hmem]
  · intro e he
    have hrun : setFailureDomainsForLocation sv s =
        (Res.err e,
          ⟨s.scope, (sv.Get Svc.availZoneSvc Spec.availabilityZones s.world).2,
            s.log ++ [(ClusterCall.get Svc.availZoneSvc Spec.availabilityZones, some e)]⟩) := by
      simp only [setFailureDomainsForLocation, he]
    have hrec : Reconcile nm sv s =
        (Res.err (Wrap e ("failed to get availability zones for cluster "
            ++ (createOrUpdateNetworkAPIServerIP nm s.scope).Name ++ " in location "
            ++ (createOrUpdateNetworkAPIServerIP nm s.scope).Location)),
          ⟨createOrUpdateNetworkAPIServerIP nm s.scope,
            (sv.Get Svc.availZoneSvc Spec.availabilityZones s.world).2,
            s.log ++ [(ClusterCall.get Svc.availZoneSvc Spec.availabilityZones, some e)]⟩) := by
      unfold Reconcile
      simp only [Prog.bind_eq]
      rw [andThen_modifyScope, andThen_getScope]
      refine andThen_err _ _ _ _ _ ?_
      simp only [orWrap, setFailureDomainsForLocation, he]
    rw [hrun, hrec]
    refine ⟨rfl, (createOrUpdate_hash_fields nm s.scope).2.2.2.2, ?_, _, rfl⟩
    simp [issuedCalls]

/-- Witness of C13: a listing that fails stops `Reconcile` at once. -/
theorem setFailureDomainsForLocation_spec_witness :
    Reconcile sampleNaming (failingZoneServices ⟨"throttled", false⟩) (demoState false) =
      (Res.err (Wrap ⟨"throttled", false⟩
          "failed to get availability zones for cluster demo in location westus"),
        ⟨createOrUpdateNetworkAPIServerIP sampleNaming (demoScope false), (),
          [(ClusterCall.get Svc.availZoneSvc Spec.availabilityZones,
            some ⟨"throttled", false⟩)]⟩) ∧
    issuedCalls (demoState false)
        (Reconcile sampleNaming (failingZoneServices ⟨"throttled", false⟩) (demoState false)).2 =
      [(ClusterCall.get Svc.availZoneSvc Spec.availabilityZones, some ⟨"throttled", false⟩)] :=
  ⟨by decide,
   ((setFailureDomainsForLocation_spec sampleNaming (failingZoneServices ⟨"throttled", false⟩)
      (demoState false)).2 ⟨"throttled", false⟩ rfl).2.2.1⟩

section NicFrame

variable {σ : Type}

theorem andThen_assoc {S α β γ : Type} (m : Prog S α) (f : α → Prog S β) (g : β → Prog S γ) :
    Prog.andThen (Prog.andThen m f) g = Prog.andThen m (fun a => Prog.andThen (f a) g) := by
  funext s
  unfold Prog.andThen
  rcases m s with ⟨r, s1⟩
  cases r <;> rfl

theorem andThen_ret {S α β : Type} (a : α) (f : α → Prog S β) :
    Prog.andThen (Prog.ret a) f = f a := rfl

/-- `reconcileNIC` is its lookups followed by the interface request. -/
theorem reconcileNIC_eq (c : Clients σ) (scope : NICScope) (sp : NICSpec) :
    reconcileNIC c scope sp =
      Prog.andThen (nicLookups c scope sp)
        (fun r => createInterfacePart c scope sp (interfaceFor scope r.1 r.2)) := by
  simp only [reconcileNIC, nicLookups, nicConfigPart, Prog.bind_eq, andThen_assoc, andThen_ret]

theorem andThen_ok_inv {S α β : Type} (m : Prog S α) (f : α → Prog S β) (s t : S) (b : β)
    (h : Prog.andThen m f s = (Res.ok b, t)) :
    ∃ a s1, m s = (Res.ok a, s1) ∧ f a s1 = (Res.ok b, t) := by
  unfold Prog.andThen at h
  rcases hm : m s with ⟨r, s1⟩
  rw [hm] at h
  cases r with
  | ok a => exact ⟨a, s1, rfl, h⟩
  | err e => simp at h
  | panic => simp at h

theorem logs_mono {α : Type} (K1 K2 : NicCall → Prop) (h : ∀ x, K1 x → K2 x)
    (m : Prog (NicState σ) α) (hm : Logs K1 m) : Logs K2 m := by
  intro s
  obtain ⟨evs, hlog, hk⟩ := hm s
  exact ⟨evs, hlog, fun ev hev => h _ (hk ev hev)⟩

theorem logs_ret {α : Type} (K : NicCall → Prop) (a : α) :
    Logs K (Prog.ret a : Prog (NicState σ) α) :=
  fun s => ⟨[], by simp [Prog.ret], fun ev hev => by cases hev⟩

theorem logs_fail {α : Type} (K : NicCall → Prop) (e : Error) :
    Logs K (Prog.fail e : Prog (NicState σ) α) :=
  fun s => ⟨[], by simp [Prog.fail], fun ev hev => by cases hev⟩

theorem logs_crash {α : Type} (K : NicCall → Prop) :
    Logs K (Prog.crash : Prog (NicState σ) α) :=
  fun s => ⟨[], by simp [Prog.crash], fun ev hev => by cases hev⟩

theorem logs_andThen {α β : Type} (K : NicCall → Prop) (m : Prog (NicState σ) α)
    (f : α → Prog (NicState σ) β) (hm : Logs K m) (hf : ∀ a, Logs K (f a)) :
    Logs K (Prog.andThen m f) := by
  intro s
  obtain ⟨evs1, hlog1, hk1⟩ := hm s
  unfold Prog.andThen
  rcases hms : m s with ⟨r, s1⟩
  rw [hms] at hlog1
  cases r with
  | ok a =>
    obtain ⟨evs2, hlog2, hk2⟩ := hf a s1
    refine ⟨evs1 ++ evs2, ?_, ?_⟩
    · simp only at hlog1 ⊢
      rw [hlog2, hlog1, List.append_assoc]
    · intro ev hev
      rcases List.mem_append.1 hev with h | h
      · exact hk1 ev h
      · exact hk2 ev h
  | err e => exact ⟨evs1, hlog1, hk1⟩
  | panic => exact ⟨evs1, hlog1, hk1⟩

theorem logs_orWrap (K : NicCall → Prop) (m : Prog (NicState σ) Unit) (msg : String)
    (hm : Logs K m) : Logs K (orWrap m msg) := by
  intro s
  obtain ⟨evs, hlog, hk⟩ := hm s
  unfold orWrap
  rcases hms : m s with ⟨r, s1⟩
  rw [hms] at hlog
  cases r <;> exact ⟨evs, hlog, hk⟩

theorem logs_forEach {α : Type} (K : NicCall → Prop) (body : α → Prog (NicState σ) Unit)
    (hb : ∀ x, Logs K (body x)) (xs : List α) : Logs K (Prog.forEach body xs) := by
  induction xs with
  | nil => exact logs_ret K ()
  | cons x rest ih => exact logs_andThen K _ _ (hb x) (fun _ => ih)

theorem logs_single (K : NicCall → Prop) (call : NicCall) (e : Option Error) (h : K call) :
    ∀ ev ∈ [(call, e)], K ev.1 := by
  intro ev hev
  rw [List.mem_singleton] at hev
  subst hev
  exact h

theorem logs_getOrWrap {α : Type} (K : NicCall → Prop) (call : NicCall)
    (f : σ → Except Error α × σ) (msg : String) (h : K call) :
    Logs K (getOrWrap call f msg) := by
  intro s
  unfold getOrWrap
  cases (f s.world).1 with
  | error e => exact ⟨_, rfl, logs_single K call _ h⟩
  | ok a => exact ⟨_, rfl, logs_single K call _ h⟩

theorem logs_askPut (K : NicCall → Prop) (call : NicCall)
    (f : σ → Option Error × σ) (h : K call) : Logs K (askPut call f) :=
  fun _ => ⟨_, rfl, logs_single K call _ h⟩

theorem logs_deleteOrWrap (K : NicCall → Prop) (call : NicCall)
    (f : σ → Option Error × σ) (msg : String) (h : K call) :
    Logs K (deleteOrWrap call f msg) := by
  intro s
  unfold deleteOrWrap
  cases (f s.world).1 with
  | none => exact ⟨_, rfl, logs_single K call _ h⟩
  | some e =>
    simp only
    split
    · exact ⟨_, rfl, logs_single K call _ h⟩
    · exact ⟨_, rfl, logs_single K call _ h⟩

theorem logs_firstBackendPoolID (K : NicCall → Prop) (lb : LoadBalancer) :
    Logs K (firstBackendPoolID lb : Prog (NicState σ) (Option String)) := by
  unfold firstBackendPoolID
  cases lb.props with
  | none => exact logs_crash K
  | some props =>
    cases hb : props.BackendAddressPools with
    | none => simp only [hb]; exact logs_crash K
    | some l =>
      cases l with
      | nil => simp only [hb]; exact logs_crash K
      | cons p rest => simp only [hb]; exact logs_ret K _

theorem logs_createInboundNatRule (c : Clients σ) (scope : NICScope) (lb : LoadBalancer)
    (rn : String) :
    Logs (fun x => ∃ rule, x = NicCall.natCreateOrUpdate scope.ResourceGroup (toStr lb.Name)
      rn rule) (createInboundNatRule c scope lb rn) := by
  unfold createInboundNatRule
  cases lb.props with
  | none => exact logs_fail _ _
  | some props =>
    simp only
    cases props.InboundNatRules with
    | none => exact logs_fail _ _
    | some rules =>
      simp only
      cases scanRules rn rules [] with
      | found => exact logs_ret _ _
      | nilDeref => exact logs_crash _
      | ports ps =>
        simp only
        cases selectFrontendPort ps with
        | none => exact logs_fail _ _
        | some port =>
          simp only
          cases hf : props.FrontendIPConfigurations with
          | none => exact logs_crash _
          | some l =>
            cases l with
            | nil => exact logs_crash _
            | cons fip rest =>
              simp only [Prog.bind_eq]
              refine logs_andThen _ _ _ (logs_askPut _ _ _ ⟨_, rfl⟩) (fun r => ?_)
              cases r with
              | none => exact logs_ret _ _
              | some e => exact logs_fail _ _

end NicFrame

section NicParts

variable {σ : Type}

theorem run_eq_of_fst {S α : Type} (m : Prog S α) (s : S) (a : α) (h : (m s).1 = Res.ok a) :
    m s = (Res.ok a, (m s).2) :=
  Prod.ext h rfl

theorem getOrWrap_ok_inv {α : Type} (call : NicCall) (f : σ → Except Error α × σ)
    (msg : String) (s t : NicState σ) (a : α)
    (h : getOrWrap call f msg s = (Res.ok a, t)) :
    (f s.world).1 = Except.ok a ∧ t = ⟨(f s.world).2, s.log ++ [(call, none)]⟩ := by
  unfold getOrWrap at h
  cases hf : (f s.world).1 with
  | error e => simp [hf] at h
  | ok b =>
    simp only [hf, Prod.mk.injEq, Res.ok.injEq] at h
    exact ⟨by rw [h.1], h.2.symm⟩

theorem firstBackendPoolID_ok_inv (lb : LoadBalancer) (s t : NicState σ) (a : Option String)
    (h : firstBackendPoolID lb s = (Res.ok a, t)) :
    t = s ∧ ∃ pool, firstPoolOf lb = some pool ∧ a = pool.ID := by
  unfold firstBackendPoolID at h
  unfold firstPoolOf
  cases hp : lb.props with
  | none => simp [hp, Prog.crash] at h
  | some props =>
    simp only [hp] at h ⊢
    cases hb : props.BackendAddressPools with
    | none => simp [hb, Prog.crash] at h
    | some l =>
      cases l with
      | nil => simp [hb, Prog.crash] at h
      | cons pool rest =>
        simp only [hb, Prog.ret, Prod.mk.injEq, Res.ok.injEq] at h ⊢
        exact ⟨h.2.symm, pool, rfl, h.1.symm⟩

theorem orWrap_ok_inv {S : Type} (m : Prog S Unit) (msg : String) (s t : S)
    (h : orWrap m msg s = (Res.ok (), t)) : m s = (Res.ok (), t) := by
  unfold orWrap at h
  rcases hm : m s with ⟨r, s1⟩
  rw [hm] at h
  cases r with
  | ok a => exact h
  | err e => simp at h
  | panic => simp at h

/-- What a normal return of the public load balancer part means. -/
theorem publicLBPart_ok_inv (c : Clients σ) (scope : NICScope) (sp : NICSpec)
    (s t : NicState σ) (lbPart : List BackendAddressPool × Option (List InboundNatRule))
    (h : publicLBPart c scope sp s = (Res.ok lbPart, t)) :
    (sp.PublicLoadBalancerName = "" ∧ lbPart = ([], none) ∧ t = s) ∨
    (sp.PublicLoadBalancerName ≠ "" ∧ ∃ lb pool,
      (c.LoadBalancersGet scope.ResourceGroup sp.PublicLoadBalancerName s.world).1 =
        Except.ok lb ∧
      firstPoolOf lb = some pool ∧
      ((sp.MachineRole = ControlPlane ∧
        createInboundNatRule c scope lb sp.MachineName
          ⟨(c.LoadBalancersGet scope.ResourceGroup sp.PublicLoadBalancerName s.world).2,
            s.log ++ [(NicCall.lbGet scope.ResourceGroup sp.PublicLoadBalancerName, none)]⟩ =
          (Res.ok (), t) ∧
        lbPart = ([⟨pool.ID⟩],
          some [⟨none, none, some (toStr lb.ID ++ "/inboundNatRules/" ++ sp.MachineName)⟩])) ∨
       (sp.MachineRole ≠ ControlPlane ∧
        t = ⟨(c.LoadBalancersGet scope.ResourceGroup sp.PublicLoadBalancerName s.world).2,
            s.log ++ [(NicCall.lbGet scope.ResourceGroup sp.PublicLoadBalancerName, none)]⟩ ∧
        lbPart = ([⟨pool.ID⟩], none)))) := by
  unfold publicLBPart at h
  by_cases hname : sp.PublicLoadBalancerName = ""
  · simp only [hname, ne_eq, not_true_eq_false, if_false, Prog.ret, Prod.mk.injEq,
      Res.ok.injEq] at h
    exact Or.inl ⟨hname, h.1.symm, h.2.symm⟩
  · simp only [hname, ne_eq, not_false_eq_true, if_true, Prog.bind_eq] at h
    obtain ⟨lb, s1, hget, h⟩ := andThen_ok_inv _ _ _ _ _ h
    obtain ⟨hlb, hs1⟩ := getOrWrap_ok_inv _ _ _ _ _ _ hget
    obtain ⟨poolID, s2, hpool, h⟩ := andThen_ok_inv _ _ _ _ _ h
    obtain ⟨hs2, pool, hfirst, hid⟩ := firstBackendPoolID_ok_inv _ _ _ _ hpool
    subst hs2 hs1 hid
    refine Or.inr ⟨hname, lb, pool, hlb, hfirst, ?_⟩
    by_cases hrole : sp.MachineRole = ControlPlane
    · simp only [hrole, if_true] at h
      obtain ⟨u, s3, hnat, h⟩ := andThen_ok_inv _ _ _ _ _ h
      have hnat1 := orWrap_ok_inv _ _ _ _ hnat
      simp only [Prog.ret, Prod.mk.injEq, Res.ok.injEq] at h
      refine Or.inl ⟨hrole, ?_, h.1.symm⟩
      rw [hnat1, h.2]
    · simp only [hrole, if_false, Prog.ret, Prod.mk.injEq, Res.ok.injEq] at h
      exact Or.inr ⟨hrole, h.2.symm, h.1.symm⟩

/-- What a normal return of the internal load balancer part means. -/
theorem internalLBPart_ok_inv (c : Clients σ) (scope : NICScope) (sp : NICSpec)
    (pools out : List BackendAddressPool) (s t : NicState σ)
    (h : internalLBPart c scope sp pools s = (Res.ok out, t)) :
    (sp.InternalLoadBalancerName = "" ∧ out = pools ∧ t = s) ∨
    (sp.InternalLoadBalancerName ≠ "" ∧ ∃ lb pool,
      (c.LoadBalancersGet scope.ResourceGroup sp.InternalLoadBalancerName s.world).1 =
        Except.ok lb ∧
      firstPoolOf lb = some pool ∧ out = pools ++ [⟨pool.ID⟩] ∧
      t = ⟨(c.LoadBalancersGet scope.ResourceGroup sp.InternalLoadBalancerName s.world).2,
        s.log ++ [(NicCall.lbGet scope.ResourceGroup sp.InternalLoadBalancerName, none)]⟩) := by
  unfold internalLBPart at h
  by_cases hname : sp.InternalLoadBalancerName = ""
  · simp only [hname, ne_eq, not_true_eq_false, if_false, Prog.ret, Prod.mk.injEq,
      Res.ok.injEq] at h
    exact Or.inl ⟨hname, h.1.symm, h.2.symm⟩
  · simp only [hname, ne_eq, not_false_eq_true, if_true, Prog.bind_eq] at h
    obtain ⟨lb, s1, hget, h⟩ := andThen_ok_inv _ _ _ _ _ h
    obtain ⟨hlb, hs1⟩ := getOrWrap_ok_inv _ _ _ _ _ _ hget
    obtain ⟨poolID, s2, hpool, h⟩ := andThen_ok_inv _ _ _ _ _ h
    obtain ⟨hs2, pool, hfirst, hid⟩ := firstBackendPoolID_ok_inv _ _ _ _ hpool
    subst hs2 hs1 hid
    simp only [Prog.ret, Prod.mk.injEq, Res.ok.injEq] at h
    exact Or.inr ⟨hname, lb, pool, hlb, hfirst, h.1.symm, h.2.symm⟩

/-- What a normal return of the public IP part means. -/
theorem publicIPPart_ok_inv (c : Clients σ) (scope : NICScope) (sp : NICSpec)
    (out : Option PublicIPAddress) (s t : NicState σ)
    (h : publicIPPart c scope sp s = (Res.ok out, t)) :
    (sp.PublicIPName = "" ∧ out = none ∧ t = s) ∨
    (sp.PublicIPName ≠ "" ∧ ∃ pip,
      (c.PublicIPsGet scope.ResourceGroup sp.PublicIPName s.world).1 = Except.ok pip ∧
      out = some pip ∧
      t = ⟨(c.PublicIPsGet scope.ResourceGroup sp.PublicIPName s.world).2,
        s.log ++ [(NicCall.publicIPGet scope.ResourceGroup sp.PublicIPName, none)]⟩) := by
  unfold publicIPPart at h
  by_cases hname : sp.PublicIPName = ""
  · simp only [hname, ne_eq, not_true_eq_false, if_false, Prog.ret, Prod.mk.injEq,
      Res.ok.injEq] at h
    exact Or.inl ⟨hname, h.1.symm, h.2.symm⟩
  · simp only [hname, ne_eq, not_false_eq_true, if_true, Prog.bind_eq] at h
    obtain ⟨pip, s1, hget, h⟩ := andThen_ok_inv _ _ _ _ _ h
    obtain ⟨hpip, hs1⟩ := getOrWrap_ok_inv _ _ _ _ _ _ hget
    subst hs1
    simp only [Prog.ret, Prod.mk.injEq, Res.ok.injEq] at h
    exact Or.inr ⟨hname, pip, hpip, h.1.symm, h.2.symm⟩

/-- What a normal return of the accelerated networking part means. -/
theorem acceleratedNetworkingPart_ok_inv (c : Clients σ) (sp : NICSpec)
    (out : Option Bool) (s t : NicState σ)
    (h : acceleratedNetworkingPart c sp s = (Res.ok out, t)) :
    (∃ b, sp.AcceleratedNetworking = some b ∧ out = some b ∧ t = s) ∨
    (sp.AcceleratedNetworking = none ∧ ∃ a,
      (c.HasAcceleratedNetworking sp.VMSize s.world).1 = Except.ok a ∧ out = some a ∧
      t = ⟨(c.HasAcceleratedNetworking sp.VMSize s.world).2,
        s.log ++ [(NicCall.hasAcceleratedNetworking sp.VMSize, none)]⟩) := by
  unfold acceleratedNetworkingPart at h
  cases hflag : sp.AcceleratedNetworking with
  | some b =>
    simp only [hflag, Prog.ret, Prod.mk.injEq, Res.ok.injEq] at h
    exact Or.inl ⟨b, rfl, h.1.symm, h.2.symm⟩
  | none =>
    simp only [hflag, Prog.bind_eq] at h
    obtain ⟨a, s1, hget, h⟩ := andThen_ok_inv _ _ _ _ _ h
    obtain ⟨ha, hs1⟩ := getOrWrap_ok_inv _ _ _ _ _ _ hget
    subst hs1
    simp only [Prog.ret, Prod.mk.injEq, Res.ok.injEq] at h
    exact Or.inr ⟨rfl, a, ha, h.1.symm, h.2.symm⟩

/-- What a normal return of the interface request means. -/
theorem createInterfacePart_ok_inv (c : Clients σ) (scope : NICScope) (sp : NICSpec)
    (nic : Interface) (s t : NicState σ)
    (h : createInterfacePart c scope sp nic s = (Res.ok (), t)) :
    (c.InterfacesCreateOrUpdate scope.ResourceGroup sp.Name nic s.world).1 = none ∧
    t = ⟨(c.InterfacesCreateOrUpdate scope.ResourceGroup sp.Name nic s.world).2,
      s.log ++ [(NicCall.nicCreateOrUpdate scope.ResourceGroup sp.Name nic, none)]⟩ := by
  unfold createInterfacePart at h
  simp only [Prog.bind_eq, Prog.andThen, askPut] at h
  cases hput : (c.InterfacesCreateOrUpdate scope.ResourceGroup sp.Name nic s.world).1 with
  | some e => simp [hput, Prog.fail] at h
  | none =>
    simp only [hput, Prog.ret, Prod.mk.injEq, true_and] at h
    exact ⟨rfl, h.symm⟩

/-- The requests of the configuration lookups of a spec: no interface request,
no delete, no capability lookup, and a NAT rule request only for a
control-plane spec with a public load balancer. -/
theorem logs_nicConfigPart (c : Clients σ) (scope : NICScope) (sp : NICSpec) :
    Logs (fun x => x.isNicPut = false ∧ x.isDelete = false ∧ x.isCapability = false ∧
        (x.isNatPut = true →
          sp.PublicLoadBalancerName ≠ "" ∧ sp.MachineRole = ControlPlane))
      (nicConfigPart c scope sp) := by
  have hget : ∀ {α : Type} (call : NicCall) (f : σ → Except Error α × σ) (msg : String),
      call.isNicPut = false → call.isDelete = false → call.isCapability = false →
      call.isNatPut = false →
      Logs (fun x => x.isNicPut = false ∧ x.isDelete = false ∧ x.isCapability = false ∧
        (x.isNatPut = true →
          sp.PublicLoadBalancerName ≠ "" ∧ sp.MachineRole = ControlPlane))
        (getOrWrap call f msg) := by
    intro α call f msg h1 h2 h3 h4
    refine logs_getOrWrap _ _ _ _ ⟨h1, h2, h3, ?_⟩
    intro h
    rw [h4] at h
    cases h
  unfold nicConfigPart
  simp only [Prog.bind_eq]
  refine logs_andThen _ _ _ (hget _ _ _ rfl rfl rfl rfl) (fun subnet => ?_)
  refine logs_andThen _ _ _ ?_ (fun lbPart => ?_)
  · unfold publicLBPart
    split
    · rename_i hname
      simp only [Prog.bind_eq]
      refine logs_andThen _ _ _ (hget _ _ _ rfl rfl rfl rfl) (fun lb => ?_)
      refine logs_andThen _ _ _ (logs_firstBackendPoolID _ lb) (fun poolID => ?_)
      split
      · rename_i hrole
        refine logs_andThen _ _ _ (logs_orWrap _ _ _ ?_) (fun _ => logs_ret _ _)
        refine logs_mono _ _ ?_ _ (logs_createInboundNatRule c scope lb sp.MachineName)
        rintro x ⟨rule, rfl⟩
        exact ⟨rfl, rfl, rfl, fun _ => ⟨hname, hrole⟩⟩
      · exact logs_ret _ _
    · exact logs_ret _ _
  refine logs_andThen _ _ _ ?_ (fun pools => ?_)
  · unfold internalLBPart
    split
    · simp only [Prog.bind_eq]
      refine logs_andThen _ _ _ (hget _ _ _ rfl rfl rfl rfl) (fun lb => ?_)
      exact logs_andThen _ _ _ (logs_firstBackendPoolID _ lb) (fun _ => logs_ret _ _)
    · exact logs_ret _ _
  refine logs_andThen _ _ _ ?_ (fun pip => logs_ret _ _)
  unfold publicIPPart
  split
  · simp only [Prog.bind_eq]
    exact logs_andThen _ _ _ (hget _ _ _ rfl rfl rfl rfl) (fun _ => logs_ret _ _)
  · exact logs_ret _ _

theorem logs_acceleratedNetworkingPart (c : Clients σ) (sp : NICSpec) :
    Logs (fun x => x = NicCall.hasAcceleratedNetworking sp.VMSize)
      (acceleratedNetworkingPart c sp) := by
  unfold acceleratedNetworkingPart
  split
  · simp only [Prog.bind_eq]
    exact logs_andThen _ _ _ (logs_getOrWrap _ _ _ _ rfl) (fun _ => logs_ret _ _)
  · exact logs_ret _ _

/-- The requests of all lookups of a spec: no interface request, no delete, and
a NAT rule request only for a control-plane spec with a public load balancer. -/
theorem logs_nicLookups (c : Clients σ) (scope : NICScope) (sp : NICSpec) :
    Logs (fun x => x.isNicPut = false ∧ x.isDelete = false ∧
        (x.isNatPut = true →
          sp.PublicLoadBalancerName ≠ "" ∧ sp.MachineRole = ControlPlane))
      (nicLookups c scope sp) := by
  unfold nicLookups
  simp only [Prog.bind_eq]
  refine logs_andThen _ _ _
    (logs_mono _ _ (fun x hx => ⟨hx.1, hx.2.1, hx.2.2.2⟩) _ (logs_nicConfigPart c scope sp))
    (fun cfg => ?_)
  refine logs_andThen _ _ _ ?_ (fun _ => logs_ret _ _)
  refine logs_mono _ _ ?_ _ (logs_acceleratedNetworkingPart c sp)
  rintro x rfl
  exact ⟨rfl, rfl, fun h => by cases h⟩

theorem issued_of_log (s t : NicState σ) (evs : List (NicCall × Option Error))
    (h : t.log = s.log ++ evs) : issued s t = evs := by
  unfold issued
  rw [h, List.drop_left]

/-- A spec processed successfully: its lookups return the IP configuration and
the flag, and the one interface request of the spec is sent last, with the
interface built from them. -/
theorem reconcileNIC_created (c : Clients σ) (scope : NICScope) (sp : NICSpec)
    (s : NicState σ) (h : (reconcileNIC c scope sp s).1 = Res.ok ()) :
    ∃ nicConfig accel,
      nicLookups c scope sp s = (Res.ok (nicConfig, accel), (nicLookups c scope sp s).2) ∧
      (c.InterfacesCreateOrUpdate scope.ResourceGroup sp.Name
        (interfaceFor scope nicConfig accel) (nicLookups c scope sp s).2.world).1 = none ∧
      issued s (reconcileNIC c scope sp s).2 =
        issued s (nicLookups c scope sp s).2 ++
          [(NicCall.nicCreateOrUpdate scope.ResourceGroup sp.Name
            (interfaceFor scope nicConfig accel), none)] ∧
      ∀ ev ∈ issued s (nicLookups c scope sp s).2,
        ev.1.isNicPut = false ∧ ev.1.isDelete = false ∧
        (ev.1.isNatPut = true →
          sp.PublicLoadBalancerName ≠ "" ∧ sp.MachineRole = ControlPlane) := by
  have hrun := run_eq_of_fst _ _ _ h
  rw [reconcileNIC_eq] at hrun
  obtain ⟨r, s1, hlook, hcreate⟩ := andThen_ok_inv _ _ _ _ _ hrun
  obtain ⟨hput, hstate⟩ := createInterfacePart_ok_inv _ _ _ _ _ _ hcreate
  obtain ⟨evs, hlog, hk⟩ := logs_nicLookups c scope sp s
  have hs1 : (nicLookups c scope sp s).2 = s1 := by rw [hlook]
  rw [reconcileNIC_eq]
  refine ⟨r.1, r.2, by rw [hlook], by rw [hs1]; exact hput, ?_, ?_⟩
  · rw [issued_of_log s _ evs hlog]
    apply issued_of_log
    rw [hstate, ← hs1, hlog, List.append_assoc]
  · rw [issued_of_log s _ evs hlog]
    exact hk

/-- The lookups of a spec, when they return: the parts they went through. -/
theorem nicLookups_ok_inv (c : Clients σ) (scope : NICScope) (sp : NICSpec)
    (s t : NicState σ) (nicConfig : InterfaceIPConfigurationPropertiesFormat)
    (accel : Option Bool) (h : nicLookups c scope sp s = (Res.ok (nicConfig, accel), t)) :
    ∃ subnet lbPart pools publicIP s3 s4,
      (c.SubnetsGet sp.VNetResourceGroup sp.VNetName sp.SubnetName s.world).1 =
        Except.ok subnet ∧
      publicLBPart c scope sp (afterSubnetGet c sp s) =
        (Res.ok lbPart, afterPublicLB c scope sp s) ∧
      internalLBPart c scope sp lbPart.1 (afterPublicLB c scope sp s) = (Res.ok pools, s3) ∧
      publicIPPart c scope sp s3 = (Res.ok publicIP, s4) ∧
      nicConfigPart c scope sp s = (Res.ok nicConfig, s4) ∧
      acceleratedNetworkingPart c sp s4 = (Res.ok accel, t) ∧
      nicConfig =
        { Subnet := some ⟨subnet.ID⟩
          PrivateIPAllocationMethod :=
            if sp.StaticIPAddress ≠ "" then IPAllocationMethod.Static
            else IPAllocationMethod.Dynamic
          PrivateIPAddress :=
            if sp.StaticIPAddress ≠ "" then some sp.StaticIPAddress else none
          LoadBalancerBackendAddressPools := some pools
          LoadBalancerInboundNatRules := lbPart.2
          PublicIPAddress := publicIP } := by
  unfold nicLookups at h
  simp only [Prog.bind_eq] at h
  obtain ⟨cfg, s4, hcfg, h⟩ := andThen_ok_inv _ _ _ _ _ h
  obtain ⟨acc, s5, hacc, h⟩ := andThen_ok_inv _ _ _ _ _ h
  simp only [Prog.ret, Prod.mk.injEq, Res.ok.injEq] at h
  obtain ⟨⟨rfl, rfl⟩, rfl⟩ := h
  have hcfg0 := hcfg
  unfold nicConfigPart at hcfg
  simp only [Prog.bind_eq] at hcfg
  obtain ⟨subnet, s1, hsub, hcfg⟩ := andThen_ok_inv _ _ _ _ _ hcfg
  obtain ⟨lbPart, s2, hlb, hcfg⟩ := andThen_ok_inv _ _ _ _ _ hcfg
  obtain ⟨pools, s3, hint, hcfg⟩ := andThen_ok_inv _ _ _ _ _ hcfg
  obtain ⟨pip, s4a, hpip, hcfg⟩ := andThen_ok_inv _ _ _ _ _ hcfg
  simp only [Prog.ret, Prod.mk.injEq, Res.ok.injEq] at hcfg
  obtain ⟨rfl, rfl⟩ := hcfg
  have hs1 : afterSubnetGet c sp s = s1 := by
    unfold afterSubnetGet
    rw [hsub]
  have hs2 : afterPublicLB c scope sp s = s2 := by
    unfold afterPublicLB
    rw [hs1, hlb]
  refine ⟨subnet, lbPart, pools, pip, s3, s4a, (getOrWrap_ok_inv _ _ _ _ _ _ hsub).1, ?_, ?_,
    hpip, hcfg0, hacc, rfl⟩
  · rw [hs1, hs2]
    exact hlb
  · rw [hs2]
    exact hint

theorem scanRules_found_mem (n : String) (rules : List InboundNatRule) (acc : List Int)
    (h : scanRules n rules acc = RuleScan.found) : ∃ v ∈ rules, toStr v.Name = n := by
  induction rules generalizing acc with
  | nil => simp [scanRules] at h
  | cons w rest ih =>
    unfold scanRules at h
    by_cases hw : toStr w.Name = n
    · exact ⟨w, List.mem_cons_self _ _, hw⟩
    · simp only [hw, if_false] at h
      cases hwp : w.props with
      | none => simp [hwp] at h
      | some p =>
        simp only [hwp] at h
        cases hfp : p.FrontendPort with
        | none => simp [hfp] at h
        | some fp =>
          simp only [hfp] at h
          obtain ⟨v, hv, hn⟩ := ih _ h
          exact ⟨v, List.mem_cons_of_mem _ hv, hn⟩

/-- What a normal return of `createInboundNatRule` means: the rule was found
among the rules of the load balancer and nothing was sent, or no rule had the
name and one request for a rule of that name was sent and accepted. -/
theorem createInboundNatRule_ok_inv (c : Clients σ) (scope : NICScope) (lb : LoadBalancer)
    (rn : String) (s t : NicState σ)
    (h : createInboundNatRule c scope lb rn s = (Res.ok (), t)) :
    ∃ props rules, lb.props = some props ∧ props.InboundNatRules = some rules ∧
      (((∃ v ∈ rules, toStr v.Name = rn) ∧ t = s) ∨
       ((∀ v ∈ rules, toStr v.Name ≠ rn) ∧ ∃ rule, rule.Name = some rn ∧
          t.log = s.log ++
            [(NicCall.natCreateOrUpdate scope.ResourceGroup (toStr lb.Name) rn rule, none)])) := by
  unfold createInboundNatRule at h
  cases hp : lb.props with
  | none => simp [hp, Prog.fail] at h
  | some props =>
    simp only [hp] at h
    cases hr : props.InboundNatRules with
    | none => simp [hr, Prog.fail] at h
    | some rules =>
      simp only [hr] at h
      refine ⟨props, rules, rfl, hr, ?_⟩
      cases hscan : scanRules rn rules [] with
      | found =>
        simp only [hscan, Prog.ret, Prod.mk.injEq, true_and] at h
        exact Or.inl ⟨scanRules_found_mem rn rules [] hscan, h.symm⟩
      | nilDeref => simp [hscan, Prog.crash] at h
      | ports ps =>
        simp only [hscan] at h
        cases hsel : selectFrontendPort ps with
        | none => simp [hsel, Prog.fail] at h
        | some port =>
          simp only [hsel] at h
          cases hf : props.FrontendIPConfigurations with
          | none => simp [hf, Prog.crash] at h
          | some l =>
            cases l with
            | nil => simp [hf, Prog.crash] at h
            | cons fip rest =>
              simp only [hf, Prog.bind_eq, Prog.andThen, askPut] at h
              cases hnat : (c.InboundNATRulesCreateOrUpdate scope.ResourceGroup (toStr lb.Name)
                  rn (natRuleFor rn fip port) s.world).1 with
              | some e => simp [hnat, Prog.fail] at h
              | none =>
                simp only [hnat, Prog.ret, Prod.mk.injEq, true_and] at h
                refine Or.inr ⟨scanRules_ports_names rn rules [] ps hscan,
                  natRuleFor rn fip port, rfl, ?_⟩
                rw [← h]

/-- The lookups other than the public load balancer part send no NAT rule
request, no interface request and no delete. -/
theorem logs_plain_parts (c : Clients σ) (scope : NICScope) (sp : NICSpec) :
    (∀ pools, Logs (fun x => x.isNatPut = false ∧ x.isNicPut = false)
      (internalLBPart c scope sp pools)) ∧
    Logs (fun x => x.isNatPut = false ∧ x.isNicPut = false) (publicIPPart c scope sp) ∧
    Logs (fun x => x.isNatPut = false ∧ x.isNicPut = false)
      (acceleratedNetworkingPart c sp) := by
  refine ⟨fun pools => ?_, ?_, ?_⟩
  · unfold internalLBPart
    split
    · simp only [Prog.bind_eq]
      refine logs_andThen _ _ _ (logs_getOrWrap _ _ _ _ ⟨rfl, rfl⟩) (fun lb => ?_)
      exact logs_andThen _ _ _ (logs_firstBackendPoolID _ lb) (fun _ => logs_ret _ _)
    · exact logs_ret _ _
  · unfold publicIPPart
    split
    · simp only [Prog.bind_eq]
      exact logs_andThen _ _ _ (logs_getOrWrap _ _ _ _ ⟨rfl, rfl⟩) (fun _ => logs_ret _ _)
    · exact logs_ret _ _
  · exact logs_mono _ _ (fun x hx => by subst hx; exact ⟨rfl, rfl⟩) _
      (logs_acceleratedNetworkingPart c sp)

end NicParts

section NicClaims

variable {σ : Type}

/-- C16: for a spec processed successfully, the configuration lookups never
consult the capability resolver; when the flag of the spec is set, the
interface request follows them at once and the interface sent has that flag as
its accelerated networking field; when it is unset, the resolver is consulted
once, with the VM size of the spec, and the interface sent in the request that
follows has its answer as its accelerated networking field.  In both cases the
interface sent has the one IP configuration `pipConfig` built by the lookups. -/
theorem reconcileNIC_accelerated_networking (c : Clients σ) (scope : NICScope)
    (sp : NICSpec) (s : NicState σ) (h : (reconcileNIC c scope sp s).1 = Res.ok ()) :
    ∃ nicConfig, (nicConfigPart c scope sp s).1 = Res.ok nicConfig ∧
      (∀ ev ∈ issued s (nicConfigPart c scope sp s).2,
        ev.1.isCapability = false ∧ ev.1.isNicPut = false) ∧
      (∀ b, sp.AcceleratedNetworking = some b →
        ∃ nic, issued (nicConfigPart c scope sp s).2 (reconcileNIC c scope sp s).2 =
            [(NicCall.nicCreateOrUpdate scope.ResourceGroup sp.Name nic, none)] ∧
          nic.EnableAcceleratedNetworking = some b ∧
          nic.IPConfigurations = some [⟨some "pipConfig", some nicConfig⟩]) ∧
      (sp.AcceleratedNetworking = none →
        ∃ a nic,
          (c.HasAcceleratedNetworking sp.VMSize (nicConfigPart c scope sp s).2.world).1 =
            Except.ok a ∧
          issued (nicConfigPart c scope sp s).2 (reconcileNIC c scope sp s).2 =
            [(NicCall.hasAcceleratedNetworking sp.VMSize, none),
             (NicCall.nicCreateOrUpdate scope.ResourceGroup sp.Name nic, none)] ∧
          nic.EnableAcceleratedNetworking = some a ∧
          nic.IPConfigurations = some [⟨some "pipConfig", some nicConfig⟩]) := by
  have hrun := run_eq_of_fst _ _ _ h
  rw [reconcileNIC_eq] at hrun
  obtain ⟨r, s5, hlook, hcreate⟩ := andThen_ok_inv _ _ _ _ _ hrun
  obtain ⟨-, hstate⟩ := createInterfacePart_ok_inv _ _ _ _ _ _ hcreate
  obtain ⟨subnet, lbPart, pools, pip, s3, s4, -, -, -, -, hcfg, hacc, -⟩ :=
    nicLookups_ok_inv c scope sp s s5 r.1 r.2 hlook
  obtain ⟨evs, hlog, hk⟩ := logs_nicConfigPart c scope sp s
  rw [← reconcileNIC_eq] at hstate
  rw [hstate, hcfg]
  rw [hcfg] at hlog
  simp only at hlog
  refine ⟨r.1, rfl, ?_, ?_, ?_⟩
  · rw [issued_of_log s s4 evs hlog]
    exact fun ev hev => ⟨(hk ev hev).2.2.1, (hk ev hev).1⟩
  · intro b hb
    rcases acceleratedNetworkingPart_ok_inv c sp r.2 s4 s5 hacc with
      ⟨b1, hb1, hout, hs5⟩ | ⟨hnone, -⟩
    · rw [hb] at hb1
      cases hb1
      refine ⟨interfaceFor scope r.1 (some b), ?_, rfl, rfl⟩
      apply issued_of_log
      rw [hs5, hout]
    · rw [hb] at hnone
      cases hnone
  · intro hnone
    rcases acceleratedNetworkingPart_ok_inv c sp r.2 s4 s5 hacc with
      ⟨b1, hb1, -, -⟩ | ⟨-, a, ha, hout, hs5⟩
    · rw [hnone] at hb1
      cases hb1
    · refine ⟨a, interfaceFor scope r.1 (some a), ha, ?_, rfl, rfl⟩
      apply issued_of_log
      rw [hs5, hout]
      simp

/-- C19: for a spec processed successfully, the interface sent has exactly one
IP configuration, named `pipConfig`; it uses dynamic allocation and no private
address when the static address of the spec is empty, static allocation and
that address otherwise, and its subnet is the id of the subnet the subnet
lookup returned. -/
theorem reconcileNIC_ip_configuration (c : Clients σ) (scope : NICScope)
    (sp : NICSpec) (s : NicState σ) (h : (reconcileNIC c scope sp s).1 = Res.ok ()) :
    ∃ nic nicConfig subnet,
      issued s (reconcileNIC c scope sp s).2 =
        issued s (nicLookups c scope sp s).2 ++
          [(NicCall.nicCreateOrUpdate scope.ResourceGroup sp.Name nic, none)] ∧
      (∀ ev ∈ issued s (nicLookups c scope sp s).2, ev.1.isNicPut = false) ∧
      nic.IPConfigurations = some [⟨some "pipConfig", some nicConfig⟩] ∧
      (c.SubnetsGet sp.VNetResourceGroup sp.VNetName sp.SubnetName s.world).1 =
        Except.ok subnet ∧
      nicConfig.Subnet = some ⟨subnet.ID⟩ ∧
      (sp.StaticIPAddress = "" →
        nicConfig.PrivateIPAllocationMethod = IPAllocationMethod.Dynamic ∧
        nicConfig.PrivateIPAddress = none) ∧
      (sp.StaticIPAddress ≠ "" →
        nicConfig.PrivateIPAllocationMethod = IPAllocationMethod.Static ∧
        nicConfig.PrivateIPAddress = some sp.StaticIPAddress) := by
  obtain ⟨nicConfig, accel, hlook, -, hissued, hkinds⟩ := reconcileNIC_created c scope sp s h
  obtain ⟨subnet, lbPart, pools, pip, s3, s4, hsub, -, -, -, -, -, hcfg⟩ :=
    nicLookups_ok_inv c scope sp s _ nicConfig accel hlook
  refine ⟨interfaceFor scope nicConfig accel, nicConfig, subnet, hissued,
    fun ev hev => (hkinds ev hev).1, rfl, hsub, ?_, ?_, ?_⟩
  · rw [hcfg]
  · intro hstatic
    rw [hcfg]
    simp [hstatic]
  · intro hstatic
    rw [hcfg]
    simp [hstatic]

/-- C18, amended: for a spec processed successfully, the interface sent has
exactly one IP configuration, and its backend pools are the first pool of the
public load balancer, when the spec names one, followed by the first pool of
the internal load balancer, when the spec names one, each by its id, and
nothing else: none, one or two pools. -/
theorem reconcileNIC_backend_pools (c : Clients σ) (scope : NICScope)
    (sp : NICSpec) (s : NicState σ) (h : (reconcileNIC c scope sp s).1 = Res.ok ()) :
    ∃ nic nicConfig pub int,
      issued s (reconcileNIC c scope sp s).2 =
        issued s (nicLookups c scope sp s).2 ++
          [(NicCall.nicCreateOrUpdate scope.ResourceGroup sp.Name nic, none)] ∧
      (∀ ev ∈ issued s (nicLookups c scope sp s).2, ev.1.isNicPut = false) ∧
      nic.IPConfigurations = some [⟨some "pipConfig", some nicConfig⟩] ∧
      nicConfig.LoadBalancerBackendAddressPools = some (pub ++ int) ∧
      (sp.PublicLoadBalancerName = "" → pub = []) ∧
      (sp.PublicLoadBalancerName ≠ "" → ∃ lb pool,
        (c.LoadBalancersGet scope.ResourceGroup sp.PublicLoadBalancerName
          (afterSubnetGet c sp s).world).1 = Except.ok lb ∧
        firstPoolOf lb = some pool ∧ pub = [⟨pool.ID⟩]) ∧
      (sp.InternalLoadBalancerName = "" → int = []) ∧
      (sp.InternalLoadBalancerName ≠ "" → ∃ lb pool,
        (c.LoadBalancersGet scope.ResourceGroup sp.InternalLoadBalancerName
          (afterPublicLB c scope sp s).world).1 = Except.ok lb ∧
        firstPoolOf lb = some pool ∧ int = [⟨pool.ID⟩]) := by
  obtain ⟨nicConfig, accel, hlook, -, hissued, hkinds⟩ := reconcileNIC_created c scope sp s h
  obtain ⟨subnet, lbPart, pools, pip, s3, s4, -, hlb, hint, -, -, -, hcfg⟩ :=
    nicLookups_ok_inv c scope sp s _ nicConfig accel hlook
  have hpub : (sp.PublicLoadBalancerName = "" ∧ lbPart.1 = []) ∨
      (sp.PublicLoadBalancerName ≠ "" ∧ ∃ lb pool,
        (c.LoadBalancersGet scope.ResourceGroup sp.PublicLoadBalancerName
          (afterSubnetGet c sp s).world).1 = Except.ok lb ∧
        firstPoolOf lb = some pool ∧ lbPart.1 = [⟨pool.ID⟩]) := by
    rcases publicLBPart_ok_inv c scope sp _ _ lbPart hlb with
      ⟨hn, hpart, -⟩ | ⟨hn, lb, pool, hget, hfirst, hrole⟩
    · exact Or.inl ⟨hn, by rw [hpart]⟩
    · refine Or.inr ⟨hn, lb, pool, hget, hfirst, ?_⟩
      rcases hrole with ⟨-, -, hpart⟩ | ⟨-, -, hpart⟩ <;> rw [hpart]
  have hin : (sp.InternalLoadBalancerName = "" ∧ pools = lbPart.1) ∨
      (sp.InternalLoadBalancerName ≠ "" ∧ ∃ lb pool,
        (c.LoadBalancersGet scope.ResourceGroup sp.InternalLoadBalancerName
          (afterPublicLB c scope sp s).world).1 = Except.ok lb ∧
        firstPoolOf lb = some pool ∧ pools = lbPart.1 ++ [⟨pool.ID⟩]) := by
    rcases internalLBPart_ok_inv c scope sp _ _ _ _ hint with
      ⟨hn, hout, -⟩ | ⟨hn, lb, pool, hget, hfirst, hout, -⟩
    · exact Or.inl ⟨hn, hout⟩
    · exact Or.inr ⟨hn, lb, pool, hget, hfirst, hout⟩
  rcases hin with ⟨hin0, hpools⟩ | ⟨hin1, ilb, ipool, higet, hifirst, hpools⟩
  · refine ⟨interfaceFor scope nicConfig accel, nicConfig, lbPart.1, [], hissued,
      fun ev hev => (hkinds ev hev).1, rfl, ?_, ?_, ?_,
      fun _ => rfl, fun hne => absurd hin0 hne⟩
    · rw [hcfg, hpools, List.append_nil]
    · intro hn
      rcases hpub with ⟨-, hp⟩ | ⟨hne, -⟩
      · exact hp
      · exact absurd hn hne
    · intro hne
      rcases hpub with ⟨hn, -⟩ | ⟨-, hp⟩
      · exact absurd hn hne
      · exact hp
  · refine ⟨interfaceFor scope nicConfig accel, nicConfig, lbPart.1, [⟨ipool.ID⟩], hissued,
      fun ev hev => (hkinds ev hev).1, rfl,
      ?_, ?_, ?_, fun hn => absurd hn hin1, fun _ => ⟨ilb, ipool, higet, hifirst, rfl⟩⟩
    · rw [hcfg, hpools]
    · intro hn
      rcases hpub with ⟨-, hp⟩ | ⟨hne, -⟩
      · exact hp
      · exact absurd hn hne
    · intro hne
      rcases hpub with ⟨hn, -⟩ | ⟨-, hp⟩
      · exact absurd hn hne
      · exact hp

/-- C17: a spec processed successfully has its interface sent with exactly one
IP configuration.  For a spec that names a public load balancer
and has the control-plane role, that configuration has exactly one inbound NAT
rule entry, whose id is the id of the load balancer returned by the lookup,
`/inboundNatRules/` and the machine name, and the rule named after the machine
either was among the rules of that load balancer, in which case no NAT rule
request was sent, or was not, in which case a request for a rule of that name
on that load balancer was sent and accepted; for every other spec processed
successfully no NAT rule request is sent and the interface has no inbound NAT
rule entry. -/
theorem reconcileNIC_inbound_nat_rule (c : Clients σ) (scope : NICScope)
    (sp : NICSpec) (s : NicState σ) (h : (reconcileNIC c scope sp s).1 = Res.ok ()) :
    ∃ nic nicConfig,
      issued s (reconcileNIC c scope sp s).2 =
        issued s (nicLookups c scope sp s).2 ++
          [(NicCall.nicCreateOrUpdate scope.ResourceGroup sp.Name nic, none)] ∧
      (∀ ev ∈ issued s (nicLookups c scope sp s).2, ev.1.isNicPut = false) ∧
      nic.IPConfigurations = some [⟨some "pipConfig", some nicConfig⟩] ∧
      (sp.PublicLoadBalancerName ≠ "" → sp.MachineRole = ControlPlane →
        ∃ lb props rules,
          (c.LoadBalancersGet scope.ResourceGroup sp.PublicLoadBalancerName
            (afterSubnetGet c sp s).world).1 = Except.ok lb ∧
          lb.props = some props ∧ props.InboundNatRules = some rules ∧
          nicConfig.LoadBalancerInboundNatRules =
            some [⟨none, none, some (toStr lb.ID ++ "/inboundNatRules/" ++ sp.MachineName)⟩] ∧
          (((∃ v ∈ rules, toStr v.Name = sp.MachineName) ∧
              ∀ ev ∈ issued s (nicLookups c scope sp s).2, ev.1.isNatPut = false) ∨
           ((∀ v ∈ rules, toStr v.Name ≠ sp.MachineName) ∧
              ∃ rule, rule.Name = some sp.MachineName ∧
                (NicCall.natCreateOrUpdate scope.ResourceGroup (toStr lb.Name) sp.MachineName
                  rule, none) ∈ issued s (nicLookups c scope sp s).2))) ∧
      (¬ (sp.PublicLoadBalancerName ≠ "" ∧ sp.MachineRole = ControlPlane) →
        nicConfig.LoadBalancerInboundNatRules = none ∧
        ∀ ev ∈ issued s (nicLookups c scope sp s).2, ev.1.isNatPut = false) := by
  obtain ⟨nicConfig, accel, hlook, -, hissued, hkinds⟩ := reconcileNIC_created c scope sp s h
  obtain ⟨subnet, lbPart, pools, pip, s3, s4, -, hlb, hint, hpip, -, hacc, hcfg⟩ :=
    nicLookups_ok_inv c scope sp s _ nicConfig accel hlook
  have hnat : nicConfig.LoadBalancerInboundNatRules = lbPart.2 := by rw [hcfg]
  refine ⟨interfaceFor scope nicConfig accel, nicConfig, hissued,
    fun ev hev => (hkinds ev hev).1, rfl, ?_, ?_⟩
  · intro hname hrole
    rcases publicLBPart_ok_inv c scope sp _ _ lbPart hlb with
      ⟨hn, -, -⟩ | ⟨-, lb, pool, hget, -, hcase⟩
    · exact absurd hn hname
    · rcases hcase with ⟨-, hcreate, hpart⟩ | ⟨hnr, -, -⟩
      · obtain ⟨props, rules, hp, hr, hway⟩ :=
          createInboundNatRule_ok_inv c scope lb sp.MachineName _ _ hcreate
        refine ⟨lb, props, rules, hget, hp, hr, by rw [hnat, hpart], ?_⟩
        -- the log of the lookups, part by part
        obtain ⟨e1, hlog1, hk1⟩ := logs_getOrWrap (σ := σ)
          (fun x => x.isNatPut = false ∧ x.isNicPut = false)
          (NicCall.subnetGet sp.VNetResourceGroup sp.VNetName sp.SubnetName)
          (c.SubnetsGet sp.VNetResourceGroup sp.VNetName sp.SubnetName)
          "failed to get subnets" ⟨rfl, rfl⟩ s
        obtain ⟨e3, hlog3, hk3⟩ := (logs_plain_parts c scope sp).1 lbPart.1
          (afterPublicLB c scope sp s)
        obtain ⟨e4, hlog4, hk4⟩ := (logs_plain_parts c scope sp).2.1 s3
        obtain ⟨e5, hlog5, hk5⟩ := (logs_plain_parts c scope sp).2.2 s4
        rw [hint] at hlog3
        rw [hpip] at hlog4
        rw [hacc] at hlog5
        simp only at hlog3 hlog4 hlog5
        have hlog1a : (afterSubnetGet c sp s).log = s.log ++ e1 := hlog1
        rcases hway with ⟨hfound, hsame⟩ | ⟨hnone, rule, hrn, hlogn⟩
        · refine Or.inl ⟨hfound, ?_⟩
          have hfinal : (nicLookups c scope sp s).2.log =
              s.log ++ (e1 ++ [(NicCall.lbGet scope.ResourceGroup sp.PublicLoadBalancerName,
                none)] ++ e3 ++ e4 ++ e5) := by
            rw [hlook]
            simp only
            rw [hlog5, hlog4, hlog3, hsame]
            simp only [hlog1a, List.append_assoc]
          rw [issued_of_log s _ _ hfinal]
          intro ev hev
          simp only [List.mem_append, List.mem_singleton] at hev
          rcases hev with (((hev | hev) | hev) | hev) | hev
          · exact (hk1 ev hev).1
          · subst hev
            rfl
          · exact (hk3 ev hev).1
          · exact (hk4 ev hev).1
          · exact (hk5 ev hev).1
        · refine Or.inr ⟨hnone, rule, hrn, ?_⟩
          have hfinal : (nicLookups c scope sp s).2.log =
              s.log ++ (e1 ++ [(NicCall.lbGet scope.ResourceGroup sp.PublicLoadBalancerName,
                none)] ++ [(NicCall.natCreateOrUpdate scope.ResourceGroup (toStr lb.Name)
                  sp.MachineName rule, none)] ++ e3 ++ e4 ++ e5) := by
            rw [hlook]
            simp only
            rw [hlog5, hlog4, hlog3, hlogn]
            simp only [hlog1a, List.append_assoc]
          rw [issued_of_log s _ _ hfinal]
          simp
      · exact absurd hrole hnr
  · intro hnot
    refine ⟨?_, ?_⟩
    · rw [hnat]
      rcases publicLBPart_ok_inv c scope sp _ _ lbPart hlb with
        ⟨-, hpart, -⟩ | ⟨hname, lb, pool, -, -, hcase⟩
      · rw [hpart]
      · rcases hcase with ⟨hrole, -, -⟩ | ⟨-, -, hpart⟩
        · exact absurd ⟨hname, hrole⟩ hnot
        · rw [hpart]
    · intro ev hev
      cases hb : ev.1.isNatPut with
      | false => rfl
      | true => exact absurd ((hkinds ev hev).2.2 hb) hnot

end NicClaims

/-- Witness of C16: the control-plane machine `cp0` has no accelerated networking
preference and its VM size is reported as not supporting it; the interface
sent has accelerated networking disabled. -/
theorem reconcileNIC_accelerated_networking_witness :
    (reconcileNIC remoteClients sampleNICScope sampleNIC sampleStart).1 = Res.ok () ∧
    (∃ nicConfig, (nicConfigPart remoteClients sampleNICScope sampleNIC sampleStart).1 = Res.ok nicConfig ∧
      (∀ ev ∈ issued sampleStart (nicConfigPart remoteClients sampleNICScope sampleNIC sampleStart).2,
        ev.1.isCapability = false ∧ ev.1.isNicPut = false) ∧
      (∀ b, sampleNIC.AcceleratedNetworking = some b →
        ∃ nic, issued (nicConfigPart remoteClients sampleNICScope sampleNIC sampleStart).2 (reconcileNIC remoteClients sampleNICScope sampleNIC sampleStart).2 =
            [(NicCall.nicCreateOrUpdate sampleNICScope.ResourceGroup sampleNIC.Name nic, none)] ∧
          nic.EnableAcceleratedNetworking = some b ∧
          nic.IPConfigurations = some [⟨some "pipConfig", some nicConfig⟩]) ∧
      (sampleNIC.AcceleratedNetworking = none →
        ∃ a nic,
          (remoteClients.HasAcceleratedNetworking sampleNIC.VMSize (nicConfigPart remoteClients sampleNICScope sampleNIC sampleStart).2.world).1 =
            Except.ok a ∧
          issued (nicConfigPart remoteClients sampleNICScope sampleNIC sampleStart).2 (reconcileNIC remoteClients sampleNICScope sampleNIC sampleStart).2 =
            [(NicCall.hasAcceleratedNetworking sampleNIC.VMSize, none),
             (NicCall.nicCreateOrUpdate sampleNICScope.ResourceGroup sampleNIC.Name nic, none)] ∧
          nic.EnableAcceleratedNetworking = some a ∧
          nic.IPConfigurations = some [⟨some "pipConfig", some nicConfig⟩])) ∧
    issued sampleStart (reconcileNIC remoteClients sampleNICScope sampleNIC sampleStart).2 =
      [(NicCall.subnetGet "rg" "demo-vnet" "cp-subnet", none),
       (NicCall.lbGet "rg" "lb", none),
       (NicCall.natCreateOrUpdate "rg" "lb" "cp0"
         (natRuleFor "cp0" ⟨some "fe", some "/lb/fe"⟩ 22), none),
       (NicCall.hasAcceleratedNetworking "Standard_D2s_v3", none),
       (NicCall.nicCreateOrUpdate "rg" "cp0-nic"
         { Location := some "westus"
           IPConfigurations := some [⟨some "pipConfig", some
             { Subnet := some ⟨some "/subnet"⟩
               PrivateIPAllocationMethod := IPAllocationMethod.Dynamic
               PrivateIPAddress := none
               LoadBalancerBackendAddressPools := some [⟨some "/lb/pool"⟩]
               LoadBalancerInboundNatRules :=
                 some [⟨none, none, some "/lb/inboundNatRules/cp0"⟩]
               PublicIPAddress := none }⟩]
           EnableAcceleratedNetworking := some false }, none)] :=
  ⟨by decide,
   reconcileNIC_accelerated_networking remoteClients sampleNICScope sampleNIC sampleStart
     (by decide),
   by decide⟩

/-- Witness of C17: the control-plane machine `cp0` behind the load balancer `lb`. -/
theorem reconcileNIC_inbound_nat_rule_witness :
    (reconcileNIC remoteClients sampleNICScope sampleNIC sampleStart).1 = Res.ok () ∧
    (∃ nic nicConfig,
      issued sampleStart (reconcileNIC remoteClients sampleNICScope sampleNIC sampleStart).2 =
        issued sampleStart (nicLookups remoteClients sampleNICScope sampleNIC sampleStart).2 ++
          [(NicCall.nicCreateOrUpdate sampleNICScope.ResourceGroup sampleNIC.Name nic, none)] ∧
      (∀ ev ∈ issued sampleStart (nicLookups remoteClients sampleNICScope sampleNIC sampleStart).2, ev.1.isNicPut = false) ∧
      nic.IPConfigurations = some [⟨some "pipConfig", some nicConfig⟩] ∧
      (sampleNIC.PublicLoadBalancerName ≠ "" → sampleNIC.MachineRole = ControlPlane →
        ∃ lb props rules,
          (remoteClients.LoadBalancersGet sampleNICScope.ResourceGroup sampleNIC.PublicLoadBalancerName
            (afterSubnetGet remoteClients sampleNIC sampleStart).world).1 = Except.ok lb ∧
          lb.props = some props ∧ props.InboundNatRules = some rules ∧
          nicConfig.LoadBalancerInboundNatRules =
            some [⟨none, none, some (toStr lb.ID ++ "/inboundNatRules/" ++ sampleNIC.MachineName)⟩] ∧
          (((∃ v ∈ rules, toStr v.Name = sampleNIC.MachineName) ∧
              ∀ ev ∈ issued sampleStart (nicLookups remoteClients sampleNICScope sampleNIC sampleStart).2, ev.1.isNatPut = false) ∨
           ((∀ v ∈ rules, toStr v.Name ≠ sampleNIC.MachineName) ∧
              ∃ rule, rule.Name = some sampleNIC.MachineName ∧
                (NicCall.natCreateOrUpdate sampleNICScope.ResourceGroup (toStr lb.Name) sampleNIC.MachineName
                  rule, none) ∈ issued sampleStart (nicLookups remoteClients sampleNICScope sampleNIC sampleStart).2))) ∧
      (¬ (sampleNIC.PublicLoadBalancerName ≠ "" ∧ sampleNIC.MachineRole = ControlPlane) →
        nicConfig.LoadBalancerInboundNatRules = none ∧
        ∀ ev ∈ issued sampleStart (nicLookups remoteClients sampleNICScope sampleNIC sampleStart).2, ev.1.isNatPut = false)) :=
  ⟨by decide,
   reconcileNIC_inbound_nat_rule remoteClients sampleNICScope sampleNIC sampleStart
     (by decide)⟩

/-- Witness of C18: the control-plane machine `cp0` behind the load balancer `lb`,
with no internal load balancer. -/
theorem reconcileNIC_backend_pools_witness :
    (reconcileNIC remoteClients sampleNICScope sampleNIC sampleStart).1 = Res.ok () ∧
    (∃ nic nicConfig pub int,
      issued sampleStart (reconcileNIC remoteClients sampleNICScope sampleNIC sampleStart).2 =
        issued sampleStart (nicLookups remoteClients sampleNICScope sampleNIC sampleStart).2 ++
          [(NicCall.nicCreateOrUpdate sampleNICScope.ResourceGroup sampleNIC.Name nic, none)] ∧
      (∀ ev ∈ issued sampleStart (nicLookups remoteClients sampleNICScope sampleNIC sampleStart).2, ev.1.isNicPut = false) ∧
      nic.IPConfigurations = some [⟨some "pipConfig", some nicConfig⟩] ∧
      nicConfig.LoadBalancerBackendAddressPools = some (pub ++ int) ∧
      (sampleNIC.PublicLoadBalancerName = "" → pub = []) ∧
      (sampleNIC.PublicLoadBalancerName ≠ "" → ∃ lb pool,
        (remoteClients.LoadBalancersGet sampleNICScope.ResourceGroup sampleNIC.PublicLoadBalancerName
          (afterSubnetGet remoteClients sampleNIC sampleStart).world).1 = Except.ok lb ∧
        firstPoolOf lb = some pool ∧ pub = [⟨pool.ID⟩]) ∧
      (sampleNIC.InternalLoadBalancerName = "" → int = []) ∧
      (sampleNIC.InternalLoadBalancerName ≠ "" → ∃ lb pool,
        (remoteClients.LoadBalancersGet sampleNICScope.ResourceGroup sampleNIC.InternalLoadBalancerName
          (afterPublicLB remoteClients sampleNICScope sampleNIC sampleStart).world).1 = Except.ok lb ∧
        firstPoolOf lb = some pool ∧ int = [⟨pool.ID⟩])) :=
  ⟨by decide,
   reconcileNIC_backend_pools remoteClients sampleNICScope sampleNIC sampleStart
     (by decide)⟩

/-- Witness of C19: the control-plane machine `cp0`, with no static address. -/
theorem reconcileNIC_ip_configuration_witness :
    (reconcileNIC remoteClients sampleNICScope sampleNIC sampleStart).1 = Res.ok () ∧
    (∃ nic nicConfig subnet,
      issued sampleStart (reconcileNIC remoteClients sampleNICScope sampleNIC sampleStart).2 =
        issued sampleStart (nicLookups remoteClients sampleNICScope sampleNIC sampleStart).2 ++
          [(NicCall.nicCreateOrUpdate sampleNICScope.ResourceGroup sampleNIC.Name nic, none)] ∧
      (∀ ev ∈ issued sampleStart (nicLookups remoteClients sampleNICScope sampleNIC sampleStart).2, ev.1.isNicPut = false) ∧
      nic.IPConfigurations = some [⟨some "pipConfig", some nicConfig⟩] ∧
      (remoteClients.SubnetsGet sampleNIC.VNetResourceGroup sampleNIC.VNetName sampleNIC.SubnetName sampleStart.world).1 =
        Except.ok subnet ∧
      nicConfig.Subnet = some ⟨subnet.ID⟩ ∧
      (sampleNIC.StaticIPAddress = "" →
        nicConfig.PrivateIPAllocationMethod = IPAllocationMethod.Dynamic ∧
        nicConfig.PrivateIPAddress = none) ∧
      (sampleNIC.StaticIPAddress ≠ "" →
        nicConfig.PrivateIPAllocationMethod = IPAllocationMethod.Static ∧
        nicConfig.PrivateIPAddress = some sampleNIC.StaticIPAddress)) :=
  ⟨by decide,
   reconcileNIC_ip_configuration remoteClients sampleNICScope sampleNIC sampleStart
     (by decide)⟩

/-- C18 as stated fails: the worker machine `node0` names no load balancer; it
is processed successfully and the one IP configuration of the interface sent
has an empty list of backend pools, neither one nor two. -/
theorem reconcileNIC_backend_pools_counterexample :
    (reconcileNIC remoteClients sampleNICScope plainNIC sampleStart).1 = Res.ok () ∧
    issued sampleStart (reconcileNIC remoteClients sampleNICScope plainNIC sampleStart).2 =
      [(NicCall.subnetGet "rg" "demo-vnet" "node-subnet", none),
       (NicCall.hasAcceleratedNetworking "Standard_B2s", none),
       (NicCall.nicCreateOrUpdate "rg" "node0-nic"
         { Location := some "westus"
           IPConfigurations := some [⟨some "pipConfig", some
             { Subnet := some ⟨some "/subnet"⟩
               PrivateIPAllocationMethod := IPAllocationMethod.Dynamic
               PrivateIPAddress := none
               LoadBalancerBackendAddressPools := some []
               LoadBalancerInboundNatRules := none
               PublicIPAddress := none }⟩]
           EnableAcceleratedNetworking := some false }, none)] := by
  decide

section NicSequences

variable {σ : Type}

theorem nicTolerated_none (tol : Error → Bool) (c : NicCall) : NicTolerated tol (c, none) := by
  intro e h
  cases h

theorem nicTolerated_some (tol : Error → Bool) (c : NicCall) (e : Error) :
    NicTolerated tol (c, some e) ↔ tol e = true := by
  constructor
  · intro h
    exact h e rfl
  · intro h e1 h1
    cases h1
    exact h

theorem nicSequenced_ret (tol : Error → Bool) :
    NicSequenced tol [] (Prog.ret () : Prog (NicState σ) Unit) := by
  intro s
  refine ⟨[], by simp [Prog.ret], Or.inl ⟨rfl, rfl, ?_⟩⟩
  intro ev hev
  cases hev

theorem nicSequenced_andThen (tol : Error → Bool) (l1 l2 : List NicCall)
    (m1 m2 : Prog (NicState σ) Unit)
    (h1 : NicSequenced tol l1 m1) (h2 : NicSequenced tol l2 m2) :
    NicSequenced tol (l1 ++ l2) (Prog.andThen m1 (fun _ => m2)) := by
  intro s
  obtain ⟨evs1, hlog1, hcase1⟩ := h1 s
  unfold Prog.andThen
  rcases hcase1 with ⟨hok, hcalls, htol⟩ | ⟨pre, c, e, rest, hevs, hne, hpre, hcalls, msg, herr⟩
  · rcases hm : m1 s with ⟨r1, s1⟩
    rw [hm] at hok hlog1
    simp only at hok hlog1
    subst hok
    simp only
    obtain ⟨evs2, hlog2, hcase2⟩ := h2 s1
    refine ⟨evs1 ++ evs2, by rw [hlog2, hlog1, List.append_assoc], ?_⟩
    rcases hcase2 with ⟨hok2, hcalls2, htol2⟩ |
      ⟨pre, c, e, rest, hevs, hne, hpre, hcalls2, msg, herr⟩
    · refine Or.inl ⟨hok2, by rw [List.map_append, hcalls, hcalls2], ?_⟩
      intro ev hev
      rcases List.mem_append.1 hev with h | h
      · exact htol ev h
      · exact htol2 ev h
    · refine Or.inr ⟨evs1 ++ pre, c, e, rest, by rw [hevs, List.append_assoc], hne, ?_, ?_,
        msg, herr⟩
      · intro ev hev
        rcases List.mem_append.1 hev with h | h
        · exact htol ev h
        · exact hpre ev h
      · rw [List.map_append, hcalls, hcalls2, List.append_assoc]
  · rcases hm : m1 s with ⟨r1, s1⟩
    rw [hm] at herr hlog1
    simp only at herr hlog1
    subst herr
    simp only
    refine ⟨evs1, hlog1, Or.inr ⟨pre, c, e, rest ++ l2, hevs, hne, hpre, ?_, msg, rfl⟩⟩
    rw [hcalls, List.append_assoc, List.cons_append]

theorem nic_drop_log (log0 evs : List (NicCall × Option Error)) :
    (log0 ++ evs).drop log0.length = evs := by
  simp

/-- In a log whose entries before the last are tolerated and whose last entry
is not, an entry that is not tolerated is the last one. -/
theorem nic_untolerated_last (tol : Error → Bool) (p q pre : List (NicCall × Option Error))
    (c c0 : NicCall) (e e0 : Error)
    (hsplit : p ++ (c, some e) :: q = pre ++ [(c0, some e0)])
    (hpre : ∀ ev ∈ pre, NicTolerated tol ev) (hne : tol e = false) :
    q = [] ∧ e0 = e := by
  induction p generalizing pre with
  | nil =>
    cases pre with
    | nil =>
      simp only [List.nil_append, List.cons.injEq, Prod.mk.injEq, Option.some.injEq] at hsplit
      exact ⟨hsplit.2, hsplit.1.2.symm⟩
    | cons a pre1 =>
      simp only [List.nil_append, List.cons_append, List.cons.injEq] at hsplit
      have := (nicTolerated_some tol c e).1 (hsplit.1 ▸ hpre a (List.mem_cons_self _ _))
      rw [hne] at this
      cases this
  | cons b p1 ih =>
    cases pre with
    | nil =>
      simp only [List.cons_append, List.nil_append, List.cons.injEq] at hsplit
      have := hsplit.2
      simp at this
    | cons a pre1 =>
      simp only [List.cons_append, List.cons.injEq] at hsplit
      exact ih pre1 hsplit.2 (fun ev hev => hpre ev (List.mem_cons_of_mem _ hev))

theorem nicOutcome_of_tolerated (tol : Error → Bool) (calls : List NicCall)
    (log0 : List (NicCall × Option Error)) (r : Res Unit × NicState σ)
    (h : NicOutcome tol calls log0 r)
    (htol : ∀ ev ∈ r.2.log.drop log0.length, NicTolerated tol ev) :
    r.1 = Res.ok () ∧ (r.2.log.drop log0.length).map Prod.fst = calls := by
  obtain ⟨evs, hlog, hcase⟩ := h
  rw [hlog, nic_drop_log] at htol ⊢
  rcases hcase with ⟨hok, hcalls, -⟩ | ⟨pre, c, e, rest, hevs, hne, -, -, -⟩
  · exact ⟨hok, hcalls⟩
  · have := (nicTolerated_some tol c e).1 (htol (c, some e) (by rw [hevs]; simp))
    rw [hne] at this
    cases this

theorem nicOutcome_of_ok (tol : Error → Bool) (calls : List NicCall)
    (log0 : List (NicCall × Option Error)) (r : Res Unit × NicState σ)
    (h : NicOutcome tol calls log0 r) (hok : r.1 = Res.ok ()) :
    (∀ ev ∈ r.2.log.drop log0.length, NicTolerated tol ev) ∧
      (r.2.log.drop log0.length).map Prod.fst = calls := by
  obtain ⟨evs, hlog, hcase⟩ := h
  rw [hlog, nic_drop_log]
  rcases hcase with ⟨-, hcalls, htol⟩ | ⟨pre, c, e, rest, -, -, -, -, msg, herr⟩
  · exact ⟨htol, hcalls⟩
  · rw [hok] at herr
    cases herr

theorem nicOutcome_abort (tol : Error → Bool) (calls : List NicCall)
    (log0 : List (NicCall × Option Error)) (r : Res Unit × NicState σ)
    (h : NicOutcome tol calls log0 r) (p q : List (NicCall × Option Error))
    (c : NicCall) (e : Error)
    (hsplit : r.2.log.drop log0.length = p ++ (c, some e) :: q) (hne : tol e = false) :
    q = [] ∧ ∃ msg, r.1 = Res.err (Wrap e msg) := by
  obtain ⟨evs, hlog, hcase⟩ := h
  rw [hlog, nic_drop_log] at hsplit
  rcases hcase with ⟨-, -, htol⟩ | ⟨pre, c0, e0, rest, hevs, -, hpre, -, msg, herr⟩
  · have := (nicTolerated_some tol c e).1 (htol (c, some e) (by rw [hsplit]; simp))
    rw [hne] at this
    cases this
  · rw [hevs] at hsplit
    obtain ⟨hq, he⟩ := nic_untolerated_last tol p q pre c c0 e e0 hsplit.symm hpre hne
    subst he
    exact ⟨hq, msg, herr⟩

theorem nicOutcome_initial (tol : Error → Bool) (calls : List NicCall)
    (log0 : List (NicCall × Option Error)) (r : Res Unit × NicState σ)
    (h : NicOutcome tol calls log0 r) :
    ∃ rest, calls = (r.2.log.drop log0.length).map Prod.fst ++ rest := by
  obtain ⟨evs, hlog, hcase⟩ := h
  rw [hlog, nic_drop_log]
  rcases hcase with ⟨-, hcalls, -⟩ | ⟨pre, c, e, rest, hevs, -, -, hcalls, -⟩
  · exact ⟨[], by rw [hcalls, List.append_nil]⟩
  · exact ⟨rest, by rw [hcalls, hevs]; simp⟩

theorem nicSequenced_deleteOrWrap (call : NicCall) (f : σ → Option Error × σ) (msg : String) :
    NicSequenced ResourceNotFound [call] (deleteOrWrap call f msg) := by
  intro s
  unfold deleteOrWrap
  cases h : (f s.world).1 with
  | none =>
    refine ⟨[(call, none)], rfl, Or.inl ⟨rfl, rfl, ?_⟩⟩
    intro ev hev
    rw [List.mem_singleton] at hev
    subst hev
    exact nicTolerated_none _ _
  | some err =>
    cases hnf : ResourceNotFound err with
    | true =>
      refine ⟨[(call, some err)], ?_, Or.inl ⟨?_, rfl, ?_⟩⟩
      · simp [hnf]
      · simp [hnf]
      · intro ev hev
        rw [List.mem_singleton] at hev
        subst hev
        exact (nicTolerated_some _ _ _).2 hnf
    | false =>
      refine ⟨[(call, some err)], ?_, Or.inr ?_⟩
      · simp [hnf]
      · refine ⟨[], call, err, [], rfl, hnf, ?_, rfl, msg, ?_⟩
        · intro ev hev
          cases hev
        · simp [hnf]

theorem nicSequenced_forEach {α : Type} (tol : Error → Bool) (f : α → List NicCall)
    (body : α → Prog (NicState σ) Unit) (h : ∀ x, NicSequenced tol (f x) (body x))
    (xs : List α) : NicSequenced tol (xs.flatMap f) (Prog.forEach body xs) := by
  induction xs with
  | nil => exact nicSequenced_ret tol
  | cons x rest ih =>
    rw [List.flatMap_cons]
    exact nicSequenced_andThen tol (f x) (rest.flatMap f) _ _ (h x) ih

/-- The steps of `Service.Delete` form a fail-fast sequence of the requests
`nicDeleteCalls` in which a not-found error is tolerated. -/
theorem ServiceDelete_outcome (c : Clients σ) (scope : NICScope) (s : NicState σ) :
    NicOutcome ResourceNotFound (nicDeleteCalls scope scope.NICSpecs) s.log
      (Service.Delete c scope s) := by
  unfold Service.Delete nicDeleteCalls
  refine nicSequenced_forEach ResourceNotFound _ _ (fun sp => ?_) scope.NICSpecs s
  unfold deleteNIC
  simp only [Prog.bind_eq]
  exact nicSequenced_andThen ResourceNotFound [_] [_] _ _
    (nicSequenced_deleteOrWrap _ _ _) (nicSequenced_deleteOrWrap _ _ _)

end NicSequences

/-- C15: in every `Service.Delete` run the requests issued are an initial part
of the sequence made, for each spec in order, of the delete of the interface
and then the delete of the NAT rule named after the machine on the public load
balancer of the spec; when every request returns success or not-found the whole
sequence is issued, and `Delete` returns success exactly in that case; a
request that returns any other error is the last request issued and `Delete`
returns that error, annotated. -/
theorem ServiceDelete_fail_fast {σ : Type} (c : Clients σ) (scope : NICScope)
    (s : NicState σ) :
    (∃ rest, nicDeleteCalls scope scope.NICSpecs =
        requestsOf (issued s (Service.Delete c scope s).2) ++ rest) ∧
    ((∀ ev ∈ issued s (Service.Delete c scope s).2,
        ∀ e, ev.2 = some e → ResourceNotFound e = true) →
      requestsOf (issued s (Service.Delete c scope s).2) =
        nicDeleteCalls scope scope.NICSpecs) ∧
    ((Service.Delete c scope s).1 = Res.ok () ↔
      ∀ ev ∈ issued s (Service.Delete c scope s).2,
        ∀ e, ev.2 = some e → ResourceNotFound e = true) ∧
    (∀ (p q : List (NicCall × Option Error)) (call : NicCall) (e : Error),
      issued s (Service.Delete c scope s).2 = p ++ (call, some e) :: q →
        ResourceNotFound e = false →
        q = [] ∧ ∃ msg, (Service.Delete c scope s).1 = Res.err (Wrap e msg)) := by
  have h := ServiceDelete_outcome c scope s
  refine ⟨nicOutcome_initial ResourceNotFound _ s.log _ h, ?_, ⟨?_, ?_⟩, ?_⟩
  · intro htol
    exact (nicOutcome_of_tolerated ResourceNotFound _ s.log _ h htol).2
  · intro hok
    exact (nicOutcome_of_ok ResourceNotFound _ s.log _ h hok).1
  · intro htol
    exact (nicOutcome_of_tolerated ResourceNotFound _ s.log _ h htol).1
  · intro p q call e hsplit hne
    exact nicOutcome_abort ResourceNotFound _ s.log _ h p q call e hsplit hne

/-- Witness of C15: the interface of `cp0` exists and its NAT rule does not; the
interface delete succeeds, the NAT rule delete reports not-found, and `Delete`
returns success. -/
theorem ServiceDelete_fail_fast_witness :
    (Service.Delete remoteClients sampleNICScope ⟨remoteWithNIC, []⟩).1 = Res.ok () ∧
    issued ⟨remoteWithNIC, []⟩ (Service.Delete remoteClients sampleNICScope
        ⟨remoteWithNIC, []⟩).2 =
      [(NicCall.nicDelete "rg" "cp0-nic", none),
       (NicCall.natDelete "rg" "lb" "cp0", some notFoundError)] ∧
    requestsOf (issued ⟨remoteWithNIC, []⟩ (Service.Delete remoteClients sampleNICScope
        ⟨remoteWithNIC, []⟩).2) = nicDeleteCalls sampleNICScope sampleNICScope.NICSpecs :=
  ⟨by decide, by decide,
   (ServiceDelete_fail_fast remoteClients sampleNICScope ⟨remoteWithNIC, []⟩).2.1
     (by decide)⟩


section FailFastLemmas

variable {σ : Type}

theorem annotates_wrap (e0 e1 : Error) (msg : String) (h : Annotates e0 e1) :
    Annotates e0 (Wrap e1 msg) := by
  rcases h with h | ⟨m0, h⟩
  · subst h
    exact Or.inr ⟨msg, rfl⟩
  · subst h
    refine Or.inr ⟨msg ++ ": " ++ m0, ?_⟩
    simp only [Wrap, String.append_assoc]

theorem failFast_of_quiet {α : Type} (tol : Error → Bool) (m : Prog (NicState σ) α)
    (h : ∀ s, (m s).2 = s) : FailFast tol m := by
  intro s
  refine ⟨[], ?_, Or.inl ?_⟩
  · rw [h s, List.append_nil]
  · intro ev hev
    cases hev

theorem failFast_ret {α : Type} (tol : Error → Bool) (a : α) :
    FailFast tol (Prog.ret a : Prog (NicState σ) α) :=
  failFast_of_quiet tol _ (fun _ => rfl)

theorem failFast_fail {α : Type} (tol : Error → Bool) (e : Error) :
    FailFast tol (Prog.fail e : Prog (NicState σ) α) :=
  failFast_of_quiet tol _ (fun _ => rfl)

theorem failFast_crash {α : Type} (tol : Error → Bool) :
    FailFast tol (Prog.crash : Prog (NicState σ) α) :=
  failFast_of_quiet tol _ (fun _ => rfl)

theorem failFast_andThen {α β : Type} (tol : Error → Bool) (m : Prog (NicState σ) α)
    (f : α → Prog (NicState σ) β) (hm : FailFast tol m) (hf : ∀ a, FailFast tol (f a)) :
    FailFast tol (Prog.andThen m f) := by
  intro s
  obtain ⟨evs1, hlog1, h1⟩ := hm s
  unfold Prog.andThen
  rcases hms : m s with ⟨r, s1⟩
  rw [hms] at hlog1 h1
  simp only at hlog1 h1
  rcases h1 with htol1 | ⟨pre, call, e0, hevs, hne, hpre, e1, hres, hann⟩
  · cases r with
    | ok a =>
      obtain ⟨evs2, hlog2, h2⟩ := hf a s1
      refine ⟨evs1 ++ evs2, ?_, ?_⟩
      · simp only
        rw [hlog2, hlog1, List.append_assoc]
      · rcases h2 with htol2 | ⟨pre, call, e0, hevs, hne, hpre, e1, hres, hann⟩
        · left
          intro ev hev
          rcases List.mem_append.1 hev with h | h
          · exact htol1 ev h
          · exact htol2 ev h
        · right
          refine ⟨evs1 ++ pre, call, e0, ?_, hne, ?_, e1, hres, hann⟩
          · rw [hevs, List.append_assoc]
          · intro ev hev
            rcases List.mem_append.1 hev with h | h
            · exact htol1 ev h
            · exact hpre ev h
    | err e => exact ⟨evs1, hlog1, Or.inl htol1⟩
    | panic => exact ⟨evs1, hlog1, Or.inl htol1⟩
  · subst hres
    exact ⟨evs1, hlog1, Or.inr ⟨pre, call, e0, hevs, hne, hpre, e1, rfl, hann⟩⟩

theorem failFast_orWrap (tol : Error → Bool) (m : Prog (NicState σ) Unit) (msg : String)
    (hm : FailFast tol m) : FailFast tol (orWrap m msg) := by
  intro s
  obtain ⟨evs, hlog, h⟩ := hm s
  unfold orWrap
  rcases hms : m s with ⟨r, s1⟩
  rw [hms] at hlog h
  simp only at hlog h
  rcases h with htol | ⟨pre, call, e0, hevs, hne, hpre, e1, hres, hann⟩
  · cases r with
    | ok a => exact ⟨evs, hlog, Or.inl htol⟩
    | err e => exact ⟨evs, hlog, Or.inl htol⟩
    | panic => exact ⟨evs, hlog, Or.inl htol⟩
  · subst hres
    exact ⟨evs, hlog, Or.inr ⟨pre, call, e0, hevs, hne, hpre, Wrap e1 msg, rfl,
      annotates_wrap e0 e1 msg hann⟩⟩

theorem failFast_forEach {α : Type} (tol : Error → Bool) (body : α → Prog (NicState σ) Unit)
    (hb : ∀ x, FailFast tol (body x)) (xs : List α) : FailFast tol (Prog.forEach body xs) := by
  induction xs with
  | nil => exact failFast_ret tol ()
  | cons x rest ih => exact failFast_andThen tol _ _ (hb x) (fun _ => ih)

theorem failFast_getOrWrap {α : Type} (call : NicCall) (f : σ → Except Error α × σ)
    (msg : String) : FailFast tolNone (getOrWrap call f msg) := by
  intro s
  unfold getOrWrap
  cases h : (f s.world).1 with
  | error err =>
    refine ⟨[(call, some err)], rfl, Or.inr ⟨[], call, err, rfl, rfl, ?_, Wrap err msg, rfl,
      Or.inr ⟨msg, rfl⟩⟩⟩
    intro ev hev
    cases hev
  | ok a =>
    refine ⟨[(call, none)], rfl, Or.inl ?_⟩
    intro ev hev
    rw [List.mem_singleton] at hev
    subst hev
    exact nicTolerated_none _ _

/-- A write request followed by `if err != nil { return wrap(err) }`. -/
theorem failFast_askPut (call : NicCall) (f : σ → Option Error × σ) (wrap : Error → Error)
    (hw : ∀ e, Annotates e (wrap e)) :
    FailFast tolNone (Prog.andThen (askPut call f) (fun r =>
      match r with
      | none => Prog.ret ()
      | some e => Prog.fail (wrap e))) := by
  intro s
  unfold Prog.andThen askPut
  cases h : (f s.world).1 with
  | none =>
    refine ⟨[(call, none)], rfl, Or.inl ?_⟩
    intro ev hev
    rw [List.mem_singleton] at hev
    subst hev
    exact nicTolerated_none _ _
  | some e =>
    refine ⟨[(call, some e)], rfl, Or.inr ⟨[], call, e, rfl, rfl, ?_, wrap e, rfl, hw e⟩⟩
    intro ev hev
    cases hev

theorem failFast_firstBackendPoolID (lb : LoadBalancer) :
    FailFast tolNone (firstBackendPoolID lb : Prog (NicState σ) (Option String)) := by
  unfold firstBackendPoolID
  cases lb.props with
  | none => exact failFast_crash _
  | some props =>
    simp only
    cases props.BackendAddressPools with
    | none => exact failFast_crash _
    | some pools =>
      cases pools with
      | nil => exact failFast_crash _
      | cons pool rest => exact failFast_ret _ _

theorem failFast_createInboundNatRule (c : Clients σ) (scope : NICScope) (lb : LoadBalancer)
    (ruleName : String) : FailFast tolNone (createInboundNatRule c scope lb ruleName) := by
  unfold createInboundNatRule
  cases lb.props with
  | none => exact failFast_fail _ _
  | some props =>
    simp only
    cases props.InboundNatRules with
    | none => exact failFast_fail _ _
    | some rules =>
      simp only
      cases scanRules ruleName rules [] with
      | found => exact failFast_ret _ _
      | nilDeref => exact failFast_crash _
      | ports ports =>
        simp only
        cases selectFrontendPort ports with
        | none => exact failFast_fail _ _
        | some port =>
          simp only
          cases props.FrontendIPConfigurations with
          | none => exact failFast_crash _
          | some fips =>
            cases fips with
            | nil => exact failFast_crash _
            | cons fip rest =>
              simp only [Prog.bind_eq]
              have := failFast_askPut
                (NicCall.natCreateOrUpdate scope.ResourceGroup (toStr lb.Name) ruleName
                  (natRuleFor ruleName fip port))
                (c.InboundNATRulesCreateOrUpdate scope.ResourceGroup (toStr lb.Name) ruleName
                  (natRuleFor ruleName fip port)) (fun e => e) (fun e => Or.inl rfl)
              exact this

theorem failFast_nicLookups (c : Clients σ) (scope : NICScope) (sp : NICSpec) :
    FailFast tolNone (nicLookups c scope sp) := by
  unfold nicLookups nicConfigPart
  simp only [Prog.bind_eq]
  refine failFast_andThen _ _ _ ?_ (fun nicConfig => ?_)
  · refine failFast_andThen _ _ _ (failFast_getOrWrap _ _ _) (fun subnet => ?_)
    refine failFast_andThen _ _ _ ?_ (fun lbPart => ?_)
    · unfold publicLBPart
      split
      · simp only [Prog.bind_eq]
        refine failFast_andThen _ _ _ (failFast_getOrWrap _ _ _) (fun lb => ?_)
        refine failFast_andThen _ _ _ (failFast_firstBackendPoolID lb) (fun poolID => ?_)
        split
        · exact failFast_andThen _ _ _
            (failFast_orWrap _ _ _ (failFast_createInboundNatRule c scope lb sp.MachineName))
            (fun _ => failFast_ret _ _)
        · exact failFast_ret _ _
      · exact failFast_ret _ _
    refine failFast_andThen _ _ _ ?_ (fun pools => ?_)
    · unfold internalLBPart
      split
      · simp only [Prog.bind_eq]
        refine failFast_andThen _ _ _ (failFast_getOrWrap _ _ _) (fun lb => ?_)
        exact failFast_andThen _ _ _ (failFast_firstBackendPoolID lb)
          (fun _ => failFast_ret _ _)
      · exact failFast_ret _ _
    refine failFast_andThen _ _ _ ?_ (fun publicIP => failFast_ret _ _)
    unfold publicIPPart
    split
    · simp only [Prog.bind_eq]
      exact failFast_andThen _ _ _ (failFast_getOrWrap _ _ _) (fun _ => failFast_ret _ _)
    · exact failFast_ret _ _
  · refine failFast_andThen _ _ _ ?_ (fun accel => failFast_ret _ _)
    unfold acceleratedNetworkingPart
    split
    · simp only [Prog.bind_eq]
      exact failFast_andThen _ _ _ (failFast_getOrWrap _ _ _) (fun _ => failFast_ret _ _)
    · exact failFast_ret _ _

theorem failFast_createInterfacePart (c : Clients σ) (scope : NICScope) (sp : NICSpec)
    (nic : Interface) : FailFast tolNone (createInterfacePart c scope sp nic) := by
  have := failFast_askPut (NicCall.nicCreateOrUpdate scope.ResourceGroup sp.Name nic)
    (c.InterfacesCreateOrUpdate scope.ResourceGroup sp.Name nic)
    (fun e => Wrap e ("failed to create network interface " ++ sp.Name
      ++ " in resource group " ++ scope.ResourceGroup))
    (fun e => Or.inr ⟨_, rfl⟩)
  intro s
  obtain ⟨evs, hlog, h⟩ := this s
  have heq : createInterfacePart c scope sp nic s =
      Prog.andThen (askPut (NicCall.nicCreateOrUpdate scope.ResourceGroup sp.Name nic)
        (c.InterfacesCreateOrUpdate scope.ResourceGroup sp.Name nic)) (fun r =>
        match r with
        | none => Prog.ret ()
        | some e => Prog.fail (Wrap e ("failed to create network interface " ++ sp.Name
            ++ " in resource group " ++ scope.ResourceGroup))) s := by
    unfold createInterfacePart Prog.andThen askPut
    simp only [Prog.bind_eq, Prog.andThen]
    cases (c.InterfacesCreateOrUpdate scope.ResourceGroup sp.Name nic s.world).1 <;> rfl
  rw [heq]
  exact ⟨evs, hlog, h⟩

theorem failFast_reconcileNIC (c : Clients σ) (scope : NICScope) (sp : NICSpec) :
    FailFast tolNone (reconcileNIC c scope sp) := by
  rw [reconcileNIC_eq]
  exact failFast_andThen _ _ _ (failFast_nicLookups c scope sp)
    (fun r => failFast_createInterfacePart c scope sp _)

theorem logs_reconcileNIC (c : Clients σ) (scope : NICScope) (sp : NICSpec) :
    Logs (fun x => x.isDelete = false) (reconcileNIC c scope sp) := by
  rw [reconcileNIC_eq]
  refine logs_andThen _ _ _
    (logs_mono _ _ (fun x hx => hx.2.1) _ (logs_nicLookups c scope sp)) (fun r => ?_)
  unfold createInterfacePart
  simp only [Prog.bind_eq]
  refine logs_andThen _ _ _ (logs_askPut _ _ _ rfl) (fun r => ?_)
  cases r with
  | none => exact logs_ret _ _
  | some e => exact logs_fail _ _

theorem forEach_append {S α : Type} (body : α → Prog S Unit) (xs ys : List α) :
    Prog.forEach body (xs ++ ys) =
      Prog.andThen (Prog.forEach body xs) (fun _ => Prog.forEach body ys) := by
  induction xs with
  | nil => rfl
  | cons x rest ih =>
    show Prog.andThen (body x) (fun _ => Prog.forEach body (rest ++ ys)) =
      Prog.andThen (Prog.andThen (body x) (fun _ => Prog.forEach body rest))
        (fun _ => Prog.forEach body ys)
    rw [ih, andThen_assoc]

/-- The specs processed successfully by the loop have each had their interface
request sent, with a successful result. -/
theorem forEach_created (c : Clients σ) (scope : NICScope) (pre : List NICSpec)
    (s s1 : NicState σ) (h : Prog.forEach (reconcileNIC c scope) pre s = (Res.ok (), s1)) :
    ∀ x ∈ pre, ∃ nic,
      (NicCall.nicCreateOrUpdate scope.ResourceGroup x.Name nic, none) ∈ issued s s1 := by
  induction pre generalizing s with
  | nil =>
    intro x hx
    cases hx
  | cons y rest ih =>
    obtain ⟨u, sa, hy, hrest⟩ := andThen_ok_inv _ _ s s1 () h
    obtain ⟨ea, hla, -⟩ := logs_reconcileNIC c scope y s
    obtain ⟨eb, hlb, -⟩ :=
      logs_forEach (fun x => x.isDelete = false) (reconcileNIC c scope)
        (logs_reconcileNIC c scope) rest sa
    rw [hy] at hla
    rw [hrest] at hlb
    simp only at hla hlb
    have h01 : issued s s1 = ea ++ eb := by
      apply issued_of_log
      rw [hlb, hla, List.append_assoc]
    have h0a : issued s sa = ea := issued_of_log s sa ea hla
    have ha1 : issued sa s1 = eb := issued_of_log sa s1 eb hlb
    intro x hx
    rcases List.mem_cons.1 hx with hxy | hxr
    · subst hxy
      have hok : (reconcileNIC c scope x s).1 = Res.ok () := by rw [hy]
      obtain ⟨nicConfig, accel, -, -, hiss, -⟩ := reconcileNIC_created c scope x s hok
      refine ⟨interfaceFor scope nicConfig accel, ?_⟩
      rw [hy] at hiss
      simp only at hiss
      rw [h01, ← h0a, hiss]
      simp
    · obtain ⟨nic, hmem⟩ := ih sa hrest x hxr
      refine ⟨nic, ?_⟩
      rw [h01]
      rw [ha1] at hmem
      exact List.mem_append_right _ hmem

end FailFastLemmas

/-- C14: `Service.Reconcile` is fail-fast.  When the specs before spec `sp` are
processed successfully and a lookup of `sp` (subnet, public load balancer, NAT
rule creation, internal load balancer, public IP, accelerated networking
capability) returns the error `e`, then `Reconcile` returns `e` and ends in the
state the lookup left: no request is issued after it, for `sp` or for a later
spec; no interface request is issued for `sp`; each earlier spec has had its
interface request issued with success and no delete request is issued at all;
and a client error in the log is its last entry, the one `e` annotates. -/
theorem ServiceReconcile_fail_fast {σ : Type} (c : Clients σ) (scope : NICScope)
    (pre post : List NICSpec) (sp : NICSpec) (s s1 s2 : NicState σ) (e : Error)
    (hspecs : scope.NICSpecs = pre ++ sp :: post)
    (hpre : Prog.forEach (reconcileNIC c scope) pre s = (Res.ok (), s1))
    (hfail : nicLookups c scope sp s1 = (Res.err e, s2)) :
    Service.Reconcile c scope s = (Res.err e, s2) ∧
    issued s s2 = issued s s1 ++ issued s1 s2 ∧
    (∀ ev ∈ issued s1 s2, ev.1.isNicPut = false) ∧
    (∀ x ∈ pre, ∃ nic,
      (NicCall.nicCreateOrUpdate scope.ResourceGroup x.Name nic, none) ∈ issued s s1) ∧
    (∀ ev ∈ issued s s2, ev.1.isDelete = false) ∧
    (∀ (p q : List (NicCall × Option Error)) (call : NicCall) (e0 : Error),
      issued s s2 = p ++ (call, some e0) :: q → q = [] ∧ Annotates e0 e) := by
  have hrun : Service.Reconcile c scope s = (Res.err e, s2) := by
    unfold Service.Reconcile
    rw [hspecs, forEach_append, andThen_ok _ _ s s1 () hpre]
    simp only [Prog.forEach]
    rw [reconcileNIC_eq, andThen_assoc]
    exact andThen_err _ _ s1 s2 e hfail
  obtain ⟨ea, hla, -⟩ :=
    logs_forEach (fun x => x.isDelete = false) (reconcileNIC c scope)
      (logs_reconcileNIC c scope) pre s
  obtain ⟨eb, hlb, hkb⟩ := logs_nicLookups c scope sp s1
  rw [hpre] at hla
  rw [hfail] at hlb
  simp only at hla hlb
  have h02 : issued s s2 = ea ++ eb := by
    apply issued_of_log
    rw [hlb, hla, List.append_assoc]
  have h01 : issued s s1 = ea := issued_of_log s s1 ea hla
  have h12 : issued s1 s2 = eb := issued_of_log s1 s2 eb hlb
  refine ⟨hrun, ?_, ?_, forEach_created c scope pre s s1 hpre, ?_, ?_⟩
  · rw [h02, h01, h12]
  · intro ev hev
    rw [h12] at hev
    exact (hkb ev hev).1
  · obtain ⟨evs, hlog, hk⟩ :=
      logs_forEach (fun x => x.isDelete = false) (reconcileNIC c scope)
        (logs_reconcileNIC c scope) scope.NICSpecs s
    have hrun2 : Prog.forEach (reconcileNIC c scope) scope.NICSpecs s = (Res.err e, s2) := hrun
    rw [hrun2] at hlog
    simp only at hlog
    intro ev hev
    rw [issued_of_log s s2 evs hlog] at hev
    exact hk ev hev
  · intro p q call e0 hsplit
    obtain ⟨evs, hlog, hff⟩ :=
      failFast_forEach tolNone (reconcileNIC c scope) (failFast_reconcileNIC c scope)
        scope.NICSpecs s
    have hrun2 : Prog.forEach (reconcileNIC c scope) scope.NICSpecs s = (Res.err e, s2) := hrun
    rw [hrun2] at hlog hff
    simp only at hlog hff
    rw [issued_of_log s s2 evs hlog] at hsplit
    rcases hff with htol | ⟨pre1, call1, e1, hevs, hne, hpre1, e2, hres, hann⟩
    · have hmem : (call, some e0) ∈ evs := by
        rw [hsplit]
        simp
      have := htol _ hmem e0 rfl
      cases this
    · rw [hevs] at hsplit
      obtain ⟨hq, he⟩ := nic_untolerated_last tolNone p q pre1 call call1 e0 e1 hsplit.symm
        hpre1 rfl
      cases hres
      subst he
      exact ⟨hq, hann⟩

/-- Witness of C14: of three specs the second asks for a public IP that does
not exist; the interface of the first is created, the lookup of the public IP
fails, `Reconcile` returns the annotated error and nothing is issued for the
second interface or for the third spec. -/
theorem ServiceReconcile_fail_fast_witness :
    Service.Reconcile remoteClients threeNICScope sampleStart =
        (Res.err (Wrap notFoundError "failed to get publicIP"),
         (nicLookups remoteClients threeNICScope publicIPNIC
           (Prog.forEach (reconcileNIC remoteClients threeNICScope) [plainNIC]
             sampleStart).2).2) ∧
    requestsOf (issued sampleStart
        (Service.Reconcile remoteClients threeNICScope sampleStart).2) =
      [NicCall.subnetGet "rg" "demo-vnet" "node-subnet",
       NicCall.hasAcceleratedNetworking "Standard_B2s",
       NicCall.nicCreateOrUpdate "rg" "node0-nic"
         (interfaceFor threeNICScope
           { Subnet := some ⟨some "/subnet"⟩
             PrivateIPAllocationMethod := IPAllocationMethod.Dynamic
             PrivateIPAddress := none
             LoadBalancerBackendAddressPools := some []
             LoadBalancerInboundNatRules := none
             PublicIPAddress := none } (some false)),
       NicCall.subnetGet "rg" "demo-vnet" "node-subnet",
       NicCall.publicIPGet "rg" "pip0"] :=
  ⟨(ServiceReconcile_fail_fast remoteClients threeNICScope [plainNIC] [sampleNIC]
      publicIPNIC sampleStart
      (Prog.forEach (reconcileNIC remoteClients threeNICScope) [plainNIC] sampleStart).2
      (nicLookups remoteClients threeNICScope publicIPNIC
        (Prog.forEach (reconcileNIC remoteClients threeNICScope) [plainNIC] sampleStart).2).2
      (Wrap notFoundError "failed to get publicIP")
      rfl (Prod.ext (by decide) rfl) (Prod.ext (by decide) rfl)).1,
   by decide⟩

/-- C21, the code at the failing input: a load balancer with properties and an
empty rule list, so that port 22 is free and no rule has the target name, whose
frontend IP configurations are absent or empty.  Whatever the clients, the
scope, the rule name and the run state are, `createInboundNatRule` panics at
the access to the first frontend IP configuration; it returns no error, and the
run state, hence the log, is as before. -/
theorem createInboundNatRule_no_frontend_panics :
    selectFrontendPort [] = some 22 ∧
    (∀ (σ : Type) (c : Clients σ) (scope : NICScope) (ruleName : String) (s : NicState σ),
      createInboundNatRule c scope noFrontendLB ruleName s = (Res.panic, s)) ∧
    (∀ (σ : Type) (c : Clients σ) (scope : NICScope) (ruleName : String) (s : NicState σ),
      createInboundNatRule c scope emptyFrontendLB ruleName s = (Res.panic, s)) ∧
    (createInboundNatRule sampleClients sampleScope noFrontendLB "cp0" startState).1 =
      Res.panic ∧
    issued startState
      (createInboundNatRule sampleClients sampleScope noFrontendLB "cp0" startState).2 = [] :=
  ⟨by decide, fun _ _ _ _ _ => rfl, fun _ _ _ _ _ => rfl, by decide, by decide⟩

section Reports

variable {σ : Type}

theorem wrap_wrap (e : Error) (inner outer : String) :
    Wrap (Wrap e inner) outer = Wrap e (outer ++ ": " ++ inner) := by
  simp [Wrap, String.append_assoc]

theorem stepwise_ret (tol : Error → Bool) :
    Stepwise tol [] [] (Prog.ret () : Prog (ClusterState σ) Unit) := by
  intro s
  refine ⟨[], by simp [Prog.ret], Or.inl ⟨rfl, rfl, ?_⟩⟩
  intro ev hev
  cases hev

theorem stepwise_reconcileStep (sv : Services σ) (svc : Svc) (spec : Spec) (msg : String) :
    Stepwise tolNone [ClusterCall.reconcile svc spec] [msg] (reconcileStep sv svc spec msg) := by
  intro s
  unfold reconcileStep
  cases h : (sv.Reconcile svc spec s.world).1 with
  | none =>
    refine ⟨[(ClusterCall.reconcile svc spec, none)], rfl, Or.inl ⟨rfl, rfl, ?_⟩⟩
    intro ev hev
    rw [List.mem_singleton] at hev
    subst hev
    exact tolerated_none _ _
  | some err =>
    refine ⟨[(ClusterCall.reconcile svc spec, some err)], rfl, Or.inr ?_⟩
    refine ⟨[], ClusterCall.reconcile svc spec, err, [], rfl, rfl, ?_, rfl, msg, rfl, rfl⟩
    intro ev hev
    cases hev

theorem stepwise_deleteStep (sv : Services σ) (svc : Svc) (spec : Spec) (msg : String) :
    Stepwise ResourceNotFound [ClusterCall.delete svc spec] [msg]
      (deleteStep sv svc spec msg) := by
  intro s
  unfold deleteStep
  cases h : (sv.Delete svc spec s.world).1 with
  | none =>
    refine ⟨[(ClusterCall.delete svc spec, none)], rfl, Or.inl ⟨rfl, rfl, ?_⟩⟩
    intro ev hev
    rw [List.mem_singleton] at hev
    subst hev
    exact tolerated_none _ _
  | some err =>
    cases hnf : ResourceNotFound err with
    | true =>
      refine ⟨[(ClusterCall.delete svc spec, some err)], ?_, Or.inl ⟨?_, rfl, ?_⟩⟩
      · simp [hnf]
      · simp [hnf]
      · intro ev hev
        rw [List.mem_singleton] at hev
        subst hev
        exact (tolerated_some _ _ _).2 hnf
    | false =>
      refine ⟨[(ClusterCall.delete svc spec, some err)], ?_, Or.inr ?_⟩
      · simp [hnf]
      · refine ⟨[], ClusterCall.delete svc spec, err, [], rfl, hnf, ?_, rfl, msg, rfl, ?_⟩
        · intro ev hev
          cases hev
        · simp [hnf]

theorem stepwise_zones (sv : Services σ) (msg : String) :
    Stepwise tolNone [ClusterCall.get Svc.availZoneSvc Spec.availabilityZones] [msg]
      (orWrap (setFailureDomainsForLocation sv) msg) := by
  intro s
  unfold orWrap setFailureDomainsForLocation
  cases h : (sv.Get Svc.availZoneSvc Spec.availabilityZones s.world).1 with
  | ok zones =>
    refine ⟨[(ClusterCall.get Svc.availZoneSvc Spec.availabilityZones, none)], rfl,
      Or.inl ⟨rfl, rfl, ?_⟩⟩
    intro ev hev
    rw [List.mem_singleton] at hev
    subst hev
    exact tolerated_none _ _
  | error err =>
    refine ⟨[(ClusterCall.get Svc.availZoneSvc Spec.availabilityZones, some err)], rfl,
      Or.inr ?_⟩
    refine ⟨[], _, err, [], rfl, rfl, ?_, rfl, msg, rfl, rfl⟩
    intro ev hev
    cases hev

theorem stepwise_andThen (tol : Error → Bool) (l1 l2 : List ClusterCall)
    (ms1 ms2 : List String) (m1 m2 : Prog (ClusterState σ) Unit)
    (hlen : ms1.length = l1.length)
    (h1 : Stepwise tol l1 ms1 m1) (h2 : Stepwise tol l2 ms2 m2) :
    Stepwise tol (l1 ++ l2) (ms1 ++ ms2) (Prog.andThen m1 (fun _ => m2)) := by
  intro s
  obtain ⟨evs1, hlog1, hcase1⟩ := h1 s
  unfold Prog.andThen
  rcases hcase1 with ⟨hok, hcalls, htol⟩ |
    ⟨pre, c, e, rest, hevs, hne, hpre, hcalls, msg, hmsg, herr⟩
  · rcases hm : m1 s with ⟨r1, s1⟩
    rw [hm] at hok hlog1
    simp only at hok hlog1
    subst hok
    simp only
    obtain ⟨evs2, hlog2, hcase2⟩ := h2 s1
    refine ⟨evs1 ++ evs2, by rw [hlog2, hlog1, List.append_assoc], ?_⟩
    rcases hcase2 with ⟨hok2, hcalls2, htol2⟩ |
      ⟨pre, c, e, rest, hevs, hne, hpre, hcalls2, msg, hmsg, herr⟩
    · refine Or.inl ⟨hok2, by rw [List.map_append, hcalls, hcalls2], ?_⟩
      intro ev hev
      rcases List.mem_append.1 hev with h | h
      · exact htol ev h
      · exact htol2 ev h
    · refine Or.inr ⟨evs1 ++ pre, c, e, rest, by rw [hevs, List.append_assoc], hne, ?_, ?_,
        msg, ?_, herr⟩
      · intro ev hev
        rcases List.mem_append.1 hev with h | h
        · exact htol ev h
        · exact hpre ev h
      · rw [List.map_append, hcalls, hcalls2, List.append_assoc]
      · have hl : evs1.length = ms1.length := by
          rw [hlen, ← hcalls, List.length_map]
        rw [List.length_append, hl, List.getElem?_append_right (Nat.le_add_right _ _),
          Nat.add_sub_cancel_left]
        exact hmsg
  · rcases hm : m1 s with ⟨r1, s1⟩
    rw [hm] at herr hlog1
    simp only at herr hlog1
    subst herr
    simp only
    refine ⟨evs1, hlog1, Or.inr ⟨pre, c, e, rest ++ l2, hevs, hne, hpre, ?_, msg, ?_, rfl⟩⟩
    · rw [hcalls, List.append_assoc, List.cons_append]
    · have hlt : pre.length < ms1.length := by
        by_contra hge
        rw [List.getElem?_eq_none (Nat.le_of_not_lt hge)] at hmsg
        cases hmsg
      rw [List.getElem?_append_left hlt]
      exact hmsg

theorem stepwise_orWrap (tol : Error → Bool) (l : List ClusterCall) (ms : List String)
    (m : Prog (ClusterState σ) Unit) (msg : String) (h : Stepwise tol l ms m) :
    Stepwise tol l (ms.map (fun m0 => msg ++ ": " ++ m0)) (orWrap m msg) := by
  intro s
  obtain ⟨evs, hlog, hcase⟩ := h s
  unfold orWrap
  rcases hm : m s with ⟨r1, s1⟩
  rw [hm] at hlog hcase
  simp only at hlog hcase
  rcases hcase with ⟨hok, hcalls, htol⟩ |
    ⟨pre, c, e, rest, hevs, hne, hpre, hcalls, m0, hm0, herr⟩
  · subst hok
    exact ⟨evs, hlog, Or.inl ⟨rfl, hcalls, htol⟩⟩
  · subst herr
    refine ⟨evs, hlog, Or.inr ⟨pre, c, e, rest, hevs, hne, hpre, hcalls,
      msg ++ ": " ++ m0, ?_, ?_⟩⟩
    · rw [List.getElem?_map, hm0]
      rfl
    · simp only
      rw [wrap_wrap]

theorem stepwise_forEach {α : Type} (tol : Error → Bool) (f : α → ClusterCall)
    (g : α → String) (body : α → Prog (ClusterState σ) Unit)
    (h : ∀ x, Stepwise tol [f x] [g x] (body x)) (xs : List α) :
    Stepwise tol (xs.map f) (xs.map g) (Prog.forEach body xs) := by
  induction xs with
  | nil => exact stepwise_ret tol
  | cons x rest ih =>
    exact stepwise_andThen tol [f x] (rest.map f) [g x] (rest.map g) _ _ rfl (h x) ih

theorem stepwise_step_then (l : List ClusterCall) (ms : List String) (sv : Services σ)
    (svc : Svc) (spec : Spec) (msg : String) (m : Prog (ClusterState σ) Unit)
    (h : Stepwise tolNone l ms m) :
    Stepwise tolNone (ClusterCall.reconcile svc spec :: l) (msg :: ms)
      (Prog.andThen (reconcileStep sv svc spec msg) (fun _ => m)) :=
  stepwise_andThen tolNone [_] l [_] ms _ _ rfl (stepwise_reconcileStep sv svc spec msg) h

theorem stepwise_delete_then (l : List ClusterCall) (ms : List String) (sv : Services σ)
    (svc : Svc) (spec : Spec) (msg : String) (m : Prog (ClusterState σ) Unit)
    (h : Stepwise ResourceNotFound l ms m) :
    Stepwise ResourceNotFound (ClusterCall.delete svc spec :: l) (msg :: ms)
      (Prog.andThen (deleteStep sv svc spec msg) (fun _ => m)) :=
  stepwise_andThen ResourceNotFound [_] l [_] ms _ _ rfl (stepwise_deleteStep sv svc spec msg) h

/-- The steps of `Reconcile` after the name derivation are the calls
`reconcileCalls` with the annotations `reconcileMessages`. -/
theorem Reconcile_reported (nm : Naming) (sv : Services σ) (s : ClusterState σ) :
    Reported tolNone (reconcileCalls nm (createOrUpdateNetworkAPIServerIP nm s.scope))
      (reconcileMessages (createOrUpdateNetworkAPIServerIP nm s.scope)) s.log
      (Reconcile nm sv s) := by
  unfold Reconcile
  simp only [Prog.bind_eq]
  rw [andThen_modifyScope, andThen_getScope]
  refine (?_ : Stepwise tolNone
    (reconcileCalls nm (createOrUpdateNetworkAPIServerIP nm s.scope))
    (reconcileMessages (createOrUpdateNetworkAPIServerIP nm s.scope)) _) _
  unfold reconcileCalls reconcileMessages
  simp only [List.cons_append, List.nil_append]
  refine stepwise_andThen _ [_] _ [_] _ _ _ rfl (stepwise_zones sv _) ?_
  iterate 10 refine stepwise_step_then _ _ sv _ _ _ _ ?_
  cases (createOrUpdateNetworkAPIServerIP nm s.scope).IsIPV6Enabled with
  | true =>
    simp only [if_true]
    refine stepwise_step_then _ _ sv _ _ _ _ ?_
    exact stepwise_reconcileStep sv _ _ _
  | false =>
    simp only [Bool.false_eq_true, if_false]
    exact stepwise_ret tolNone

/-- The steps of `Delete` are the calls `deleteCalls` with the annotations
`deleteMessages`, a not-found error being tolerated. -/
theorem Delete_reported (nm : Naming) (sv : Services σ) (s : ClusterState σ) :
    Reported ResourceNotFound (deleteCalls nm s.scope) (deleteMessages nm s.scope) s.log
      (Delete nm sv s) := by
  have hLB : Stepwise ResourceNotFound
      [ ClusterCall.delete Svc.publicLBSvc (Spec.publicLB
          { Name := nm.GeneratePublicLBName s.scope.Name
            PublicIPName := ""
            IsAPIServer := false }),
        ClusterCall.delete Svc.publicIPSvc (Spec.publicIP
          { Name := s.scope.APIServerIP.Name
            DNSName := ""
            IsIPV6 := false }),
        ClusterCall.delete Svc.internalLBSvc (Spec.internalLB
          { Name := nm.GenerateInternalLBName s.scope.Name
            SubnetName := ""
            SubnetCidr := ""
            VnetName := ""
            IPAddress := "" }) ]
      ([ "failed to delete lb " ++ nm.GeneratePublicLBName s.scope.Name ++ " for cluster "
          ++ s.scope.Name,
        "failed to delete public ip " ++ s.scope.APIServerIP.Name ++ " for cluster "
          ++ s.scope.Name,
        "failed to internal load balancer " ++ nm.GenerateInternalLBName s.scope.Name
          ++ " for cluster " ++ s.scope.Name ].map
        (fun m0 => "failed to delete load balancer" ++ ": " ++ m0))
      (orWrap (deleteLB nm sv s.scope) "failed to delete load balancer") := by
    refine stepwise_orWrap _ _ _ _ _ ?_
    unfold deleteLB
    simp only [Prog.bind_eq]
    iterate 2 refine stepwise_delete_then _ _ sv _ _ _ _ ?_
    exact stepwise_deleteStep sv _ _ _
  have hSub : Stepwise ResourceNotFound
      (s.scope.Subnets.map
        (fun sn => ClusterCall.delete Svc.subnetsSvc (subnetDeleteSpec s.scope sn)))
      ((s.scope.Subnets.map
        (fun sn => "failed to delete " ++ sn.Name ++ " subnet for cluster " ++ s.scope.Name)).map
        (fun m0 => "failed to delete subnets" ++ ": " ++ m0))
      (orWrap (deleteSubnets sv s.scope) "failed to delete subnets") := by
    refine stepwise_orWrap _ _ _ _ _ ?_
    unfold deleteSubnets
    exact stepwise_forEach _ _ _ _ (fun sn => stepwise_deleteStep sv _ _ _) _
  have hNSG : Stepwise ResourceNotFound
      [ ClusterCall.delete Svc.securityGroupSvc (Spec.securityGroup
          { Name := s.scope.NodeSubnet.SecurityGroup.Name
            IsControlPlane := false }),
        ClusterCall.delete Svc.securityGroupSvc (Spec.securityGroup
          { Name := s.scope.ControlPlaneSubnet.SecurityGroup.Name
            IsControlPlane := false }) ]
      ([ "failed to delete security group " ++ s.scope.NodeSubnet.SecurityGroup.Name
          ++ " for cluster " ++ s.scope.Name,
        "failed to delete security group " ++ s.scope.ControlPlaneSubnet.SecurityGroup.Name
          ++ " for cluster " ++ s.scope.Name ].map
        (fun m0 => "failed to delete network security group" ++ ": " ++ m0))
      (orWrap (deleteNSG sv s.scope) "failed to delete network security group") := by
    refine stepwise_orWrap _ _ _ _ _ ?_
    unfold deleteNSG
    simp only [Prog.bind_eq]
    refine stepwise_delete_then _ _ sv _ _ _ _ ?_
    exact stepwise_deleteStep sv _ _ _
  rw [List.map_map] at hSub
  unfold Delete
  simp only [Prog.bind_eq]
  rw [andThen_getScope]
  refine (?_ : Stepwise ResourceNotFound (deleteCalls nm s.scope)
    (deleteMessages nm s.scope) _) _
  unfold deleteCalls deleteMessages
  rw [List.append_assoc, List.append_assoc]
  refine stepwise_andThen _ _ _ _ _ _ _ rfl hLB
    (stepwise_andThen _ _ _ _ _ _ _ (by simp) hSub ?_)
  refine stepwise_delete_then _ _ sv _ _ _ _ ?_
  refine stepwise_andThen _ [_, _] [_, _] [_, _] [_, _] _ _ rfl hNSG ?_
  refine stepwise_delete_then _ _ sv _ _ _ _ ?_
  exact stepwise_deleteStep sv _ _ _

/-- A call that returns an untolerated error is the last one; it is the call
of the sequence at its position, and the error returned is its error annotated
with the message at that position. -/
theorem reported_abort (tol : Error → Bool) (calls : List ClusterCall) (msgs : List String)
    (log0 : List (ClusterCall × Option Error)) (r : Res Unit × ClusterState σ)
    (h : Reported tol calls msgs log0 r) (p q : List (ClusterCall × Option Error))
    (c : ClusterCall) (e : Error)
    (hsplit : r.2.log.drop log0.length = p ++ (c, some e) :: q) (hne : tol e = false) :
    q = [] ∧ ∃ msg, calls[p.length]? = some c ∧ msgs[p.length]? = some msg ∧
      r.1 = Res.err (Wrap e msg) := by
  obtain ⟨evs, hlog, hcase⟩ := h
  rw [hlog, drop_log] at hsplit
  rcases hcase with ⟨-, -, htol⟩ | ⟨pre, c0, e0, rest, hevs, -, hpre, hcalls, msg, hmsg, herr⟩
  · have := (tolerated_some tol c e).1 (htol (c, some e) (by rw [hsplit]; simp))
    rw [hne] at this
    cases this
  · rw [hevs] at hsplit
    obtain ⟨hq, he⟩ := untolerated_last tol p q pre c c0 e e0 hsplit.symm hpre hne
    subst he hq
    obtain ⟨hp, hc⟩ := List.append_inj' hsplit rfl
    simp only [List.cons.injEq, Prod.mk.injEq, and_true] at hc
    subst hp hc
    refine ⟨rfl, msg, ?_, hmsg, herr⟩
    rw [hcalls, List.getElem?_append_right (by rw [List.length_map]), List.length_map,
      Nat.sub_self, List.getElem?_cons_zero]

theorem mentions_self (w : String) : Mentions w w := List.infix_refl _

theorem mentions_left (a b w : String) (h : Mentions a w) : Mentions (a ++ b) w := by
  unfold Mentions at h ⊢
  obtain ⟨s, t, hst⟩ := h
  exact ⟨s, t ++ b.data, by rw [String.data_append, ← hst]; simp⟩

theorem mentions_right (a b w : String) (h : Mentions b w) : Mentions (a ++ b) w := by
  unfold Mentions at h ⊢
  obtain ⟨s, t, hst⟩ := h
  exact ⟨a.data ++ s, t, by rw [String.data_append, ← hst]; simp⟩

/-- The annotation of every step of `Reconcile` names the operation, the kind
of the resource and the cluster; the one of the route table step names the
route table as well. -/
theorem reconcileSteps_mention (nm : Naming) (sc : ClusterScope) :
    ∀ st ∈ reconcileSteps nm sc,
      Mentions st.2 st.1.operation ∧ Mentions st.2 st.1.svc.kind ∧ Mentions st.2 sc.Name ∧
      (st.1.svc = Svc.routeTableSvc → Mentions st.2 st.1.spec.name) := by
  intro st hst
  unfold reconcileSteps reconcileCalls reconcileMessages at hst
  cases hv6 : sc.IsIPV6Enabled
  all_goals
    simp only [hv6, if_true, Bool.false_eq_true, if_false, List.cons_append, List.nil_append,
      List.append_nil, List.zip_cons_cons, List.zip_nil_right, List.mem_cons,
      List.not_mem_nil, or_false] at hst
  · obtain rfl | rfl | rfl | rfl | rfl | rfl | rfl | rfl | rfl | rfl | rfl := hst
    all_goals refine ⟨?_, ?_, ?_, ?_⟩
    all_goals
      try simp only [ClusterCall.operation, ClusterCall.svc, ClusterCall.spec, Svc.kind,
        Spec.name, String.append_assoc, reduceCtorEq, false_implies, true_implies]
    all_goals
      repeat (first
        | exact mentions_self _
        | exact mentions_left _ _ _ (mentions_self _)
        | exact mentions_left _ _ _ (by decide)
        | apply mentions_right)
  · obtain rfl | rfl | rfl | rfl | rfl | rfl | rfl | rfl | rfl | rfl | rfl | rfl | rfl := hst
    all_goals refine ⟨?_, ?_, ?_, ?_⟩
    all_goals
      try simp only [ClusterCall.operation, ClusterCall.svc, ClusterCall.spec, Svc.kind,
        Spec.name, String.append_assoc, reduceCtorEq, false_implies, true_implies]
    all_goals
      repeat (first
        | exact mentions_self _
        | exact mentions_left _ _ _ (mentions_self _)
        | exact mentions_left _ _ _ (by decide)
        | apply mentions_right)

/-- The annotation of every step of `Delete` names the operation, the kind of
the resource and the cluster; except for the resource group, it names the
resource as well. -/
theorem deleteSteps_mention (nm : Naming) (sc : ClusterScope) :
    ∀ st ∈ deleteSteps nm sc,
      Mentions st.2 st.1.operation ∧ Mentions st.2 st.1.svc.kind ∧ Mentions st.2 sc.Name ∧
      (st.1.svc ≠ Svc.groupsSvc → Mentions st.2 st.1.spec.name) := by
  intro st hst
  unfold deleteSteps deleteCalls deleteMessages at hst
  rw [List.zip_append (by simp), List.zip_append (by simp), List.zip_map'] at hst
  simp only [List.zip_cons_cons, List.zip_nil_right, List.mem_append, List.mem_cons,
    List.mem_map, List.not_mem_nil, or_false] at hst
  obtain ((rfl | rfl | rfl) | ⟨sn, -, rfl⟩) | rfl | rfl | rfl | rfl | rfl := hst
  all_goals refine ⟨?_, ?_, ?_, ?_⟩
  all_goals
    try simp only [ClusterCall.operation, ClusterCall.svc, ClusterCall.spec, Svc.kind,
      Spec.name, subnetDeleteSpec, String.append_assoc, reduceCtorEq, not_false_eq_true,
      ne_eq, not_true_eq_false, false_implies, true_implies]
  all_goals
    repeat (first
      | exact mentions_self _
      | exact mentions_left _ _ _ (mentions_self _)
      | exact mentions_left _ _ _ (by decide)
      | apply mentions_right)

end Reports

/-- C22 as stated fails: in the cluster `demo` the virtual network `demo-vnet`
fails to reconcile with the error `boom`; the error `Reconcile` returns names
the operation, the kind and the cluster, and does not contain the name of the
virtual network. -/
theorem Reconcile_error_message_counterexample :
    (Reconcile sampleNaming (failingServices Svc.vnetSvc ⟨"boom", false⟩) (demoState false)).1 =
      Res.err ⟨"failed to reconcile virtual network for cluster demo: boom", false⟩ ∧
    (issuedCalls (demoState false)
        (Reconcile sampleNaming (failingServices Svc.vnetSvc ⟨"boom", false⟩)
          (demoState false)).2).getLast? =
      some (ClusterCall.reconcile Svc.vnetSvc
        (Spec.vnet ⟨"rg", "demo-vnet", ["10.0.0.0/16"]⟩), some ⟨"boom", false⟩) ∧
    ¬ Mentions "failed to reconcile virtual network for cluster demo: boom" "demo-vnet" := by
  decide

/-- C22, amended: a call of `Reconcile`, or of `Delete`, that returns an error
which is not tolerated is the last call, and the error returned to the caller
is that error annotated with the message of the step, which names the
operation, the kind of the resource and the cluster; the message names the
failing resource itself in the route table step of `Reconcile` and in every
step of `Delete` but the resource group. -/
theorem cluster_error_annotated {σ : Type} (nm : Naming) (sv : Services σ)
    (s : ClusterState σ) :
    (∀ (p q : List (ClusterCall × Option Error)) (c : ClusterCall) (e : Error),
      issuedCalls s (Reconcile nm sv s).2 = p ++ (c, some e) :: q →
      q = [] ∧ ∃ msg, (Reconcile nm sv s).1 = Res.err (Wrap e msg) ∧
        (reconcileSteps nm (createOrUpdateNetworkAPIServerIP nm s.scope))[p.length]? =
          some (c, msg) ∧
        Mentions msg c.operation ∧ Mentions msg c.svc.kind ∧ Mentions msg s.scope.Name ∧
        (c.svc = Svc.routeTableSvc → Mentions msg c.spec.name)) ∧
    (∀ (p q : List (ClusterCall × Option Error)) (c : ClusterCall) (e : Error),
      issuedCalls s (Delete nm sv s).2 = p ++ (c, some e) :: q →
      ResourceNotFound e = false →
      q = [] ∧ ∃ msg, (Delete nm sv s).1 = Res.err (Wrap e msg) ∧
        (deleteSteps nm s.scope)[p.length]? = some (c, msg) ∧
        Mentions msg c.operation ∧ Mentions msg c.svc.kind ∧ Mentions msg s.scope.Name ∧
        (c.svc ≠ Svc.groupsSvc → Mentions msg c.spec.name)) := by
  constructor
  · intro p q c e hsplit
    obtain ⟨hq, msg, hc, hmsg, herr⟩ :=
      reported_abort tolNone _ _ s.log _ (Reconcile_reported nm sv s) p q c e hsplit rfl
    have hzip : (reconcileSteps nm (createOrUpdateNetworkAPIServerIP nm s.scope))[p.length]? =
        some (c, msg) := by
      unfold reconcileSteps
      rw [List.getElem?_zip_eq_some]
      exact ⟨hc, hmsg⟩
    obtain ⟨h1, h2, h3, h4⟩ := reconcileSteps_mention nm _ (c, msg)
      (List.getElem?_mem hzip)
    have hname : (createOrUpdateNetworkAPIServerIP nm s.scope).Name = s.scope.Name := by
      unfold createOrUpdateNetworkAPIServerIP
      split <;> rfl
    rw [hname] at h3
    exact ⟨hq, msg, herr, hzip, h1, h2, h3, h4⟩
  · intro p q c e hsplit hne
    obtain ⟨hq, msg, hc, hmsg, herr⟩ :=
      reported_abort ResourceNotFound _ _ s.log _ (Delete_reported nm sv s) p q c e hsplit hne
    have hzip : (deleteSteps nm s.scope)[p.length]? = some (c, msg) := by
      unfold deleteSteps
      rw [List.getElem?_zip_eq_some]
      exact ⟨hc, hmsg⟩
    obtain ⟨h1, h2, h3, h4⟩ := deleteSteps_mention nm _ (c, msg) (List.getElem?_mem hzip)
    exact ⟨hq, msg, herr, hzip, h1, h2, h3, h4⟩

/-- Witness of C22: the route table `rt` of the cluster `demo` fails to
reconcile; the message of the error returned names the route table. -/
theorem cluster_error_annotated_witness :
    (Reconcile sampleNaming (failingServices Svc.routeTableSvc ⟨"boom", false⟩)
        (demoState false)).1 =
      Res.err ⟨"failed to reconcile route table rt for cluster demo: boom", false⟩ ∧
    ∃ msg, (Reconcile sampleNaming (failingServices Svc.routeTableSvc ⟨"boom", false⟩)
        (demoState false)).1 = Res.err (Wrap ⟨"boom", false⟩ msg) ∧ Mentions msg "rt" :=
  ⟨by decide,
   (((cluster_error_annotated sampleNaming
      (failingServices Svc.routeTableSvc ⟨"boom", false⟩) (demoState false)).1
      [(ClusterCall.get Svc.availZoneSvc Spec.availabilityZones, none),
       (ClusterCall.reconcile Svc.groupsSvc Spec.nil, none),
       (ClusterCall.reconcile Svc.vnetSvc (Spec.vnet ⟨"rg", "demo-vnet", ["10.0.0.0/16"]⟩), none),
       (ClusterCall.reconcile Svc.securityGroupSvc (Spec.securityGroup ⟨"cp-nsg", true⟩), none),
       (ClusterCall.reconcile Svc.securityGroupSvc (Spec.securityGroup ⟨"node-nsg", false⟩),
         none)]
      [] (ClusterCall.reconcile Svc.routeTableSvc (Spec.routeTable ⟨"rt"⟩)) ⟨"boom", false⟩
      (by decide)).2).imp (fun _ h => ⟨h.1, h.2.2.2.2.2 rfl⟩)⟩

/-- C23, the code at the failing input: for the cluster named `cluster`, with
IPv6 enabled and no API-server IP name, the API-server name is derived from the
cluster name and the hash, the egress name from the constant `cluster` and the
same hash, whatever the name helper is; with services that all succeed,
`Reconcile` passes the same public IP name to the public IP service twice, the
second time with an empty DNS name. -/
theorem Reconcile_cluster_named_cluster :
    (∀ nm : Naming,
      (createOrUpdateNetworkAPIServerIP nm clusterNamedCluster).APIServerIP.Name =
        nm.GeneratePublicIPName "cluster" (clusterHash clusterNamedCluster)) ∧
    clusterHash clusterNamedCluster = "3c7f61b4" ∧
    (Reconcile sampleNaming (okServices []) ⟨clusterNamedCluster, (), []⟩).1 = Res.ok () ∧
    (issuedCalls ⟨clusterNamedCluster, (), []⟩
        (Reconcile sampleNaming (okServices []) ⟨clusterNamedCluster, (), []⟩).2).filterMap
      (fun ev =>
        match ev.1 with
        | ClusterCall.reconcile Svc.publicIPSvc (Spec.publicIP sp) => some sp
        | _ => none) =
      [⟨"cluster-3c7f61b4", "cluster-3c7f61b4.westus.cloudapp.azure.com", false⟩,
       ⟨"cluster-3c7f61b4", "", false⟩] :=
  ⟨fun _ => rfl, by decide, by decide, by decide⟩

/-! ### The second call returns success -/

theorem keeps_of_world (s t : NicState Remote) (h : t.world = s.world) : Keeps s t := by
  refine ⟨by rw [h], by rw [h], by rw [h], ?_⟩
  intro rg name lb1 h1
  exact ⟨lb1, by rw [h]; exact h1, rfl, fun _ hn => hn⟩

theorem keeps_refl (s : NicState Remote) : Keeps s s := keeps_of_world s s rfl

theorem keeps_trans (s t u : NicState Remote) (h1 : Keeps s t) (h2 : Keeps t u) :
    Keeps s u := by
  obtain ⟨a1, b1, c1, d1⟩ := h1
  obtain ⟨a2, b2, c2, d2⟩ := h2
  refine ⟨a2.trans a1, b2.trans b1, c2.trans c1, ?_⟩
  intro rg name lb1 hlb1
  obtain ⟨lb2, hlb2, hp2, hr2⟩ := d1 rg name lb1 hlb1
  obtain ⟨lb3, hlb3, hp3, hr3⟩ := d2 rg name lb2 hlb2
  exact ⟨lb3, hlb3, hp3.trans hp2, fun n hn => hr3 n (hr2 n hn)⟩

theorem poolAt_keeps (s t : NicState Remote) (rg name : String) (need : Option String)
    (hk : Keeps s t) (h : PoolAt s.world rg name need) : PoolAt t.world rg name need := by
  obtain ⟨lb, pool, hlb, hpool, hneed⟩ := h
  obtain ⟨lb2, hlb2, hp2, hr2⟩ := hk.2.2.2 rg name lb hlb
  exact ⟨lb2, pool, hlb2, hp2.trans hpool, fun n hn => hr2 n (hneed n hn)⟩

theorem ready_keeps (s t : NicState Remote) (rg : String) (sp : NICSpec)
    (hk : Keeps s t) (h : Ready s.world rg sp) : Ready t.world rg sp := by
  obtain ⟨h1, h2, h3, h4, h5⟩ := h
  refine ⟨?_, fun hn => poolAt_keeps s t _ _ _ hk (h2 hn),
    fun hn => poolAt_keeps s t _ _ _ hk (h3 hn), ?_, ?_⟩
  · rw [hk.1]
    exact h1
  · rw [hk.2.1]
    exact h4
  · rw [hk.2.2.1]
    exact h5

theorem getOrWrap_keeps {α : Type} (call : NicCall) (f : Remote → Except Error α × Remote)
    (msg : String) (hf : ∀ w, (f w).2 = w) : Preserves Keeps (getOrWrap call f msg) := by
  intro s
  apply keeps_of_world
  unfold getOrWrap
  cases h : (f s.world).1 <;> simp [hf]

theorem createInterfacePart_keeps (scope : NICScope) (sp : NICSpec) (nic : Interface) :
    Preserves Keeps (createInterfacePart remoteClients scope sp nic) := by
  intro s
  unfold createInterfacePart
  simp only [Prog.bind_eq, Prog.andThen, askPut, remoteClients]
  refine ⟨rfl, rfl, rfl, ?_⟩
  intro rg name lb1 h1
  exact ⟨lb1, h1, rfl, fun _ hn => hn⟩

theorem firstPoolOf_withRule (lb : LoadBalancer) (props : LoadBalancerPropertiesFormat)
    (rn : String) (rule : InboundNatRule) (hp : lb.props = some props) :
    firstPoolOf (lb.withRule rn rule) = firstPoolOf lb := by
  simp [firstPoolOf, LoadBalancer.withRule, hp]

theorem createInboundNatRule_keeps (scope : NICScope) (lb : LoadBalancer) (rn : String)
    (s : NicState Remote)
    (hlb : findLB s.world.loadBalancers scope.ResourceGroup (toStr lb.Name) = some lb) :
    Keeps s (createInboundNatRule remoteClients scope lb rn s).2 := by
  unfold createInboundNatRule
  cases hp : lb.props with
  | none => exact keeps_refl s
  | some props =>
    simp only
    cases hr : props.InboundNatRules with
    | none => exact keeps_refl s
    | some rules =>
      simp only
      cases hscan : scanRules rn rules [] with
      | found => exact keeps_refl s
      | nilDeref => exact keeps_refl s
      | ports ps =>
        simp only
        cases hsel : selectFrontendPort ps with
        | none => exact keeps_refl s
        | some port =>
          simp only
          cases hf : props.FrontendIPConfigurations with
          | none => exact keeps_refl s
          | some l =>
            cases l with
            | nil => exact keeps_refl s
            | cons fip rest =>
              simp only [Prog.bind_eq, Prog.andThen, askPut, Prog.ret,
                natPut_remote _ _ rn (natRuleFor rn fip port) s.world lb hlb]
              have hw := hasRule_withRule lb props rules rn (natRuleFor rn fip port) ps hp hr hscan
              refine ⟨rfl, rfl, rfl, ?_⟩
              intro rg1 name1 lb1 h1
              simp only [findLB_put, h1, Option.map_some']
              by_cases hk : rg1 = scope.ResourceGroup ∧ name1 = toStr lb.Name
              · rw [hk.1, hk.2, hlb] at h1
                cases h1
                simp only [hk, and_self, if_true]
                exact ⟨_, rfl, firstPoolOf_withRule lb props rn _ hp, hw.2⟩
              · simp only [hk, if_false]
                exact ⟨lb1, rfl, rfl, fun _ hn => hn⟩

theorem orWrap_state {S : Type} (m : Prog S Unit) (msg : String) (s : S) :
    (orWrap m msg s).2 = (m s).2 := by
  unfold orWrap
  rcases m s with ⟨r, s1⟩
  cases r <;> rfl

theorem publicLBPart_keeps (scope : NICScope) (sp : NICSpec) :
    Preserves Keeps (publicLBPart remoteClients scope sp) := by
  intro s
  unfold publicLBPart
  by_cases hname : sp.PublicLoadBalancerName = ""
  · simp only [hname, ne_eq, not_true_eq_false, if_false]
    exact keeps_refl s
  · simp only [hname, ne_eq, not_false_eq_true, if_true, Prog.bind_eq]
    cases hfind : findLB s.world.loadBalancers scope.ResourceGroup sp.PublicLoadBalancerName with
    | none =>
      rw [andThen_err _ _ _ _ _ (lbGet_remote_none _ _ _ s hfind)]
      exact keeps_of_world _ _ rfl
    | some lb =>
      rw [andThen_ok _ _ _ _ _ (lbGet_remote_some _ _ _ s lb hfind)]
      have hlbname := findLB_name _ _ _ _ hfind
      rcases firstBackendPoolID_cases lb
          ⟨s.world, s.log ++ [(NicCall.lbGet scope.ResourceGroup sp.PublicLoadBalancerName,
            none)]⟩ with ⟨poolID, hpool⟩ | hpool
      · rw [andThen_ok _ _ _ _ _ hpool]
        by_cases hrole : sp.MachineRole = ControlPlane
        · simp only [hrole, if_true]
          have hlb1 : findLB (NicState.mk s.world (s.log ++
              [(NicCall.lbGet scope.ResourceGroup sp.PublicLoadBalancerName,
                none)])).world.loadBalancers scope.ResourceGroup (toStr lb.Name) = some lb := by
            rw [hlbname]
            exact hfind
          have hk := createInboundNatRule_keeps scope lb sp.MachineName _ hlb1
          rw [← orWrap_state _ "failed to create NAT rule"] at hk
          have hk0 : Keeps s ⟨s.world, s.log ++
              [(NicCall.lbGet scope.ResourceGroup sp.PublicLoadBalancerName, none)]⟩ :=
            keeps_of_world _ _ rfl
          have hk1 := keeps_trans _ _ _ hk0 hk
          unfold Prog.andThen
          rcases hc : orWrap (createInboundNatRule remoteClients scope lb sp.MachineName)
              "failed to create NAT rule"
              ⟨s.world, s.log ++ [(NicCall.lbGet scope.ResourceGroup
                sp.PublicLoadBalancerName, none)]⟩ with ⟨r, s2⟩
          rw [hc] at hk1
          cases r <;> exact hk1
        · simp only [hrole, if_false]
          exact keeps_of_world _ _ rfl
      · rw [andThen_panic _ _ _ _ hpool]
        exact keeps_of_world _ _ rfl

theorem internalLBPart_keeps (scope : NICScope) (sp : NICSpec)
    (pools : List BackendAddressPool) :
    Preserves Keeps (internalLBPart remoteClients scope sp pools) := by
  unfold internalLBPart
  split
  · simp only [Prog.bind_eq]
    refine preserves_andThen Keeps keeps_trans _ _
      (getOrWrap_keeps _ _ _ (fun w => rfl)) (fun lb => ?_)
    exact preserves_andThen Keeps keeps_trans _ _
      (firstBackendPoolID_preserves Keeps keeps_refl lb)
      (fun _ => preserves_ret Keeps keeps_refl _)
  · exact preserves_ret Keeps keeps_refl _

theorem publicIPPart_keeps (scope : NICScope) (sp : NICSpec) :
    Preserves Keeps (publicIPPart remoteClients scope sp) := by
  unfold publicIPPart
  split
  · simp only [Prog.bind_eq]
    exact preserves_andThen Keeps keeps_trans _ _
      (getOrWrap_keeps _ _ _ (fun w => rfl)) (fun _ => preserves_ret Keeps keeps_refl _)
  · exact preserves_ret Keeps keeps_refl _

theorem acceleratedNetworkingPart_keeps (sp : NICSpec) :
    Preserves Keeps (acceleratedNetworkingPart remoteClients sp) := by
  unfold acceleratedNetworkingPart
  split
  · simp only [Prog.bind_eq]
    exact preserves_andThen Keeps keeps_trans _ _
      (getOrWrap_keeps _ _ _ (fun w => rfl)) (fun _ => preserves_ret Keeps keeps_refl _)
  · exact preserves_ret Keeps keeps_refl _

theorem reconcileNIC_keeps (scope : NICScope) (sp : NICSpec) :
    Preserves Keeps (reconcileNIC remoteClients scope sp) := by
  unfold reconcileNIC
  simp only [Prog.bind_eq]
  refine preserves_andThen Keeps keeps_trans _ _
    (getOrWrap_keeps _ _ _ (fun w => rfl)) (fun subnet => ?_)
  refine preserves_andThen Keeps keeps_trans _ _ (publicLBPart_keeps scope sp) (fun lbPart => ?_)
  refine preserves_andThen Keeps keeps_trans _ _ (internalLBPart_keeps scope sp _) (fun _ => ?_)
  refine preserves_andThen Keeps keeps_trans _ _ (publicIPPart_keeps scope sp) (fun _ => ?_)
  refine preserves_andThen Keeps keeps_trans _ _ (acceleratedNetworkingPart_keeps sp)
    (fun _ => ?_)
  exact createInterfacePart_keeps scope sp _

theorem lbGet_remote_inv (rg name : String) (w : Remote) (lb : LoadBalancer)
    (h : (remoteClients.LoadBalancersGet rg name w).1 = Except.ok lb) :
    findLB w.loadBalancers rg name = some lb := by
  simp only [remoteClients] at h
  cases hf : findLB w.loadBalancers rg name with
  | none => simp [hf] at h
  | some lb1 =>
    simp only [hf, Except.ok.injEq] at h
    rw [h]

theorem keeps_of_run {α : Type} (m : Prog (NicState Remote) α) (hm : Preserves Keeps m)
    (s t : NicState Remote) (r : Res α) (h : m s = (r, t)) : Keeps s t := by
  have := hm s
  rw [h] at this
  exact this

/-- A spec processed successfully leaves the remote state ready for it. -/
theorem reconcileNIC_makes_ready (scope : NICScope) (sp : NICSpec) (s : NicState Remote)
    (h : (reconcileNIC remoteClients scope sp s).1 = Res.ok ()) :
    Ready (reconcileNIC remoteClients scope sp s).2.world scope.ResourceGroup sp := by
  have hrun := run_eq_of_fst _ _ _ h
  have hall : Keeps s (reconcileNIC remoteClients scope sp s).2 := reconcileNIC_keeps scope sp s
  generalize (reconcileNIC remoteClients scope sp s).2 = t at hrun hall ⊢
  rw [reconcileNIC_eq] at hrun
  obtain ⟨r, s5, hlook, hcreate⟩ := andThen_ok_inv _ _ _ _ _ hrun
  obtain ⟨subnet, lbPart, pools, pip, s3, s4, hsub, hlb, hint, hpip, -, hacc, -⟩ :=
    nicLookups_ok_inv remoteClients scope sp s s5 r.1 r.2 hlook
  have k5 : Keeps s5 t :=
    keeps_of_run _ (createInterfacePart_keeps scope sp _) _ _ _ hcreate
  have k4 : Keeps s4 t :=
    keeps_trans _ _ _ (keeps_of_run _ (acceleratedNetworkingPart_keeps sp) _ _ _ hacc) k5
  have k3 : Keeps s3 t :=
    keeps_trans _ _ _ (keeps_of_run _ (publicIPPart_keeps scope sp) _ _ _ hpip) k4
  have k2 : Keeps (afterPublicLB remoteClients scope sp s) t :=
    keeps_trans _ _ _ (keeps_of_run _ (internalLBPart_keeps scope sp _) _ _ _ hint) k3
  refine ⟨?_, ?_, ?_, ?_, ?_⟩
  · rw [hall.1]
    exact ⟨subnet, hsub⟩
  · intro hname
    apply poolAt_keeps _ _ _ _ _ k2
    rcases publicLBPart_ok_inv remoteClients scope sp _ _ lbPart hlb with
      ⟨hn, -, -⟩ | ⟨-, lb, pool, hget, hfirst, hcase⟩
    · exact absurd hn hname
    · have hfind := lbGet_remote_inv _ _ _ _ hget
      have hlbname := findLB_name _ _ _ _ hfind
      rcases hcase with ⟨hrole, hcreate1, -⟩ | ⟨hrole, ht, -⟩
      · have hlb1 : findLB (NicState.mk
            (remoteClients.LoadBalancersGet scope.ResourceGroup sp.PublicLoadBalancerName
              (afterSubnetGet remoteClients sp s).world).2
            ((afterSubnetGet remoteClients sp s).log ++
              [(NicCall.lbGet scope.ResourceGroup sp.PublicLoadBalancerName,
                none)])).world.loadBalancers scope.ResourceGroup (toStr lb.Name) = some lb := by
          rw [hlbname]
          exact hfind
        have hk := createInboundNatRule_keeps scope lb sp.MachineName _ hlb1
        obtain ⟨-, hsettle⟩ := createInboundNatRule_remote scope lb sp.MachineName _ hlb1
        rw [hcreate1] at hk hsettle
        obtain ⟨lb1, hfind1, hrule⟩ := hsettle rfl
        obtain ⟨lb2, hfind2, hpool2, -⟩ := hk.2.2.2 _ _ lb hlb1
        simp only at hfind1 hfind2
        rw [hfind1] at hfind2
        cases hfind2
        rw [hlbname] at hfind1
        refine ⟨lb1, pool, hfind1, hpool2.trans hfirst, ?_⟩
        intro n hn
        simp only [hrole, if_true, Option.some.injEq] at hn
        subst hn
        exact hrule
      · refine ⟨lb, pool, ?_, hfirst, ?_⟩
        · rw [ht]
          exact hfind
        · intro n hn
          simp [hrole] at hn
  · intro hname
    apply poolAt_keeps _ _ _ _ _ k2
    rcases internalLBPart_ok_inv remoteClients scope sp _ _ _ _ hint with
      ⟨hn, -, -⟩ | ⟨-, lb, pool, hget, hfirst, -, -⟩
    · exact absurd hn hname
    · exact ⟨lb, pool, lbGet_remote_inv _ _ _ _ hget, hfirst, fun _ hn => by cases hn⟩
  · intro hname
    rw [k3.2.1]
    rcases publicIPPart_ok_inv remoteClients scope sp _ _ _ hpip with
      ⟨hn, -, -⟩ | ⟨-, p, hget, -, -⟩
    · exact absurd hn hname
    · exact ⟨p, hget⟩
  · intro hnone
    rw [k4.2.2.1]
    rcases acceleratedNetworkingPart_ok_inv remoteClients sp _ _ _ hacc with
      ⟨b, hb, -, -⟩ | ⟨-, a, hget, -, -⟩
    · rw [hnone] at hb
      cases hb
    · exact ⟨a, hget⟩

theorem firstBackendPoolID_of_pool {S : Type} (lb : LoadBalancer) (pool : BackendAddressPool)
    (h : firstPoolOf lb = some pool) (s : S) :
    firstBackendPoolID lb s = (Res.ok pool.ID, s) := by
  unfold firstPoolOf at h
  unfold firstBackendPoolID
  cases hp : lb.props with
  | none => simp [hp] at h
  | some props =>
    simp only [hp] at h ⊢
    cases hb : props.BackendAddressPools with
    | none => simp [hb] at h
    | some l =>
      cases l with
      | nil => simp [hb] at h
      | cons p rest =>
        simp only [hb, Option.some.injEq] at h ⊢
        subst h
        rfl

theorem publicLBPart_ready (scope : NICScope) (sp : NICSpec) (s : NicState Remote)
    (h : sp.PublicLoadBalancerName ≠ "" →
      PoolAt s.world scope.ResourceGroup sp.PublicLoadBalancerName
        (if sp.MachineRole = ControlPlane then some sp.MachineName else none)) :
    ∃ a t, publicLBPart remoteClients scope sp s = (Res.ok a, t) ∧ t.world = s.world := by
  unfold publicLBPart
  by_cases hname : sp.PublicLoadBalancerName = ""
  · simp only [hname, ne_eq, not_true_eq_false, if_false]
    exact ⟨_, s, rfl, rfl⟩
  · obtain ⟨lb, pool, hfind, hpool, hneed⟩ := h hname
    simp only [hname, ne_eq, not_false_eq_true, if_true, Prog.bind_eq]
    rw [andThen_ok _ _ _ _ _ (lbGet_remote_some _ _ _ s lb hfind),
      andThen_ok _ _ _ _ _ (firstBackendPoolID_of_pool lb pool hpool _)]
    by_cases hrole : sp.MachineRole = ControlPlane
    · simp only [hrole, if_true]
      have hrule : HasRule lb sp.MachineName := hneed _ (by simp [hrole])
      have hc := createInboundNatRule_settled remoteClients scope lb sp.MachineName
        (NicState.mk s.world (s.log ++
          [(NicCall.lbGet scope.ResourceGroup sp.PublicLoadBalancerName, none)])) hrule
      have ho : orWrap (createInboundNatRule remoteClients scope lb sp.MachineName)
          "failed to create NAT rule"
          (NicState.mk s.world (s.log ++
            [(NicCall.lbGet scope.ResourceGroup sp.PublicLoadBalancerName, none)])) =
          (Res.ok (), NicState.mk s.world (s.log ++
            [(NicCall.lbGet scope.ResourceGroup sp.PublicLoadBalancerName, none)])) := by
        unfold orWrap
        rw [hc]
      rw [andThen_ok _ _ _ _ _ ho]
      exact ⟨_, _, rfl, rfl⟩
    · simp only [hrole, if_false]
      exact ⟨_, _, rfl, rfl⟩

theorem internalLBPart_ready (scope : NICScope) (sp : NICSpec)
    (pools : List BackendAddressPool) (s : NicState Remote)
    (h : sp.InternalLoadBalancerName ≠ "" →
      PoolAt s.world scope.ResourceGroup sp.InternalLoadBalancerName none) :
    ∃ a t, internalLBPart remoteClients scope sp pools s = (Res.ok a, t) ∧
      t.world = s.world := by
  unfold internalLBPart
  by_cases hname : sp.InternalLoadBalancerName = ""
  · simp only [hname, ne_eq, not_true_eq_false, if_false]
    exact ⟨_, s, rfl, rfl⟩
  · obtain ⟨lb, pool, hfind, hpool, -⟩ := h hname
    simp only [hname, ne_eq, not_false_eq_true, if_true, Prog.bind_eq]
    rw [andThen_ok _ _ _ _ _ (lbGet_remote_some _ _ _ s lb hfind),
      andThen_ok _ _ _ _ _ (firstBackendPoolID_of_pool lb pool hpool _)]
    exact ⟨_, _, rfl, rfl⟩

theorem publicIPPart_ready (scope : NICScope) (sp : NICSpec) (s : NicState Remote)
    (h : sp.PublicIPName ≠ "" →
      ∃ pip, s.world.publicIPs scope.ResourceGroup sp.PublicIPName = Except.ok pip) :
    ∃ a t, publicIPPart remoteClients scope sp s = (Res.ok a, t) ∧ t.world = s.world := by
  unfold publicIPPart
  by_cases hname : sp.PublicIPName = ""
  · simp only [hname, ne_eq, not_true_eq_false, if_false]
    exact ⟨_, s, rfl, rfl⟩
  · obtain ⟨pip, hpip⟩ := h hname
    simp only [hname, ne_eq, not_false_eq_true, if_true, Prog.bind_eq]
    have hg : getOrWrap (NicCall.publicIPGet scope.ResourceGroup sp.PublicIPName)
        (remoteClients.PublicIPsGet scope.ResourceGroup sp.PublicIPName)
        "failed to get publicIP" s =
        (Res.ok pip, ⟨s.world, s.log ++
          [(NicCall.publicIPGet scope.ResourceGroup sp.PublicIPName, none)]⟩) := by
      simp [getOrWrap, remoteClients, hpip]
    rw [andThen_ok _ _ _ _ _ hg]
    exact ⟨_, _, rfl, rfl⟩

theorem acceleratedNetworkingPart_ready (sp : NICSpec) (s : NicState Remote)
    (h : sp.AcceleratedNetworking = none → ∃ a, s.world.skus sp.VMSize = Except.ok a) :
    ∃ a t, acceleratedNetworkingPart remoteClients sp s = (Res.ok a, t) ∧
      t.world = s.world := by
  unfold acceleratedNetworkingPart
  cases hacc : sp.AcceleratedNetworking with
  | some b => exact ⟨_, s, rfl, rfl⟩
  | none =>
    obtain ⟨a, ha⟩ := h hacc
    simp only [Prog.bind_eq]
    have hg : getOrWrap (NicCall.hasAcceleratedNetworking sp.VMSize)
        (remoteClients.HasAcceleratedNetworking sp.VMSize)
        "failed to get accelerated networking capability" s =
        (Res.ok a, ⟨s.world, s.log ++
          [(NicCall.hasAcceleratedNetworking sp.VMSize, none)]⟩) := by
      simp [getOrWrap, remoteClients, ha]
    rw [andThen_ok _ _ _ _ _ hg]
    exact ⟨_, _, rfl, rfl⟩

/-- On a remote state that is ready for a spec, the spec is processed
successfully. -/
theorem reconcileNIC_ready_ok (scope : NICScope) (sp : NICSpec) (s : NicState Remote)
    (h : Ready s.world scope.ResourceGroup sp) :
    (reconcileNIC remoteClients scope sp s).1 = Res.ok () := by
  obtain ⟨⟨subnet, hsub⟩, h2, h3, h4, h5⟩ := h
  unfold reconcileNIC
  simp only [Prog.bind_eq]
  have hg : getOrWrap (NicCall.subnetGet sp.VNetResourceGroup sp.VNetName sp.SubnetName)
      (remoteClients.SubnetsGet sp.VNetResourceGroup sp.VNetName sp.SubnetName)
      "failed to get subnets" s =
      (Res.ok subnet, ⟨s.world, s.log ++
        [(NicCall.subnetGet sp.VNetResourceGroup sp.VNetName sp.SubnetName, none)]⟩) := by
    simp [getOrWrap, remoteClients, hsub]
  rw [andThen_ok _ _ _ _ _ hg]
  obtain ⟨lbPart, t2, hpub, hw2⟩ := publicLBPart_ready scope sp
    ⟨s.world, s.log ++
      [(NicCall.subnetGet sp.VNetResourceGroup sp.VNetName sp.SubnetName, none)]⟩ h2
  rw [andThen_ok _ _ _ _ _ hpub]
  simp only at hw2
  obtain ⟨pools, t3, hint, hw3⟩ := internalLBPart_ready scope sp lbPart.1 t2
    (by rw [hw2]; exact h3)
  rw [andThen_ok _ _ _ _ _ hint]
  obtain ⟨pip, t4, hpip, hw4⟩ := publicIPPart_ready scope sp t3
    (by rw [hw3, hw2]; exact h4)
  rw [andThen_ok _ _ _ _ _ hpip]
  obtain ⟨accel, t5, hacc, hw5⟩ := acceleratedNetworkingPart_ready sp t4
    (by rw [hw4, hw3, hw2]; exact h5)
  rw [andThen_ok _ _ _ _ _ hacc]
  rfl

theorem forEach_makes_ready (scope : NICScope) (specs : List NICSpec) (s : NicState Remote)
    (h : (Prog.forEach (reconcileNIC remoteClients scope) specs s).1 = Res.ok ()) :
    ∀ sp ∈ specs,
      Ready (Prog.forEach (reconcileNIC remoteClients scope) specs s).2.world
        scope.ResourceGroup sp := by
  induction specs generalizing s with
  | nil =>
    intro sp hsp
    cases hsp
  | cons x rest ih =>
    obtain ⟨u, s1, hx, hrest⟩ :=
      andThen_ok_inv _ _ s _ () (run_eq_of_fst _ _ _ h)
    have hall : Prog.forEach (reconcileNIC remoteClients scope) (x :: rest) s =
        Prog.forEach (reconcileNIC remoteClients scope) rest s1 := by
      show Prog.andThen _ _ s = _
      rw [andThen_ok _ _ _ _ _ hx]
    rw [hall]
    have hrest1 : (Prog.forEach (reconcileNIC remoteClients scope) rest s1).1 = Res.ok () := by
      rw [← hall]
      exact h
    intro sp hsp
    rcases List.mem_cons.1 hsp with rfl | hmem
    · have hready := reconcileNIC_makes_ready scope sp s (by rw [hx])
      rw [hx] at hready
      exact ready_keeps _ _ _ _
        (preserves_forEach Keeps keeps_refl keeps_trans _ (reconcileNIC_keeps scope) rest s1)
        hready
    · exact ih s1 hrest1 sp hmem

theorem forEach_ready_ok (scope : NICScope) (specs : List NICSpec) (s : NicState Remote)
    (h : ∀ sp ∈ specs, Ready s.world scope.ResourceGroup sp) :
    (Prog.forEach (reconcileNIC remoteClients scope) specs s).1 = Res.ok () := by
  induction specs generalizing s with
  | nil => rfl
  | cons x rest ih =>
    have hx := run_eq_of_fst _ _ _
      (reconcileNIC_ready_ok scope x s (h x (List.mem_cons_self _ _)))
    have hk := reconcileNIC_keeps scope x s
    show (Prog.andThen _ _ s).1 = _
    rw [andThen_ok _ _ _ _ _ hx]
    exact ih _ (fun sp hsp => ready_keeps _ _ _ _ hk (h sp (List.mem_cons_of_mem _ hsp)))

/-- C10, amended: on a remote state that changes only through the requests of
the runs, after a `Reconcile` of the network interface service that returned
success, a second `Reconcile` with the same specs issues no create-or-update
request to the NAT rule client and leaves the load balancers as they are; it
returns success too, and it sends the interface create-or-update of every spec
again, each accepted. -/
theorem Reconcile_twice_no_nat_put (scope : NICScope) (s0 : NicState Remote)
    (hfirst : (Service.Reconcile remoteClients scope s0).1 = Res.ok ()) :
    (∀ ev ∈ issued (Service.Reconcile remoteClients scope s0).2
        (Service.Reconcile remoteClients scope (Service.Reconcile remoteClients scope s0).2).2,
      ∀ (rg l n : String) (r : InboundNatRule), ev.1 ≠ NicCall.natCreateOrUpdate rg l n r) ∧
    (Service.Reconcile remoteClients scope
        (Service.Reconcile remoteClients scope s0).2).2.world.loadBalancers =
      (Service.Reconcile remoteClients scope s0).2.world.loadBalancers ∧
    (Service.Reconcile remoteClients scope (Service.Reconcile remoteClients scope s0).2).1 =
      Res.ok () ∧
    (∀ sp ∈ scope.NICSpecs, ∃ nic,
      (NicCall.nicCreateOrUpdate scope.ResourceGroup sp.Name nic, none) ∈
        issued (Service.Reconcile remoteClients scope s0).2
          (Service.Reconcile remoteClients scope
            (Service.Reconcile remoteClients scope s0).2).2) := by
  have hsettled := forEach_settles scope scope.NICSpecs s0 trivial () hfirst
  obtain ⟨hl, evs, hlog, hno⟩ := forEach_quiet scope _ scope.NICSpecs hsettled
    (Service.Reconcile remoteClients scope s0).2 rfl
  have hready := forEach_makes_ready scope scope.NICSpecs s0 hfirst
  have hsecond : (Service.Reconcile remoteClients scope
      (Service.Reconcile remoteClients scope s0).2).1 = Res.ok () :=
    forEach_ready_ok scope scope.NICSpecs _ hready
  refine ⟨?_, hl, hsecond, ?_⟩
  · unfold issued
    unfold Service.Reconcile at hlog ⊢
    rw [hlog, List.drop_left]
    exact hno
  · exact forEach_created remoteClients scope scope.NICSpecs _ _
      (run_eq_of_fst _ _ _ hsecond)

/-- Witness of C10: the control-plane machine `cp0` behind the load balancer
`lb`; the first call creates the NAT rule and returns success, the second call
sends the interface of `cp0` again and no NAT rule. -/
theorem Reconcile_twice_no_nat_put_witness :
    (Service.Reconcile remoteClients sampleNICScope ⟨sampleRemote [], []⟩).1 = Res.ok () ∧
    (NicCall.natCreateOrUpdate "rg" "lb" "cp0"
        (natRuleFor "cp0" ⟨some "fe", some "/lb/fe"⟩ 22), none) ∈
      (Service.Reconcile remoteClients sampleNICScope ⟨sampleRemote [], []⟩).2.log ∧
    requestsOf (issued (Service.Reconcile remoteClients sampleNICScope ⟨sampleRemote [], []⟩).2
        (Service.Reconcile remoteClients sampleNICScope
          (Service.Reconcile remoteClients sampleNICScope ⟨sampleRemote [], []⟩).2).2) =
      [NicCall.subnetGet "rg" "demo-vnet" "cp-subnet",
       NicCall.lbGet "rg" "lb",
       NicCall.hasAcceleratedNetworking "Standard_D2s_v3",
       NicCall.nicCreateOrUpdate "rg" "cp0-nic"
         { Location := some "westus"
           IPConfigurations := some [⟨some "pipConfig", some
             { Subnet := some ⟨some "/subnet"⟩
               PrivateIPAllocationMethod := IPAllocationMethod.Dynamic
               PrivateIPAddress := none
               LoadBalancerBackendAddressPools := some [⟨some "/lb/pool"⟩]
               LoadBalancerInboundNatRules :=
                 some [⟨none, none, some "/lb/inboundNatRules/cp0"⟩]
               PublicIPAddress := none }⟩]
           EnableAcceleratedNetworking := some false }] ∧
    ((∀ ev ∈ issued (Service.Reconcile remoteClients sampleNICScope ⟨sampleRemote [], []⟩).2
        (Service.Reconcile remoteClients sampleNICScope
          (Service.Reconcile remoteClients sampleNICScope ⟨sampleRemote [], []⟩).2).2,
      ∀ (rg l n : String) (r : InboundNatRule), ev.1 ≠ NicCall.natCreateOrUpdate rg l n r) ∧
    (Service.Reconcile remoteClients sampleNICScope
        (Service.Reconcile remoteClients sampleNICScope
          ⟨sampleRemote [], []⟩).2).2.world.loadBalancers =
      (Service.Reconcile remoteClients sampleNICScope
        ⟨sampleRemote [], []⟩).2.world.loadBalancers ∧
    (Service.Reconcile remoteClients sampleNICScope
        (Service.Reconcile remoteClients sampleNICScope ⟨sampleRemote [], []⟩).2).1 =
      Res.ok () ∧
    (∀ sp ∈ sampleNICScope.NICSpecs, ∃ nic,
      (NicCall.nicCreateOrUpdate sampleNICScope.ResourceGroup sp.Name nic, none) ∈
        issued (Service.Reconcile remoteClients sampleNICScope ⟨sampleRemote [], []⟩).2
          (Service.Reconcile remoteClients sampleNICScope
            (Service.Reconcile remoteClients sampleNICScope ⟨sampleRemote [], []⟩).2).2)) :=
  ⟨by decide, by decide, by decide,
   Reconcile_twice_no_nat_put sampleNICScope ⟨sampleRemote [], []⟩ (by decide)⟩

end Capz
